import Mathlib

/-!
# Toby LTE modem manager: request/response correlation and line framing

A shallow embedding of `toby-lte-modem-manager.go`.

* Go strings are immutable byte sequences, so a string is a `List UInt8`;
  `len`, slicing, `strings.Contains`, `strings.Replace` and `strings.Split`
  all work on bytes. Only the regular expression `.` decodes a UTF-8 rune.
* `container/list` queues are lists: `PushBack` appends at the end,
  `Front`/`Remove` take from the head.
* Console output (`fmt.Print*`) and sleeping are not modelled; `debugMode`
  only selects what is printed, so the embedded functions do not take it.
* The clock and the lines the I/O pump delivers are inputs.
-/

namespace TobyLTE

/-! ## Strings -/

/-- A Go string: a sequence of bytes. -/
abbrev GoString := List UInt8

/-- The bytes of a string literal of the source (its UTF-8 encoding). -/
def lit (s : String) : GoString := s.data.flatMap String.utf8EncodeChar

/-- Go `strings.Contains(s, substr)`: `substr` occurs in `s` at some offset. -/
def contains : GoString → GoString → Bool
  | [], sub => sub.isPrefixOf []
  | c :: s, sub => sub.isPrefixOf (c :: s) || contains s sub

/-- Go `strings.Replace(s, old, new, 1)`: the first occurrence of `old` in `s`
is replaced by `new`; `s` is returned unchanged when `old` does not occur. -/
def replaceFirst : GoString → GoString → GoString → GoString
  | [], old, new => if old.isPrefixOf [] then new else []
  | c :: s, old, new =>
    if old.isPrefixOf (c :: s) then new ++ (c :: s).drop old.length
    else c :: replaceFirst s old new

/-- Go `strings.Split(s, sep)` for a one-byte separator: the fields between
the separators, `[""]` for the empty string. -/
def split (sep : UInt8) : GoString → List GoString
  | [] => [[]]
  | c :: s =>
    if c = sep then [] :: split sep s
    else match split sep s with
      | [] => [[c]]
      | f :: fs => (c :: f) :: fs

/-- The character class `[a-zA-Z]`. -/
def isLetter (b : UInt8) : Bool :=
  (97 ≤ b && b ≤ 122) || (65 ≤ b && b ≤ 90)

/-- Continuation byte `0x80..0xBF` of a UTF-8 sequence. -/
def isCont (b : UInt8) : Bool := 128 ≤ b && b ≤ 191

/-- Width in bytes of the first rune of a non-empty string as Go decodes it
(`utf8.DecodeRuneInString`): 1 for ASCII, 2 to 4 for a well-formed multi-byte
sequence, and 1 for any malformed start (decoded as `RuneError`). -/
def runeWidth : GoString → Nat
  | [] => 0
  | b0 :: rest =>
    if b0 < 128 then 1
    else if 194 ≤ b0 && b0 ≤ 223 then
      match rest with
      | b1 :: _ => if isCont b1 then 2 else 1
      | _ => 1
    else if 224 ≤ b0 && b0 ≤ 239 then
      match rest with
      | b1 :: b2 :: _ =>
        let lo : UInt8 := if b0 = 224 then 160 else 128
        let hi : UInt8 := if b0 = 237 then 159 else 191
        if lo ≤ b1 && b1 ≤ hi && isCont b2 then 3 else 1
      | _ => 1
    else if 240 ≤ b0 && b0 ≤ 244 then
      match rest with
      | b1 :: b2 :: b3 :: _ =>
        let lo : UInt8 := if b0 = 240 then 144 else 128
        let hi : UInt8 := if b0 = 244 then 143 else 191
        if lo ≤ b1 && b1 ≤ hi && isCont b2 && isCont b3 then 4 else 1
      | _ => 1
    else 1

/-- The first statement of lines 78: `regexp.MustCompile("^(at|AT)")
.ReplaceAllLiteralString(command, "")`. The pattern is anchored, so at most
one two-byte match, at offset 0, is removed. -/
def stripAT (command : GoString) : GoString :=
  if (lit "at").isPrefixOf command || (lit "AT").isPrefixOf command then command.drop 2
  else command

/-- Line 79: `regexp.MustCompile("^.[a-zA-Z]*").FindString(s)`. The dot matches
one rune other than a newline, the star is greedy; without a match the result
is the empty string. -/
def findDotLetters (s : GoString) : GoString :=
  match s with
  | [] => []
  | c :: _ =>
    if c = 10 then []
    else s.take (runeWidth s) ++ (s.drop (runeWidth s)).takeWhile isLetter

/-- Lines 78-79 of `makeRequest`: the search term derived from a command. -/
def searchTermOf (command : GoString) : GoString :=
  findDotLetters (stripAT command)

/-! ## The command correlator `makeRequest` -/

/-- The two queues shared by the I/O pump and the script (`transmitQueue`,
`receiveQueue`), with one history variable: `consumed` lists the elements
that `receiveQueue.Remove` has taken out, in the order of removal. -/
structure World where
  transmitQueue : List GoString
  receiveQueue : List GoString
  consumed : List GoString
  deriving DecidableEq, Repr

/-- The locals `completed`, `success`, `response` of `makeRequest`. -/
structure Request where
  completed : Bool
  success : Bool
  response : GoString
  deriving DecidableEq, Repr

/-- Lines 93-102: the if/else-if chain applied to one response line `s`. -/
def classify (searchTerm : GoString) (r : Request) (s : GoString) : Request :=
  if searchTerm ≠ [] && contains s (searchTerm ++ lit ": ") then
    { r with response := replaceFirst s (searchTerm ++ lit ": ") [] }
  else if s = lit "OK" then
    { r with success := true, completed := true }
  else if contains s (lit "ERROR") then
    { r with response := s, success := false, completed := true }
  else r

/-- Lines 85-104: `for receiveQueue.Len() > 0`: take the front element,
classify it, remove it. Returns the locals, the queue and the removal
history after the loop. -/
def drain (searchTerm : GoString) :
    Request → List GoString → List GoString → Request × List GoString × List GoString
  | r, [], done => (r, [], done)
  | r, s :: queue, done => drain searchTerm (classify searchTerm r s) queue (done ++ [s])

/-- One iteration of the outer `for` of `makeRequest` as the environment
presents it: `arrived` are the lines the I/O pump has appended to the receive
queue by the time the drain loop of this iteration finds the queue empty, and
`now` is the value `time.Now().UnixNano()` takes at line 107. -/
structure Pass where
  arrived : List GoString
  now : Int
  deriving DecidableEq, Repr

/-- What the environment presents to one call of `makeRequest`: the clock at
line 73 and the successive iterations of the wait loop. -/
structure Env where
  start : Int
  passes : List Pass
  deriving DecidableEq, Repr

/-- Two's-complement wrap-around of `int64` arithmetic. -/
def wrapInt64 (x : Int) : Int := (x + 2 ^ 63) % 2 ^ 64 - 2 ^ 63

/-- Line 73: `timeout := time.Now().UnixNano() + (5 * 1000000000)`. -/
def timeoutAt (start : Int) : Int := wrapInt64 (start + 5 * 1000000000)

/-- The message returned at lines 108-109. -/
def timedOutMessage : GoString := lit "Timed out waiting for response"

/-- The two ways out of the wait loop: `completed` is the `return success,
response` of line 106, `deadline` the time-out return of lines 108-109. -/
inductive Exit where
  | completed (success : Bool) (response : GoString)
  | deadline
  deriving DecidableEq, Repr

/-- The pair of values a way out hands to the caller. -/
def Exit.result : Exit → Bool × GoString
  | .completed success response => (success, response)
  | .deadline => (false, timedOutMessage)

/-- Lines 83-112: the outer `for`. Each iteration drains the receive queue,
then returns if `completed`, else returns the time-out if the clock is past
`timeout`, else sleeps and repeats. `none`: the iterations supplied by the
environment are used up and the call is still waiting. -/
def awaitLoop (searchTerm : GoString) (timeout : Int) :
    Request → World → List Pass → Option (Exit × World)
  | _, _, [] => none
  | r, w, p :: ps =>
    let d := drain searchTerm r (w.receiveQueue ++ p.arrived) w.consumed
    let w1 : World := { w with receiveQueue := d.2.1, consumed := d.2.2 }
    if d.1.completed then some (.completed d.1.success d.1.response, w1)
    else if p.now > timeout then some (.deadline, w1)
    else awaitLoop searchTerm timeout d.1 w1 ps

/-- The locals of `makeRequest` at lines 74-76. -/
def Request.init : Request := { completed := false, success := false, response := [] }

/-- The function `makeRequest`, lines 72-113, with the return statement taken
recorded. -/
def makeRequestExit (command : GoString) (env : Env) (w : World) : Option (Exit × World) :=
  awaitLoop (searchTermOf command) (timeoutAt env.start) Request.init
    { w with transmitQueue := w.transmitQueue ++ [command] } env.passes

/-- The function `makeRequest(command, debugMode)`, lines 72-113: the returned
pair `(success, response)` and the queues on return. -/
def makeRequest (command : GoString) (env : Env) (w : World) :
    Option ((Bool × GoString) × World) :=
  (makeRequestExit command env w).map fun x => (x.1.result, x.2)

/-! ## How a script step ends -/

/-- A step of the script either returns a value, ends the process through
`os.Exit(code)`, or stops in a run-time panic (index or slice out of range). -/
inductive Outcome (α : Type) where
  | ret (a : α)
  | exit (code : Int)
  | fault
  deriving DecidableEq, Repr

/-- The fatal path used throughout the script: `transmitQueue.PushBack("ATZ")`,
a sleep, `os.Exit(-1)`. -/
def fatal {α : Type} (w : World) : Outcome α × World :=
  (.exit (-1), { w with transmitQueue := w.transmitQueue ++ [lit "ATZ"] })

/-! ## The setting enforcer -/

/-- The function `enforceModemSetting`, lines 115-141. `e1` and `e2` are what
the environment presents to the query and to the corrective request. -/
def enforceModemSetting (modemSetting : GoString) (e1 e2 : Env) (w : World) :
    Option (Outcome Bool × World) :=
  match split 61 modemSetting with
  | querySetting :: desiredValue :: _ =>
    match makeRequest (querySetting ++ lit "?") e1 w with
    | none => none
    | some ((success, response), w1) =>
      if !success then some (fatal w1)
      else if !contains response desiredValue then
        match makeRequest modemSetting e2 w1 with
        | none => none
        | some ((success2, _), w2) =>
          if !success2 then some (fatal w2)
          else some (.ret true, w2)
      else some (.ret false, w1)
  | _ => some (.fault, w)

/-! ## Network registration and session activation -/

/-- Lines 216-231: the loop `for i := 20; i > 0; i--`, with `i` iterations
left. `success` and `response` are the script variables of that name; `envs`
are what the environment presents to the successive requests. -/
def pollRegistration :
    Nat → Bool → GoString → List Env → World → Option (Outcome (Bool × GoString) × World)
  | 0, success, response, _, w => some (.ret (success, response), w)
  | _ + 1, _, _, [], _ => none
  | i + 1, _, _, e :: es, w =>
    match makeRequest (lit "AT+CREG?") e w with
    | none => none
    | some ((success, response), w1) =>
      if !success then some (fatal w1)
      else
        match split 44 response with
        | _ :: status :: _ =>
          if status = lit "1" || status = lit "5" then some (.ret (true, response), w1)
          else pollRegistration i false response es w1
        | _ => some (.fault, w1)

/-- Lines 216-237 (AwaitRegistration): the polling loop followed by the
check `if !success` that ends the process. -/
def awaitRegistration (success : Bool) (response : GoString) (envs : List Env) (w : World) :
    Option (Outcome Unit × World) :=
  match pollRegistration 20 success response envs w with
  | none => none
  | some (.ret (ok, _), w1) => if !ok then some (fatal w1) else some (.ret (), w1)
  | some (.exit code, w1) => some (.exit code, w1)
  | some (.fault, w1) => some (.fault, w1)

/-- The commands of lines 240-244 (ActivateSession). -/
def activationCommands : List GoString :=
  [lit "AT+UPSD=0,100,4", lit "AT+UPSD=0,0,0", lit "AT+UPSDA=0,3"]

/-- The loops of lines 203-211 and 246-254: `for _, s := range PDPCommands`,
each command sent with `makeRequest`, a failure being fatal. -/
def issueCommands : List GoString → List Env → World → Option (Outcome Unit × World)
  | [], _, w => some (.ret (), w)
  | _ :: _, [], _ => none
  | s :: cmds, e :: es, w =>
    match makeRequest s e w with
    | none => none
    | some ((success, _), w1) =>
      if !success then some (fatal w1)
      else issueCommands cmds es w1

/-- Lines 216-254: AwaitRegistration followed by ActivateSession. `regEnvs`
serve the registration polls, `actEnvs` the activation commands. -/
def registerAndActivate (success : Bool) (response : GoString) (regEnvs actEnvs : List Env)
    (w : World) : Option (Outcome Unit × World) :=
  match awaitRegistration success response regEnvs w with
  | none => none
  | some (.ret (), w1) => issueCommands activationCommands actEnvs w1
  | some (.exit code, w1) => some (.exit code, w1)
  | some (.fault, w1) => some (.fault, w1)

/-! ## The line framer of the pump loop -/

/-- The framer variables of `main`: the working buffer `receivedToProcess`
(made with 255 bytes at line 363) and the count `receivedBytes`. -/
structure Framer where
  receivedToProcess : List UInt8
  receivedBytes : Nat
  deriving DecidableEq, Repr

/-- The framer at line 365: a zeroed buffer of 255 bytes, no byte received. -/
def Framer.init : Framer := { receivedToProcess := List.replicate 255 0, receivedBytes := 0 }

/-- Lines 414-429, the body of `for i := 0; i < n; i++` for one received byte
`b`, on the framer and the receive queue. `none`: the store at line 414 is out
of range, a run-time panic. -/
def frameByte (st : Framer × List GoString) (b : UInt8) : Option (Framer × List GoString) :=
  if st.1.receivedBytes < st.1.receivedToProcess.length then
    let buf := st.1.receivedToProcess.set st.1.receivedBytes b
    let n := st.1.receivedBytes + 1
    if n ≥ 2 then
      if buf.getD (n - 1) 0 = 10 && buf.getD (n - 2) 0 = 13 then
        let receivedToQueue := buf.take (n - 2)
        if receivedToQueue ≠ [] then
          some ({ receivedToProcess := buf, receivedBytes := 0 }, st.2 ++ [receivedToQueue])
        else some ({ receivedToProcess := buf, receivedBytes := 0 }, st.2)
      else some ({ receivedToProcess := buf, receivedBytes := n }, st.2)
    else some ({ receivedToProcess := buf, receivedBytes := n }, st.2)
  else none

/-- Lines 410-430: the loop over the bytes of one read. -/
def frameChunk : Framer × List GoString → List UInt8 → Option (Framer × List GoString)
  | st, [] => some st
  | st, b :: bs =>
    match frameByte st b with
    | none => none
    | some st1 => frameChunk st1 bs

/-- The framing done by successive iterations of the pump loop `MAIN`, one
read per iteration. -/
def frameChunks : Framer × List GoString → List (List UInt8) → Option (Framer × List GoString)
  | st, [] => some st
  | st, chunk :: chunks =>
    match frameChunk st chunk with
    | none => none
    | some st1 => frameChunks st1 chunks

/-! ## Definitions that follow the wording of the specification -/

/-- The match pattern as the specification words it: after the `AT`/`at`
prefix is stripped, the longest leading run of alphabetic characters plus the
single character that follows that run. -/
def specPattern (command : GoString) : GoString :=
  (stripAT command).takeWhile isLetter ++
    ((stripAT command).dropWhile isLetter).take 1

/-! ## Classes of response lines -/

/-- The first branch of the chain of `classify` is taken: a data response. -/
def isData (searchTerm s : GoString) : Bool :=
  searchTerm ≠ [] && contains s (searchTerm ++ lit ": ")

/-- The third branch of the chain of `classify` is taken: an error line. -/
def isError (searchTerm s : GoString) : Bool :=
  !isData searchTerm s && s ≠ lit "OK" && contains s (lit "ERROR")

/-- The lines a drain loop processes in the iteration that follows the
iterations `earlier` of a call: what was in the receive queue at the call (if
this is the first iteration) and what arrived for this iteration. -/
def passInput (w : World) (earlier : List Pass) (p : Pass) : List GoString :=
  match earlier with
  | [] => w.receiveQueue ++ p.arrived
  | _ :: _ => p.arrived

/-- The stream `l1 CR LF l2 CR LF ... ln CR LF`. -/
def crlfStream : List GoString → List UInt8
  | [] => []
  | l :: ls => l ++ [13, 10] ++ crlfStream ls

/-- The world an iteration of the wait loop leaves: the receive queue is
empty and every line it held or received has entered the removal history. -/
def afterPass (w : World) (p : Pass) : World :=
  { w with receiveQueue := [], consumed := w.consumed ++ (w.receiveQueue ++ p.arrived) }

/-- What a step that ends in `out` has appended to the transmit queue after
its requests: `ATZ` when it ends the process through the fatal path. -/
def exitTail {α : Type} : Outcome α → List GoString
  | .exit _ => [lit "ATZ"]
  | _ => []

/-! ## EnforceSettings and the restart -/

/-- Lines 155-162: the three enforcements, each the left operand of
`|| restartRequired`, hence always called; `restartRequired` is false
at line 145. `e1`, ..., `e6` are what the environment presents to the two
possible requests of each enforcement. -/
def enforceSettings (e1 e2 e3 e4 e5 e6 : Env) (w : World) : Option (Outcome Bool × World) :=
  match enforceModemSetting (lit "AT+UBMCONF=2") e1 e2 w with
  | none => none
  | some (.exit code, w1) => some (.exit code, w1)
  | some (.fault, w1) => some (.fault, w1)
  | some (.ret r1, w1) =>
    match enforceModemSetting (lit "AT+UUSBCONF=2,\"ECM\"") e3 e4 w1 with
    | none => none
    | some (.exit code, w2) => some (.exit code, w2)
    | some (.fault, w2) => some (.fault, w2)
    | some (.ret r2, w2) =>
      match enforceModemSetting (lit "AT+UWWEBUI=1") e5 e6 w2 with
      | none => none
      | some (.exit code, w3) => some (.exit code, w3)
      | some (.fault, w3) => some (.fault, w3)
      | some (.ret r3, w3) => some (.ret (r3 || (r2 || (r1 || false))), w3)

/-- Lines 155-167: the enforcements, then `if restartRequired` the restart
command is queued. The result tells whether the script is now in the restart
branch. -/
def enforceAndRequestRestart (e1 e2 e3 e4 e5 e6 : Env) (w : World) :
    Option (Outcome Bool × World) :=
  match enforceSettings e1 e2 e3 e4 e5 e6 w with
  | none => none
  | some (.exit code, w3) => some (.exit code, w3)
  | some (.fault, w3) => some (.fault, w3)
  | some (.ret restartRequired, w3) =>
    if restartRequired then
      some (.ret true, { w3 with transmitQueue := w3.transmitQueue ++ [lit "AT+CFUN=1,1"] })
    else some (.ret false, w3)

/-- Lines 169-182: the wait for the device path to disappear and reappear.
`gone` lists the successive values of `os.IsNotExist(err)` after
`os.Stat(ttyPort)`. `none`: still waiting when `gone` is used up. -/
def awaitRestart : Bool → List Bool → Option (Outcome Unit)
  | _, [] => none
  | modemDisappeared, notExist :: gone =>
    if notExist then awaitRestart true gone
    else if modemDisappeared then some (.exit 0)
    else awaitRestart modemDisappeared gone

/-! ## The goroutines that call `makeRequest` -/

/-- A goroutine with respect to `makeRequest`: outside any call, or inside
one, between two iterations of its wait loop (asleep at line 111), with the
search term, the deadline and the locals of that call. -/
inductive Caller where
  | outside
  | waiting (searchTerm : GoString) (timeout : Int) (r : Request)
  deriving DecidableEq, Repr

/-- Whether the goroutine has a call of `makeRequest` in progress. -/
def Caller.busy : Caller → Bool
  | .outside => false
  | .waiting _ _ _ => true

/-- The goroutines started at lines 388-389 and the queues they share:
`runScript` always, `readStdin` only in debug mode (`none`: not started). -/
structure Tasks where
  world : World
  script : Caller
  console : Option Caller
  deriving DecidableEq, Repr

/-- The state after lines 388-389. -/
def Tasks.start (debug : Bool) (w : World) : Tasks :=
  { world := w, script := .outside, console := if debug then some .outside else none }

/-- The two goroutines. -/
inductive TaskId where
  | script
  | console
  deriving DecidableEq, Repr

/-- A step of a goroutine: it calls `makeRequest(command)` with the clock at
`start` (lines 73-81), or it runs one iteration of the wait loop of its call
(lines 85-111). -/
inductive Event where
  | call (t : TaskId) (command : GoString) (start : Int)
  | pass (t : TaskId) (p : Pass)
  deriving DecidableEq, Repr

/-- The goroutine `t`, if it was started. -/
def Tasks.caller (s : Tasks) : TaskId → Option Caller
  | .script => some s.script
  | .console => s.console

/-- The state with goroutine `t` at `c`. -/
def Tasks.setCaller (s : Tasks) (t : TaskId) (c : Caller) : Tasks :=
  match t with
  | .script => { s with script := c }
  | .console => { s with console := some c }

/-- Lines 85-111, one iteration of the wait loop of a call: the drain, then
the return (the goroutine is outside again) or the sleep. -/
def iterate (searchTerm : GoString) (timeout : Int) (r : Request) (w : World) (p : Pass) :
    Caller × World :=
  let d := drain searchTerm r (w.receiveQueue ++ p.arrived) w.consumed
  let w1 : World := { w with receiveQueue := d.2.1, consumed := d.2.2 }
  if d.1.completed then (.outside, w1)
  else if p.now > timeout then (.outside, w1)
  else (.waiting searchTerm timeout d.1, w1)

/-- One step of the program. Nothing in the source orders the steps of the
two goroutines, so any event of a started goroutine that fits its own state is
possible: a call when it is outside, an iteration when it is inside one.
`none`: the event does not fit. -/
def Tasks.step (s : Tasks) : Event → Option Tasks
  | .call t command start =>
    match s.caller t with
    | some .outside =>
      some (Tasks.setCaller
        { s with world := { s.world with
            transmitQueue := s.world.transmitQueue ++ [command] } }
        t (.waiting (searchTermOf command) (timeoutAt start) Request.init))
    | _ => none
  | .pass t p =>
    match s.caller t with
    | some (.waiting searchTerm timeout r) =>
      some (Tasks.setCaller { s with world := (iterate searchTerm timeout r s.world p).2 }
        t (iterate searchTerm timeout r s.world p).1)
    | _ => none

/-- A sequence of steps. -/
def Tasks.run : Tasks → List Event → Option Tasks
  | s, [] => some s
  | s, ev :: evs =>
    match s.step ev with
    | none => none
    | some s1 => Tasks.run s1 evs

/-- The number of calls of `makeRequest` in progress. -/
def Tasks.inProgress (s : Tasks) : Nat :=
  (if s.script.busy then 1 else 0)
    + (match s.console with
      | some c => if c.busy then 1 else 0
      | none => 0)

/-- The lines that arrive during a sequence of steps. -/
def arrivedIn : List Event → List GoString
  | [] => []
  | .call _ _ _ :: evs => arrivedIn evs
  | .pass _ p :: evs => p.arrived ++ arrivedIn evs

/-! ## The health monitor -/

/-- A notification of the pinger: `OnRecv` (a reply arrived) or `OnIdle`. -/
inductive Probe where
  | recv
  | idle
  deriving DecidableEq, Repr

/-- The handlers of lines 148-152 on the counter `timeouts`, a `uint`:
`OnRecv` stores 0, `OnIdle` increments (the `uint` taken as 64 bits wide). -/
def onProbe (timeouts : Nat) : Probe → Nat
  | .recv => 0
  | .idle => (timeouts + 1) % 2 ^ 64

/-- The pinger as far as the script drives it: whether its loop runs
(`RunLoop`/`Stop`) and its probe targets (`AddIP`/`RemoveIP`). -/
structure Pinger where
  running : Bool
  targets : List GoString
  deriving DecidableEq, Repr

/-- Where the script is: in the loop of lines 312-320, or back at the top of
the loop `CONNECT` (line 186), whose first step is the PDP set-up. -/
inductive Phase where
  | monitoring
  | provisionPDP
  deriving DecidableEq, Repr

/-- The script while it monitors: the counter, the pinger and the phase. -/
structure Monitor where
  timeouts : Nat
  pinger : Pinger
  phase : Phase
  deriving DecidableEq, Repr

/-- Lines 281 and 310-311: `pinger.AddIP(PrimaryDNSIP)`, `timeouts = 0`,
`pinger.RunLoop()`, for a pinger that had no target. -/
def startMonitor (primaryDNS : GoString) : Monitor :=
  { timeouts := 0, pinger := { running := true, targets := [primaryDNS] },
    phase := .monitoring }

/-- Lines 313-318, one evaluation of the check of the monitoring loop: at
`timeouts >= 3` the pinger is stopped, the target removed and the script
continues at `CONNECT`. -/
def checkMonitor (primaryDNS : GoString) (m : Monitor) : Monitor :=
  if m.timeouts ≥ 3 then
    { m with
      pinger := { running := false, targets := m.pinger.targets.filter (· ≠ primaryDNS) },
      phase := .provisionPDP }
  else m

/-- An event of a monitoring episode. The callbacks of the pinger run in the
pinger's goroutine (lines 148-152); the script reads the counter in its own
loop, once every 100 ms (lines 312-320). Nothing orders the two, so a
notification and an evaluation of the check are separate events. -/
inductive MonitorEvent where
  | probe (n : Probe)
  | poll
  deriving DecidableEq, Repr

/-- One event while monitoring: a notification runs its handler on the
counter, an evaluation of the check runs lines 313-318. Once the script has
left the loop (the pinger is stopped) the episode is over and nothing
changes. -/
def monitorStep (primaryDNS : GoString) (m : Monitor) : MonitorEvent → Monitor
  | .probe n =>
    match m.phase with
    | .monitoring => { m with timeouts := onProbe m.timeouts n }
    | .provisionPDP => m
  | .poll =>
    match m.phase with
    | .monitoring => checkMonitor primaryDNS m
    | .provisionPDP => m

/-- The monitor after a sequence of events. -/
def monitorRun (primaryDNS : GoString) (events : List MonitorEvent) : Monitor :=
  events.foldl (monitorStep primaryDNS) (startMonitor primaryDNS)

/-- The notifications among a sequence of events, in order. -/
def probesOf : List MonitorEvent → List Probe
  | [] => []
  | .probe n :: events => n :: probesOf events
  | .poll :: events => probesOf events

/-- The number of idle notifications since the last success (since the start
when there was none): the specification's reading of the health counter. -/
def idlesSinceRecv (probes : List Probe) : Nat :=
  (probes.reverse.takeWhile (· = Probe.idle)).length

/-! ## ExtractConfig and ConfigureInterface -/

/-- The globals `NetworkIP`, `GatewayIP`, `PrimaryDNSIP`, `SecondaryDNSIP`. -/
structure NetworkConfig where
  NetworkIP : GoString
  GatewayIP : GoString
  PrimaryDNSIP : GoString
  SecondaryDNSIP : GoString
  deriving DecidableEq, Repr

/-- The slice expression `x[1 : len(x)-1]`. `none`: the bounds are out of
range, which is the case for `len(x) < 2`. -/
def sliceInner (x : GoString) : Option GoString :=
  if 2 ≤ x.length then some ((x.drop 1).take (x.length - 2)) else none

/-- The expression `fields[i][1 : len(fields[i])-1]` of lines 276-279.
`none`: the index or the slice is out of range, a run-time panic. -/
def innerOfField (fields : List GoString) (i : Nat) : Option GoString :=
  match fields[i]? with
  | none => none
  | some x => sliceInner x

/-- Lines 276-279: the four assignments to the globals, in order; the first
expression out of range stops them. -/
def assignConfig (NetworkInformation GatewayInformation : List GoString) (g : NetworkConfig) :
    Outcome Unit × NetworkConfig :=
  match innerOfField NetworkInformation 4 with
  | none => (.fault, g)
  | some a =>
    match innerOfField NetworkInformation 5 with
    | none => (.fault, { g with NetworkIP := a })
    | some b =>
      match innerOfField NetworkInformation 6 with
      | none => (.fault, { g with NetworkIP := a, PrimaryDNSIP := b })
      | some c =>
        match innerOfField GatewayInformation 2 with
        | none => (.fault, { g with NetworkIP := a, PrimaryDNSIP := b, SecondaryDNSIP := c })
        | some gw =>
          (.ret (), { NetworkIP := a, GatewayIP := gw, PrimaryDNSIP := b, SecondaryDNSIP := c })

/-- A call to a collaborator outside the program: the pinger, `ifconfig`,
`route`, the resolver file. -/
inductive Effect where
  | pingerSource (ip : GoString)
  | pingerAddIP (ip : GoString)
  | ifconfig (iface ip gateway : GoString)
  | route (gateway iface : GoString)
  | writeResolv (content : GoString)
  deriving DecidableEq, Repr

/-- The script between two steps: the queues, the four globals, and the
history of calls to collaborators. -/
structure Script where
  world : World
  config : NetworkConfig
  effects : List Effect
  deriving DecidableEq, Repr

/-- The fatal path on the script state. -/
def fatalScript (s : Script) : Outcome Unit × Script :=
  (.exit (-1), { s with world := (fatal (α := Unit) s.world).2 })

/-- Lines 280-307 (ConfigureInterface): the pinger is given source and
target, then `ifconfig`, `route` and the write of `/etc/resolv.conf`, a
failure of any of the three being fatal. `ifconfigOK`, `routeOK`, `writeOK`
tell whether the collaborator returned without error. -/
def configureInterface (networkInterface : GoString) (ifconfigOK routeOK writeOK : Bool)
    (s : Script) : Outcome Unit × Script :=
  let s1 : Script := { s with effects := s.effects ++
    [.pingerSource s.config.NetworkIP, .pingerAddIP s.config.PrimaryDNSIP,
      .ifconfig networkInterface s.config.NetworkIP s.config.GatewayIP] }
  if !ifconfigOK then fatalScript s1
  else
    let s2 : Script := { s1 with effects := s1.effects ++
      [.route s.config.GatewayIP networkInterface] }
    if !routeOK then fatalScript s2
    else
      let s3 : Script := { s2 with effects := s2.effects ++
        [.writeResolv (lit "nameserver " ++ s.config.PrimaryDNSIP ++ lit "\nnameserver "
          ++ s.config.SecondaryDNSIP ++ lit "\n")] }
      if !writeOK then fatalScript s3
      else (.ret (), s3)

/-- Lines 259-307: ExtractConfig followed by ConfigureInterface. `e1`, `e2`
are what the environment presents to the two requests. -/
def extractAndConfigure (networkInterface : GoString) (e1 e2 : Env)
    (ifconfigOK routeOK writeOK : Bool) (s : Script) : Option (Outcome Unit × Script) :=
  match makeRequest (lit "AT+CGCONTRDP") e1 s.world with
  | none => none
  | some ((success, response), w1) =>
    if !success then some (fatalScript { s with world := w1 })
    else
      match makeRequest (lit "AT+UIPADDR=") e2 w1 with
      | none => none
      | some ((success2, response2), w2) =>
        if !success2 then some (fatalScript { s with world := w2 })
        else
          match assignConfig (split 44 response) (split 44 response2) s.config with
          | (.ret (), g) =>
            some (configureInterface networkInterface ifconfigOK routeOK writeOK
              { s with world := w2, config := g })
          | (out, g) => some (out, { s with world := w2, config := g })

/-- A value wrapped in one pair of double quotes. -/
def quoted (x : GoString) : GoString := 34 :: (x ++ [34])

/-! ## The transmit half of the pump loop -/

/-- What `serialPort.Write` returns: the number of bytes written and whether
the error is non-nil. -/
structure WriteResult where
  count : Nat
  err : Bool
  deriving DecidableEq, Repr

/-- Lines 435-438: the buffer handed to `Write`, the bytes of
`fmt.Sprintf("%s\r\n", s.Value)`. -/
def frameOf (command : GoString) : List UInt8 := command ++ [13, 10]

/-- Lines 433-450: `for transmitQueue.Len() > 0`. `results` are what the
successive calls of `serialPort.Write` return; `written` is the history of the
transport, one entry per call with the bytes it took. A write error leaves the
command at the front of the queue and continues `MAIN`; a partial write is
only reported and the command is removed. `none`: `results` is used up. -/
def transmitPending :
    List GoString → List WriteResult → List (List UInt8) →
      Option (List GoString × List (List UInt8))
  | [], _, written => some ([], written)
  | _ :: _, [], _ => none
  | s :: queue, r :: rs, written =>
    if r.err then some (s :: queue, written ++ [(frameOf s).take r.count])
    else transmitPending queue rs (written ++ [(frameOf s).take r.count])

/-- A write that succeeds in full on the frame of `command`. -/
def fullWrite (command : GoString) : WriteResult :=
  { count := (frameOf command).length, err := false }

/-- The condition of the specification on the two payloads of ExtractConfig,
on their comma-separated fields: at least 7 fields with fields 4, 5, 6 of at
least 2 bytes, and at least 3 fields with field 2 of at least 2 bytes. -/
def wellFormedFields (f1 f2 : List GoString) : Prop :=
  7 ≤ f1.length ∧ 2 ≤ (f1.getD 4 []).length ∧ 2 ≤ (f1.getD 5 []).length
    ∧ 2 ≤ (f1.getD 6 []).length ∧ 3 ≤ f2.length ∧ 2 ≤ (f2.getD 2 []).length

/-- The payload the specification ascribes to a sequence of processed lines:
that of the last line that is a data response (the line with its first
`"<term>: "` removed) or an error line (the line itself), empty if there is
no such line. -/
def lastPayload (searchTerm : GoString) (lines : List GoString) : GoString :=
  match (lines.filter (fun s => isData searchTerm s || isError searchTerm s)).getLast? with
  | none => []
  | some s => if isData searchTerm s then replaceFirst s (searchTerm ++ lit ": ") [] else s

/-! ## Strings: basic facts -/

theorem isPrefixOf_append_self (p rest : GoString) : p.isPrefixOf (p ++ rest) = true := by
  induction p with
  | nil => simp
  | cons a p ih => simp [List.isPrefixOf, ih]

theorem replaceFirst_append (old rest new : GoString) :
    replaceFirst (old ++ rest) old new = new ++ rest := by
  cases h : old ++ rest with
  | nil =>
    have h1 : old = [] := (List.append_eq_nil.mp h).1
    have h2 : rest = [] := (List.append_eq_nil.mp h).2
    subst h1; subst h2
    simp [replaceFirst]
  | cons c s =>
    have hp : old.isPrefixOf (c :: s) = true := by
      rw [← h]; exact isPrefixOf_append_self old rest
    simp only [replaceFirst, hp, if_true]
    rw [← h, List.drop_left]

theorem lit_OK : lit "OK" = [79, 75] := by decide

theorem lit_colon : lit ": " = [58, 32] := by decide

theorem contains_OK_colon (term : GoString) : contains (lit "OK") (term ++ lit ": ") = false := by
  match term with
  | [] => decide
  | [a] => simp [lit_OK, lit_colon, contains, List.isPrefixOf]
  | a :: b :: t => cases t <;> simp [lit_OK, lit_colon, contains, List.isPrefixOf]

theorem isData_OK (term : GoString) : isData term (lit "OK") = false := by
  simp [isData, contains_OK_colon]

/-! ## The wait loop, unfolded -/

theorem drain_eq (term : GoString) (q : List GoString) (r : Request) (done : List GoString) :
    drain term r q done = (q.foldl (classify term) r, [], done ++ q) := by
  induction q generalizing r done with
  | nil => simp [drain]
  | cons s q ih => simp [drain, ih]

theorem awaitLoop_cons (term : GoString) (timeout : Int) (r : Request) (w : World) (p : Pass)
    (ps : List Pass) :
    awaitLoop term timeout r w (p :: ps) =
      if ((w.receiveQueue ++ p.arrived).foldl (classify term) r).completed then
        some (.completed ((w.receiveQueue ++ p.arrived).foldl (classify term) r).success
          ((w.receiveQueue ++ p.arrived).foldl (classify term) r).response, afterPass w p)
      else if p.now > timeout then some (.deadline, afterPass w p)
      else awaitLoop term timeout ((w.receiveQueue ++ p.arrived).foldl (classify term) r)
        (afterPass w p) ps := by
  simp [awaitLoop, drain_eq, afterPass]

theorem classify_data (term : GoString) (r : Request) (s : GoString)
    (h : isData term s = true) :
    classify term r s = { r with response := replaceFirst s (term ++ lit ": ") [] } := by
  unfold isData at h
  unfold classify
  rw [if_pos h]

theorem classify_OK (term : GoString) (r : Request) :
    classify term r (lit "OK") = { r with success := true, completed := true } := by
  have h := isData_OK term
  unfold isData at h
  unfold classify
  rw [if_neg (by rw [h]; exact Bool.false_ne_true), if_pos rfl]

theorem classify_ERROR (term : GoString) (r : Request) (s : GoString)
    (h : isError term s = true) :
    classify term r s = { r with response := s, success := false, completed := true } := by
  simp only [isError, isData, Bool.and_eq_true, Bool.not_eq_true', decide_eq_true_eq] at h
  unfold classify
  rw [if_neg (by rw [h.1.1]; exact Bool.false_ne_true), if_neg h.1.2, if_pos h.2]

theorem classify_other (term : GoString) (r : Request) (s : GoString)
    (h1 : isData term s = false) (h2 : s ≠ lit "OK") (h3 : isError term s = false) :
    classify term r s = r := by
  have h4 : contains s (lit "ERROR") = false := by
    simpa [isError, h1, h2] using h3
  unfold isData at h1
  unfold classify
  rw [if_neg (by rw [h1]; exact Bool.false_ne_true), if_neg h2, if_neg (by simp [h4])]

/-! ## One line: what `classify` keeps -/

theorem contains_OK_ERROR : contains (lit "OK") (lit "ERROR") = false := by decide

theorem isError_of_contains (term s : GoString) (hd : isData term s = false)
    (he : contains s (lit "ERROR") = true) : isError term s = true := by
  have hne : s ≠ lit "OK" := by
    intro h
    rw [h, contains_OK_ERROR] at he
    exact Bool.false_ne_true he
  simp [isError, hd, hne, he]

theorem isError_false_of_not_contains (term s : GoString)
    (he : contains s (lit "ERROR") = false) : isError term s = false := by
  simp [isError, he]

theorem isError_not_data (term s : GoString) (h : isError term s = true) :
    isData term s = false := by
  simp only [isError, Bool.and_eq_true, Bool.not_eq_true'] at h
  exact h.1.1

theorem isError_not_OK (term s : GoString) (h : isError term s = true) : s ≠ lit "OK" := by
  simp only [isError, Bool.and_eq_true, decide_eq_true_eq] at h
  exact h.1.2

theorem isData_not_OK (term s : GoString) (h : isData term s = true) : s ≠ lit "OK" := by
  intro hs
  rw [hs, isData_OK] at h
  exact Bool.false_ne_true h

/-- Every line falls in exactly one branch of the chain. -/
theorem classify_cases (term s : GoString) :
    isData term s = true ∨ s = lit "OK" ∨ isError term s = true
      ∨ (isData term s = false ∧ s ≠ lit "OK" ∧ isError term s = false) := by
  by_cases h1 : isData term s = true
  · exact Or.inl h1
  · by_cases h2 : s = lit "OK"
    · exact Or.inr (Or.inl h2)
    · by_cases h3 : isError term s = true
      · exact Or.inr (Or.inr (Or.inl h3))
      · exact Or.inr (Or.inr (Or.inr ⟨by simpa using h1, h2, by simpa using h3⟩))

theorem classify_completed_mono (term : GoString) (r : Request) (s : GoString)
    (h : r.completed = true) : (classify term r s).completed = true := by
  rcases classify_cases term s with h1 | h1 | h1 | ⟨h1, h2, h3⟩
  · rw [classify_data term r s h1]; exact h
  · rw [h1, classify_OK]
  · rw [classify_ERROR term r s h1]
  · rw [classify_other term r s h1 h2 h3]; exact h

theorem classify_flags_keep (term : GoString) (r : Request) (s : GoString)
    (hOK : s ≠ lit "OK") (hE : isError term s = false) :
    (classify term r s).completed = r.completed ∧ (classify term r s).success = r.success := by
  rcases classify_cases term s with h1 | h1 | h1 | ⟨h1, h2, h3⟩
  · rw [classify_data term r s h1]; exact ⟨rfl, rfl⟩
  · exact absurd h1 hOK
  · rw [hE] at h1; exact absurd h1 Bool.false_ne_true
  · rw [classify_other term r s h1 h2 h3]; exact ⟨rfl, rfl⟩

theorem classify_success_keep_true (term : GoString) (r : Request) (s : GoString)
    (h : r.success = true) (hE : isError term s = false) :
    (classify term r s).success = true := by
  rcases classify_cases term s with h1 | h1 | h1 | ⟨h1, h2, h3⟩
  · rw [classify_data term r s h1]; exact h
  · rw [h1, classify_OK]
  · rw [hE] at h1; exact absurd h1 Bool.false_ne_true
  · rw [classify_other term r s h1 h2 h3]; exact h

theorem classify_success_keep_false (term : GoString) (r : Request) (s : GoString)
    (h : r.success = false) (hOK : s ≠ lit "OK") :
    (classify term r s).success = false := by
  rcases classify_cases term s with h1 | h1 | h1 | ⟨h1, h2, h3⟩
  · rw [classify_data term r s h1]; exact h
  · exact absurd h1 hOK
  · rw [classify_ERROR term r s h1]
  · rw [classify_other term r s h1 h2 h3]; exact h

theorem classify_response_keep (term : GoString) (r : Request) (s : GoString)
    (hD : isData term s = false) (hE : isError term s = false) :
    (classify term r s).response = r.response := by
  rcases classify_cases term s with h1 | h1 | h1 | ⟨h1, h2, h3⟩
  · rw [hD] at h1; exact absurd h1 Bool.false_ne_true
  · rw [h1, classify_OK]
  · rw [hE] at h1; exact absurd h1 Bool.false_ne_true
  · rw [classify_other term r s h1 h2 h3]

/-! ## A drain pass: what the fold over its lines keeps -/

theorem foldl_completed_mono (term : GoString) (lines : List GoString) (r : Request)
    (h : r.completed = true) : (lines.foldl (classify term) r).completed = true := by
  induction lines generalizing r with
  | nil => exact h
  | cons s lines ih => exact ih _ (classify_completed_mono term r s h)

theorem foldl_flags_keep (term : GoString) (lines : List GoString) (r : Request)
    (h : ∀ s ∈ lines, s ≠ lit "OK" ∧ isError term s = false) :
    (lines.foldl (classify term) r).completed = r.completed
      ∧ (lines.foldl (classify term) r).success = r.success := by
  induction lines generalizing r with
  | nil => exact ⟨rfl, rfl⟩
  | cons s lines ih =>
    have hs := h s (List.mem_cons_self s lines)
    have hk := classify_flags_keep term r s hs.1 hs.2
    have hi := ih (classify term r s) (fun x hx => h x (List.mem_cons_of_mem s hx))
    exact ⟨hi.1.trans hk.1, hi.2.trans hk.2⟩

theorem foldl_success_keep_true (term : GoString) (lines : List GoString) (r : Request)
    (hr : r.success = true) (h : ∀ s ∈ lines, isError term s = false) :
    (lines.foldl (classify term) r).success = true := by
  induction lines generalizing r with
  | nil => exact hr
  | cons s lines ih =>
    exact ih _ (classify_success_keep_true term r s hr (h s (List.mem_cons_self s lines)))
      (fun x hx => h x (List.mem_cons_of_mem s hx))

theorem foldl_success_keep_false (term : GoString) (lines : List GoString) (r : Request)
    (hr : r.success = false) (h : ∀ s ∈ lines, s ≠ lit "OK") :
    (lines.foldl (classify term) r).success = false := by
  induction lines generalizing r with
  | nil => exact hr
  | cons s lines ih =>
    exact ih _ (classify_success_keep_false term r s hr (h s (List.mem_cons_self s lines)))
      (fun x hx => h x (List.mem_cons_of_mem s hx))

theorem foldl_response_keep (term : GoString) (lines : List GoString) (r : Request)
    (h : ∀ s ∈ lines, isData term s = false ∧ isError term s = false) :
    (lines.foldl (classify term) r).response = r.response := by
  induction lines generalizing r with
  | nil => rfl
  | cons s lines ih =>
    have hs := h s (List.mem_cons_self s lines)
    rw [List.foldl_cons, ih _ (fun x hx => h x (List.mem_cons_of_mem s hx))]
    exact classify_response_keep term r s hs.1 hs.2

/-- A pass that holds a terminal line ends with `completed` set. -/
theorem foldl_completed_of_terminal (term : GoString) (lines : List GoString) (r : Request)
    (s : GoString) (hs : s ∈ lines) (ht : s = lit "OK" ∨ isError term s = true) :
    (lines.foldl (classify term) r).completed = true := by
  obtain ⟨pre, post, hsplit⟩ := List.append_of_mem hs
  rw [hsplit, List.foldl_append, List.foldl_cons]
  apply foldl_completed_mono
  rcases ht with h | h
  · rw [h, classify_OK]
  · rw [classify_ERROR term _ s h]

/-- A pass that sets `completed` holds a terminal line. -/
theorem terminal_of_foldl_completed (term : GoString) (lines : List GoString) (r : Request)
    (hr : r.completed = false) (h : (lines.foldl (classify term) r).completed = true) :
    ∃ s ∈ lines, s = lit "OK" ∨ isError term s = true := by
  by_contra hcon
  have hall : ∀ s ∈ lines, s ≠ lit "OK" ∧ isError term s = false := by
    intro s hs
    constructor
    · intro hOK
      exact hcon ⟨s, hs, Or.inl hOK⟩
    · by_contra hE
      exact hcon ⟨s, hs, Or.inr (by simpa using hE)⟩
  rw [(foldl_flags_keep term lines r hall).1, hr] at h
  exact Bool.false_ne_true h

/-! ## The wait loop: iterations that do not return -/

/-- When the loop is still waiting after the iterations `earlier`, it goes on
from some locals with the transmit queue untouched, and the next iteration
drains `passInput w earlier p`. -/
theorem awaitLoop_append (term : GoString) (timeout : Int) (earlier : List Pass) (r : Request)
    (w : World) (h : awaitLoop term timeout r w earlier = none) :
    ∃ r1 w1, w1.transmitQueue = w.transmitQueue
      ∧ (∀ p, w1.receiveQueue ++ p.arrived = passInput w earlier p)
      ∧ ∀ rest, awaitLoop term timeout r w (earlier ++ rest)
          = awaitLoop term timeout r1 w1 rest := by
  induction earlier generalizing r w with
  | nil => exact ⟨r, w, rfl, fun p => rfl, fun rest => rfl⟩
  | cons q qs ih =>
    rw [awaitLoop_cons] at h
    by_cases hc : ((w.receiveQueue ++ q.arrived).foldl (classify term) r).completed = true
    · rw [if_pos hc] at h
      exact absurd h (by simp)
    · rw [if_neg hc] at h
      by_cases hd : q.now > timeout
      · rw [if_pos hd] at h
        exact absurd h (by simp)
      · rw [if_neg hd] at h
        obtain ⟨r1, w1, htq, hin, hrest⟩ := ih _ _ h
        refine ⟨r1, w1, htq, ?_, ?_⟩
        · intro p
          rw [hin p]
          cases qs <;> rfl
        · intro rest
          rw [List.cons_append, awaitLoop_cons, if_neg hc, if_neg hd]
          exact hrest rest

/-- The iteration that follows the iterations `earlier` of a call that is
still waiting: it drains `passInput w earlier p` into some locals `r1`, and
leaves the receive queue empty. -/
theorem makeRequestExit_final (command : GoString) (start : Int) (earlier : List Pass)
    (w : World) (h : makeRequestExit command ⟨start, earlier⟩ w = none) :
    ∃ r1 done, ∀ p later,
      makeRequestExit command ⟨start, earlier ++ p :: later⟩ w =
        if ((passInput w earlier p).foldl (classify (searchTermOf command)) r1).completed then
          some (.completed
            ((passInput w earlier p).foldl (classify (searchTermOf command)) r1).success
            ((passInput w earlier p).foldl (classify (searchTermOf command)) r1).response,
            ⟨w.transmitQueue ++ [command], [], done ++ passInput w earlier p⟩)
        else if p.now > timeoutAt start then
          some (.deadline, ⟨w.transmitQueue ++ [command], [], done ++ passInput w earlier p⟩)
        else awaitLoop (searchTermOf command) (timeoutAt start)
          ((passInput w earlier p).foldl (classify (searchTermOf command)) r1)
          ⟨w.transmitQueue ++ [command], [], done ++ passInput w earlier p⟩ later := by
  unfold makeRequestExit at h
  obtain ⟨r1, w1, htq, hin, hrest⟩ := awaitLoop_append _ _ earlier _ _ h
  refine ⟨r1, w1.consumed, fun p later => ?_⟩
  have hin2 : w1.receiveQueue ++ p.arrived = passInput w earlier p := by
    rw [hin p]
    cases earlier <;> rfl
  unfold makeRequestExit
  simp only at hrest
  rw [hrest, awaitLoop_cons, hin2]
  have hw : afterPass w1 p
      = ⟨w.transmitQueue ++ [command], [], w1.consumed ++ passInput w earlier p⟩ := by
    simp [afterPass, htq, hin2]
  rw [hw]

theorem makeRequest_eq_none (command : GoString) (env : Env) (w : World)
    (h : makeRequest command env w = none) : makeRequestExit command env w = none := by
  simpa [makeRequest] using h

/-! ## C1: data responses -/

/-- C1 (amended): for every command whose derived search term is not empty and
every response line that contains the search term immediately followed by
`": "`, the payload recorded for the line is the line with the first
`"<term>: "` removed (the rest of the line when the line starts with it); the
flags `completed` and `success` are left as they were, and a wait loop that
drains just this line before the deadline goes on waiting. For `AT+CREG?`, the
line `+CREG: 0,1` followed by `OK` makes `makeRequest` return success with the
payload `0,1`, whether the two lines come in one pass or in two. -/
theorem makeRequest_data_response (command s : GoString) (r : Request)
    (hterm : searchTermOf command ≠ [])
    (hs : contains s (searchTermOf command ++ lit ": ") = true) :
    (classify (searchTermOf command) r s).response
        = replaceFirst s (searchTermOf command ++ lit ": ") []
      ∧ (∀ rest, s = searchTermOf command ++ lit ": " ++ rest →
          (classify (searchTermOf command) r s).response = rest)
      ∧ (classify (searchTermOf command) r s).completed = r.completed
      ∧ (classify (searchTermOf command) r s).success = r.success
      ∧ (∀ (timeout now : Int) (w : World) (ps : List Pass),
          r.completed = false → w.receiveQueue = [] → now ≤ timeout →
          awaitLoop (searchTermOf command) timeout r w (⟨[s], now⟩ :: ps)
            = awaitLoop (searchTermOf command) timeout (classify (searchTermOf command) r s)
                (afterPass w ⟨[s], now⟩) ps)
      ∧ (∀ (start now : Int) (w : World), w.receiveQueue = [] →
          makeRequest (lit "AT+CREG?") ⟨start, [⟨[lit "+CREG: 0,1", lit "OK"], now⟩]⟩ w
            = some ((true, lit "0,1"),
                { transmitQueue := w.transmitQueue ++ [lit "AT+CREG?"], receiveQueue := [],
                  consumed := w.consumed ++ [lit "+CREG: 0,1", lit "OK"] }))
      ∧ (∀ (start t1 t2 : Int) (w : World), w.receiveQueue = [] → t1 ≤ timeoutAt start →
          makeRequest (lit "AT+CREG?")
              ⟨start, [⟨[lit "+CREG: 0,1"], t1⟩, ⟨[lit "OK"], t2⟩]⟩ w
            = some ((true, lit "0,1"),
                { transmitQueue := w.transmitQueue ++ [lit "AT+CREG?"], receiveQueue := [],
                  consumed := w.consumed ++ [lit "+CREG: 0,1", lit "OK"] })) := by
  have hd : isData (searchTermOf command) s = true := by
    simp [isData, hterm, hs]
  have hc := classify_data (searchTermOf command) r s hd
  have hcreg : searchTermOf (lit "AT+CREG?") = lit "+CREG" := by decide
  have h1 : classify (lit "+CREG") Request.init (lit "+CREG: 0,1")
      = { completed := false, success := false, response := lit "0,1" } := by decide
  refine ⟨by rw [hc], ?_, by rw [hc], by rw [hc], ?_, ?_, ?_⟩
  · intro rest hrest
    rw [hc]
    show replaceFirst s (searchTermOf command ++ lit ": ") [] = rest
    rw [hrest, replaceFirst_append]
    rfl
  · intro timeout now w ps hr hw hnow
    rw [awaitLoop_cons]
    have hcomp : (classify (searchTermOf command) r s).completed = false := by rw [hc]; exact hr
    simp [hw, hcomp, not_lt.mpr hnow]
  · intro start now w hw
    simp only [makeRequest, makeRequestExit, hcreg, awaitLoop_cons, hw, List.nil_append,
      List.foldl_cons, List.foldl_nil, h1, classify_OK]
    simp [Exit.result, afterPass, hw]
  · intro start t1 t2 w hw ht
    simp only [makeRequest, makeRequestExit, hcreg, awaitLoop_cons, hw, List.nil_append,
      List.foldl_cons, List.foldl_nil, h1, classify_OK, afterPass]
    simp [Exit.result, not_lt.mpr ht]

/-- Witness for C1: the command `AT+CREG?` and the line `+CREG: 0,1`. -/
theorem makeRequest_data_response_witness :
    searchTermOf (lit "AT+CREG?") ≠ []
      ∧ contains (lit "+CREG: 0,1") (searchTermOf (lit "AT+CREG?") ++ lit ": ") = true
      ∧ (classify (searchTermOf (lit "AT+CREG?")) Request.init (lit "+CREG: 0,1")).response
          = replaceFirst (lit "+CREG: 0,1") (searchTermOf (lit "AT+CREG?") ++ lit ": ") [] :=
  ⟨by decide, by decide,
    (makeRequest_data_response (lit "AT+CREG?") (lit "+CREG: 0,1") Request.init
      (by decide) (by decide)).1⟩

/-- C1 as stated fails for a command with an empty search term: for `AT` the
line `+CREG: 0,1` contains the (empty) term followed by `": "`, yet no payload
is recorded for it, neither by the line classification nor in what
`makeRequest` returns. -/
theorem makeRequest_data_response_counterexample :
    searchTermOf (lit "AT") = []
      ∧ contains (lit "+CREG: 0,1") (searchTermOf (lit "AT") ++ lit ": ") = true
      ∧ (classify (searchTermOf (lit "AT")) Request.init (lit "+CREG: 0,1")).response = []
      ∧ replaceFirst (lit "+CREG: 0,1") (searchTermOf (lit "AT") ++ lit ": ") []
          = lit "+CREG0,1"
      ∧ makeRequest (lit "AT") ⟨0, [⟨[lit "+CREG: 0,1", lit "OK"], 1⟩]⟩ ⟨[], [], []⟩
          = some ((true, []), ⟨[lit "AT"], [], [lit "+CREG: 0,1", lit "OK"]⟩) := by
  decide

/-! ## C2: the search term -/

theorem dropWhile_head_not (p : UInt8 → Bool) (l : List UInt8) (b : UInt8) (t : List UInt8)
    (h : l.dropWhile p = b :: t) : p b = false := by
  induction l with
  | nil => simp at h
  | cons a l ih =>
    by_cases ha : p a = true
    · rw [List.dropWhile_cons_of_pos ha] at h
      exact ih h
    · rw [List.dropWhile_cons_of_neg ha] at h
      have hab : a = b := (List.cons.inj h).1
      rw [← hab]
      simpa using ha

theorem runeWidth_bounds (c : UInt8) (t : GoString) :
    1 ≤ runeWidth (c :: t) ∧ runeWidth (c :: t) ≤ 4 := by
  simp only [runeWidth]
  repeat' split
  all_goals simp

theorem runeWidth_ascii (c : UInt8) (t : GoString) (h : c < 128) : runeWidth (c :: t) = 1 := by
  simp only [runeWidth]
  rw [if_pos h]

/-- C2 (amended): for every command string, the search term `makeRequest`
derives is obtained by stripping one leading `AT` or `at` (if present) and then
taking the first character of what remains (one UTF-8 encoded character of 1
to 4 bytes, any but a newline; a single byte when it is ASCII) together with
the longest run of the letters `a-z`, `A-Z` that immediately follows it. The
term is empty when nothing remains or what remains starts with a newline. -/
theorem searchTermOf_shape (command : GoString) :
    ((∃ s, (command = lit "at" ++ s ∨ command = lit "AT" ++ s) ∧ stripAT command = s)
        ∨ ((∀ s, command ≠ lit "at" ++ s ∧ command ≠ lit "AT" ++ s)
            ∧ stripAT command = command))
      ∧ (stripAT command = [] → searchTermOf command = [])
      ∧ (∀ t, stripAT command = 10 :: t → searchTermOf command = [])
      ∧ (∀ c t, stripAT command = c :: t → c ≠ 10 →
          ∃ first letters rest,
            stripAT command = first ++ letters ++ rest
              ∧ searchTermOf command = first ++ letters
              ∧ first = (c :: t).take (runeWidth (c :: t))
              ∧ 1 ≤ first.length ∧ first.length ≤ 4
              ∧ (c < 128 → first = [c])
              ∧ (∀ b ∈ letters, isLetter b = true)
              ∧ (∀ b u, rest = b :: u → isLetter b = false)) := by
  refine ⟨?_, ?_, ?_, ?_⟩
  · unfold stripAT
    by_cases h1 : (lit "at").isPrefixOf command = true
    · left
      obtain ⟨s, hs⟩ := List.isPrefixOf_iff_prefix.mp h1
      refine ⟨s, Or.inl hs.symm, ?_⟩
      rw [if_pos (by simp [h1]), ← hs]
      rfl
    · by_cases h2 : (lit "AT").isPrefixOf command = true
      · left
        obtain ⟨s, hs⟩ := List.isPrefixOf_iff_prefix.mp h2
        refine ⟨s, Or.inr hs.symm, ?_⟩
        rw [if_pos (by simp [h2]), ← hs]
        rfl
      · right
        refine ⟨fun s => ⟨?_, ?_⟩, ?_⟩
        · intro hc
          exact h1 (by rw [hc]; exact isPrefixOf_append_self _ _)
        · intro hc
          exact h2 (by rw [hc]; exact isPrefixOf_append_self _ _)
        · rw [if_neg (by simp [h1, h2])]
  · intro h
    simp [searchTermOf, h, findDotLetters]
  · intro t h
    simp [searchTermOf, h, findDotLetters]
  · intro c t h hc
    refine ⟨(c :: t).take (runeWidth (c :: t)),
      ((c :: t).drop (runeWidth (c :: t))).takeWhile isLetter,
      ((c :: t).drop (runeWidth (c :: t))).dropWhile isLetter, ?_, ?_, rfl, ?_, ?_, ?_, ?_, ?_⟩
    · rw [h, List.append_assoc, List.takeWhile_append_dropWhile, List.take_append_drop]
    · simp only [searchTermOf, h, findDotLetters]
      rw [if_neg hc]
    · have hb := (runeWidth_bounds c t).1
      rw [List.length_take]
      simp only [List.length_cons]
      omega
    · have hb := (runeWidth_bounds c t).2
      rw [List.length_take]
      omega
    · intro hlt
      rw [runeWidth_ascii c t hlt]
      rfl
    · intro b hb
      exact List.mem_takeWhile_imp hb
    · intro b u hu
      exact dropWhile_head_not isLetter _ b u hu

/-- C2 as stated fails: for `AT+CREG?` the code derives `+CREG` (the first
character, then the letters that follow it), whereas the longest leading run
of letters of `+CREG?` is empty and the single character after it is `+`. -/
theorem searchTermOf_counterexample :
    searchTermOf (lit "AT+CREG?") = lit "+CREG"
      ∧ specPattern (lit "AT+CREG?") = lit "+"
      ∧ searchTermOf (lit "AT+CREG?") ≠ specPattern (lit "AT+CREG?") := by
  decide

/-! ## C3: `OK` -/

theorem foldl_OK (term : GoString) (r : Request) (pre post : List GoString)
    (hpost : ∀ s ∈ post, isError term s = false) :
    ((pre ++ lit "OK" :: post).foldl (classify term) r).completed = true
      ∧ ((pre ++ lit "OK" :: post).foldl (classify term) r).success = true := by
  rw [List.foldl_append, List.foldl_cons, classify_OK]
  exact ⟨foldl_completed_mono term post _ rfl, foldl_success_keep_true term post _ rfl hpost⟩

/-- C3 (amended): for every command, whatever was captured before, if the
lines drained in an iteration of the wait loop include a line exactly equal to
`OK` and no line classified as an error comes after it in that same
iteration, the call returns true at the end of the iteration. This holds for
`makeRequest` at the iteration that follows any iterations `earlier` in which
it kept waiting, and for the wait loop started from arbitrary locals `r`. -/
theorem makeRequest_OK_success (command : GoString) (env : Env) (w : World)
    (earlier : List Pass) (p : Pass) (later : List Pass) (pre post : List GoString)
    (hsplit : env.passes = earlier ++ p :: later)
    (hwait : makeRequest command ⟨env.start, earlier⟩ w = none)
    (hOK : passInput w earlier p = pre ++ lit "OK" :: post)
    (hpost : ∀ s ∈ post, isError (searchTermOf command) s = false) :
    (∃ payload w2, makeRequest command env w = some ((true, payload), w2))
      ∧ (∀ (r : Request) (timeout : Int) (v : World) (q : Pass) (ps : List Pass),
          v.receiveQueue ++ q.arrived = pre ++ lit "OK" :: post →
          ∃ payload, awaitLoop (searchTermOf command) timeout r v (q :: ps)
            = some (.completed true payload, afterPass v q)) := by
  constructor
  · obtain ⟨r1, done, hfin⟩ :=
      makeRequestExit_final command env.start earlier w (makeRequest_eq_none _ _ _ hwait)
    have hf := foldl_OK (searchTermOf command) r1 pre post hpost
    have henv : env = ⟨env.start, earlier ++ p :: later⟩ := by
      cases env; simp only at hsplit; rw [hsplit]
    rw [henv]
    simp only [makeRequest, hfin p later, hOK, hf.1, hf.2, if_true, Option.map_some',
      Exit.result]
    exact ⟨_, _, rfl⟩
  · intro r timeout v q ps hv
    have hf := foldl_OK (searchTermOf command) r pre post hpost
    rw [awaitLoop_cons, hv, if_pos hf.1, hf.2]
    exact ⟨_, rfl⟩

/-- Witness for C3: `AT+CREG?`, the data line and `OK` in the first pass. -/
theorem makeRequest_OK_success_witness :
    ∃ payload w2,
      makeRequest (lit "AT+CREG?") ⟨0, [⟨[lit "+CREG: 0,1", lit "OK"], 1⟩]⟩ ⟨[], [], []⟩
        = some ((true, payload), w2) :=
  (makeRequest_OK_success (lit "AT+CREG?") ⟨0, [⟨[lit "+CREG: 0,1", lit "OK"], 1⟩]⟩
    ⟨[], [], []⟩ [] ⟨[lit "+CREG: 0,1", lit "OK"], 1⟩ [] [lit "+CREG: 0,1"] []
    rfl (by decide) rfl (by simp)).1

/-- C3 as stated fails: the sequence `OK`, `ERROR` drained in one pass holds a
line exactly equal to `OK`, yet the call returns false (with payload
`ERROR`). -/
theorem makeRequest_OK_success_counterexample :
    makeRequest (lit "AT+CREG?") ⟨0, [⟨[lit "OK", lit "ERROR"], 1⟩]⟩ ⟨[], [], []⟩
      = some ((false, lit "ERROR"), ⟨[lit "AT+CREG?"], [], [lit "OK", lit "ERROR"]⟩) := by
  decide

/-! ## C4: `ERROR` -/

/-- C4 (amended): for every command and every response line that contains
`ERROR` and is not a data response, processing the line sets the request to
completed and failed and records the whole line as the payload. The call then
returns at the end of that drain pass: with failure unless a later line of the
same pass is `OK`, and with that line as payload unless a later line of the
same pass is a data response or contains `ERROR`. -/
theorem makeRequest_ERROR_failure (command : GoString) (env : Env) (w : World)
    (earlier : List Pass) (p : Pass) (later : List Pass) (pre post : List GoString)
    (s : GoString)
    (hsplit : env.passes = earlier ++ p :: later)
    (hwait : makeRequest command ⟨env.start, earlier⟩ w = none)
    (hin : passInput w earlier p = pre ++ s :: post)
    (hdata : isData (searchTermOf command) s = false)
    (herr : contains s (lit "ERROR") = true) :
    (∀ r : Request, classify (searchTermOf command) r s
        = { completed := true, success := false, response := s })
      ∧ ∃ ok payload w2, makeRequest command env w = some ((ok, payload), w2)
          ∧ ((∀ t ∈ post, t ≠ lit "OK") → ok = false)
          ∧ ((∀ t ∈ post, isData (searchTermOf command) t = false
                ∧ contains t (lit "ERROR") = false) → payload = s) := by
  have hE := isError_of_contains _ s hdata herr
  constructor
  · intro r
    rw [classify_ERROR _ r s hE]
  · obtain ⟨r1, done, hfin⟩ :=
      makeRequestExit_final command env.start earlier w (makeRequest_eq_none _ _ _ hwait)
    have henv : env = ⟨env.start, earlier ++ p :: later⟩ := by
      cases env; simp only at hsplit; rw [hsplit]
    have hcomp : ((pre ++ s :: post).foldl (classify (searchTermOf command)) r1).completed
        = true :=
      foldl_completed_of_terminal _ _ r1 s (by simp) (Or.inr hE)
    rw [henv]
    simp only [makeRequest, hfin p later, hin, hcomp, if_true, Option.map_some', Exit.result]
    refine ⟨_, _, _, rfl, ?_, ?_⟩
    · intro hno
      rw [List.foldl_append, List.foldl_cons, classify_ERROR _ _ s hE]
      exact foldl_success_keep_false _ post _ rfl hno
    · intro hno
      rw [List.foldl_append, List.foldl_cons, classify_ERROR _ _ s hE]
      rw [foldl_response_keep _ post _ (fun t ht =>
        ⟨(hno t ht).1, isError_false_of_not_contains _ t (hno t ht).2⟩)]

/-- Witness for C4: `AT+CREG?` answered by `+CME ERROR: 10`. -/
theorem makeRequest_ERROR_failure_witness :
    ∃ ok payload w2,
      makeRequest (lit "AT+CREG?") ⟨0, [⟨[lit "+CME ERROR: 10"], 1⟩]⟩ ⟨[], [], []⟩
        = some ((ok, payload), w2)
      ∧ ((∀ t ∈ ([] : List GoString), t ≠ lit "OK") → ok = false)
      ∧ ((∀ t ∈ ([] : List GoString), isData (searchTermOf (lit "AT+CREG?")) t = false
            ∧ contains t (lit "ERROR") = false) → payload = lit "+CME ERROR: 10") :=
  (makeRequest_ERROR_failure (lit "AT+CREG?") ⟨0, [⟨[lit "+CME ERROR: 10"], 1⟩]⟩
    ⟨[], [], []⟩ [] ⟨[lit "+CME ERROR: 10"], 1⟩ [] [] [] (lit "+CME ERROR: 10")
    rfl (by decide) rfl (by decide) (by decide)).2

/-- C4 as stated fails twice over. The line `+CREG: ERROR` contains `ERROR`,
but for `AT+CREG?` it is a data response: the request is not marked failed,
the payload is `ERROR` and not the whole line, and the wait goes on (here to
the time-out). And `ERROR` followed by `OK` in one pass ends with success. -/
theorem makeRequest_ERROR_failure_counterexample :
    contains (lit "+CREG: ERROR") (lit "ERROR") = true
      ∧ classify (searchTermOf (lit "AT+CREG?")) Request.init (lit "+CREG: ERROR")
          = { completed := false, success := false, response := lit "ERROR" }
      ∧ makeRequest (lit "AT+CREG?")
            ⟨0, [⟨[lit "+CREG: ERROR"], 1⟩, ⟨[], 5000000001⟩]⟩ ⟨[], [], []⟩
          = some ((false, timedOutMessage), ⟨[lit "AT+CREG?"], [], [lit "+CREG: ERROR"]⟩)
      ∧ makeRequest (lit "AT+CREG?") ⟨0, [⟨[lit "ERROR", lit "OK"], 1⟩]⟩ ⟨[], [], []⟩
          = some ((true, lit "ERROR"), ⟨[lit "AT+CREG?"], [], [lit "ERROR", lit "OK"]⟩) := by
  decide

/-! ## C5: the deadline -/

theorem timeoutAt_eq (start : Int) (hlo : -2 ^ 63 ≤ start) (hhi : start + 5000000000 < 2 ^ 63) :
    timeoutAt start = start + 5000000000 := by
  unfold timeoutAt wrapInt64
  norm_num at hlo hhi ⊢
  omega

/-- While no terminal line is drained and the clock readings are at most the
deadline the loop keeps waiting; at the first reading past the deadline it
returns the time-out, every line received so far removed. -/
theorem awaitLoop_deadline_exact (term : GoString) (timeout : Int) (p : Pass)
    (later : List Pass)
    (hp : ∀ s ∈ p.arrived, s ≠ lit "OK" ∧ isError term s = false) (hnow : p.now > timeout)
    (earlier : List Pass) (r : Request) (w : World) (hr : r.completed = false)
    (hq : ∀ s ∈ w.receiveQueue, s ≠ lit "OK" ∧ isError term s = false)
    (he : ∀ q ∈ earlier,
      (∀ s ∈ q.arrived, s ≠ lit "OK" ∧ isError term s = false) ∧ q.now ≤ timeout) :
    awaitLoop term timeout r w earlier = none
      ∧ awaitLoop term timeout r w (earlier ++ p :: later)
        = some (.deadline, ⟨w.transmitQueue, [],
            w.consumed
              ++ (w.receiveQueue ++ ((earlier.map Pass.arrived).flatten ++ p.arrived))⟩) := by
  induction earlier generalizing r w with
  | nil =>
    have hall : ∀ s ∈ w.receiveQueue ++ p.arrived, s ≠ lit "OK" ∧ isError term s = false := by
      intro s hs
      rcases List.mem_append.mp hs with h | h
      · exact hq s h
      · exact hp s h
    have hc := (foldl_flags_keep term _ r hall).1
    rw [hr] at hc
    refine ⟨rfl, ?_⟩
    rw [List.nil_append, awaitLoop_cons, if_neg (by rw [hc]; exact Bool.false_ne_true),
      if_pos hnow]
    simp [afterPass]
  | cons q qs ih =>
    have hq1 := he q (List.mem_cons_self q qs)
    have hall : ∀ s ∈ w.receiveQueue ++ q.arrived, s ≠ lit "OK" ∧ isError term s = false := by
      intro s hs
      rcases List.mem_append.mp hs with h | h
      · exact hq s h
      · exact hq1.1 s h
    have hc := (foldl_flags_keep term _ r hall).1
    rw [hr] at hc
    obtain ⟨h1, h2⟩ := ih _ (afterPass w q) hc (by simp [afterPass])
      (fun x hx => he x (List.mem_cons_of_mem q hx))
    constructor
    · rw [awaitLoop_cons, if_neg (by rw [hc]; exact Bool.false_ne_true),
        if_neg (not_lt.mpr hq1.2)]
      exact h1
    · rw [List.cons_append, awaitLoop_cons, if_neg (by rw [hc]; exact Bool.false_ne_true),
        if_neg (not_lt.mpr hq1.2), h2]
      simp [afterPass]

/-- The call returns once the environment presents a terminal line or a clock
reading past the deadline. -/
theorem awaitLoop_returns (term : GoString) (timeout : Int) (passes : List Pass) (r : Request)
    (w : World)
    (h : ∃ q ∈ passes, q.now > timeout
      ∨ ∃ s ∈ q.arrived, s = lit "OK" ∨ isError term s = true) :
    ∃ e w2, awaitLoop term timeout r w passes = some (e, w2) := by
  induction passes generalizing r w with
  | nil =>
    obtain ⟨q, hq, _⟩ := h
    exact absurd hq (List.not_mem_nil q)
  | cons p ps ih =>
    rw [awaitLoop_cons]
    by_cases hc : ((w.receiveQueue ++ p.arrived).foldl (classify term) r).completed = true
    · rw [if_pos hc]
      exact ⟨_, _, rfl⟩
    · rw [if_neg hc]
      by_cases hd : p.now > timeout
      · rw [if_pos hd]
        exact ⟨_, _, rfl⟩
      · rw [if_neg hd]
        apply ih
        obtain ⟨q, hq, hcase⟩ := h
        rcases List.mem_cons.mp hq with hqp | hqps
        · subst hqp
          rcases hcase with h1 | ⟨s, hs, ht⟩
          · exact absurd h1 hd
          · exact absurd (foldl_completed_of_terminal term _ r s
              (List.mem_append_right _ hs) ht) hc
        · exact ⟨q, hqps, hcase⟩

/-- A call that returns through `completed` has removed a terminal line from
the receive queue. -/
theorem awaitLoop_completed_terminal (term : GoString) (timeout : Int) (passes : List Pass)
    (r : Request) (w : World) (ok : Bool) (payload : GoString) (w2 : World)
    (hr : r.completed = false)
    (h : awaitLoop term timeout r w passes = some (.completed ok payload, w2)) :
    ∃ done s, w2.consumed = w.consumed ++ done ∧ s ∈ done
      ∧ (s = lit "OK" ∨ isError term s = true) := by
  induction passes generalizing r w with
  | nil => simp [awaitLoop] at h
  | cons p ps ih =>
    rw [awaitLoop_cons] at h
    by_cases hc : ((w.receiveQueue ++ p.arrived).foldl (classify term) r).completed = true
    · rw [if_pos hc] at h
      obtain ⟨s, hs, ht⟩ := terminal_of_foldl_completed term _ r hr hc
      have hw : afterPass w p = w2 := by
        have := Option.some.inj h
        exact (Prod.mk.inj this).2
      refine ⟨w.receiveQueue ++ p.arrived, s, ?_, hs, ht⟩
      rw [← hw]
      rfl
    · rw [if_neg hc] at h
      by_cases hd : p.now > timeout
      · rw [if_pos hd] at h
        have := (Prod.mk.inj (Option.some.inj h)).1
        exact absurd this (by simp)
      · rw [if_neg hd] at h
        obtain ⟨done, s, h1, h2, h3⟩ := ih _ (afterPass w p) (by simpa using hc) h
        refine ⟨(w.receiveQueue ++ p.arrived) ++ done, s, ?_, List.mem_append_right _ h2, h3⟩
        rw [h1]
        simp [afterPass]

/-- A call that is still waiting after the iterations `earlier` has not set
`completed`; it goes on from such locals with the transmit queue untouched. -/
theorem awaitLoop_append_open (term : GoString) (timeout : Int) (earlier : List Pass)
    (r : Request) (w : World) (hr : r.completed = false)
    (h : awaitLoop term timeout r w earlier = none) :
    ∃ r1 w1, r1.completed = false ∧ w1.transmitQueue = w.transmitQueue
      ∧ (∀ p, w1.receiveQueue ++ p.arrived = passInput w earlier p)
      ∧ ∀ rest, awaitLoop term timeout r w (earlier ++ rest)
          = awaitLoop term timeout r1 w1 rest := by
  induction earlier generalizing r w with
  | nil => exact ⟨r, w, hr, rfl, fun p => rfl, fun rest => rfl⟩
  | cons q qs ih =>
    rw [awaitLoop_cons] at h
    by_cases hc : ((w.receiveQueue ++ q.arrived).foldl (classify term) r).completed = true
    · rw [if_pos hc] at h
      exact absurd h (by simp)
    · rw [if_neg hc] at h
      by_cases hd : q.now > timeout
      · rw [if_pos hd] at h
        exact absurd h (by simp)
      · rw [if_neg hd] at h
        obtain ⟨r1, w1, hr1, htq, hin, hrest⟩ := ih _ _ (by simpa using hc) h
        refine ⟨r1, w1, hr1, htq, ?_, ?_⟩
        · intro p
          rw [hin p]
          cases qs <;> rfl
        · intro rest
          rw [List.cons_append, awaitLoop_cons, if_neg hc, if_neg hd]
          exact hrest rest

/-- The iteration that follows the iterations `earlier` of a call that is
still waiting starts with `completed` unset and drains `passInput w earlier p`. -/
theorem makeRequestExit_final_open (command : GoString) (start : Int) (earlier : List Pass)
    (w : World) (h : makeRequestExit command ⟨start, earlier⟩ w = none) :
    ∃ r1 done, r1.completed = false ∧ ∀ p later,
      makeRequestExit command ⟨start, earlier ++ p :: later⟩ w =
        if ((passInput w earlier p).foldl (classify (searchTermOf command)) r1).completed then
          some (.completed
            ((passInput w earlier p).foldl (classify (searchTermOf command)) r1).success
            ((passInput w earlier p).foldl (classify (searchTermOf command)) r1).response,
            ⟨w.transmitQueue ++ [command], [], done ++ passInput w earlier p⟩)
        else if p.now > timeoutAt start then
          some (.deadline, ⟨w.transmitQueue ++ [command], [], done ++ passInput w earlier p⟩)
        else awaitLoop (searchTermOf command) (timeoutAt start)
          ((passInput w earlier p).foldl (classify (searchTermOf command)) r1)
          ⟨w.transmitQueue ++ [command], [], done ++ passInput w earlier p⟩ later := by
  unfold makeRequestExit at h
  obtain ⟨r1, w1, hr1, htq, hin, hrest⟩ := awaitLoop_append_open _ _ earlier _ _ rfl h
  refine ⟨r1, w1.consumed, hr1, fun p later => ?_⟩
  have hin2 : w1.receiveQueue ++ p.arrived = passInput w earlier p := by
    rw [hin p]
    cases earlier <;> rfl
  unfold makeRequestExit
  simp only at hrest
  rw [hrest, awaitLoop_cons, hin2]
  have hw : afterPass w1 p
      = ⟨w.transmitQueue ++ [command], [], w1.consumed ++ passInput w earlier p⟩ := by
    simp [afterPass, htq, hin2]
  rw [hw]

/-- Lines whose last terminal line is `OK` set `completed` and `success`. -/
theorem foldl_last_OK (term : GoString) (r : Request) (lines : List GoString)
    (h : ∃ pre post, lines = pre ++ lit "OK" :: post
      ∧ ∀ s ∈ post, s ≠ lit "OK" ∧ isError term s = false) :
    (lines.foldl (classify term) r).completed = true
      ∧ (lines.foldl (classify term) r).success = true := by
  obtain ⟨pre, post, hl, hpost⟩ := h
  rw [hl]
  exact foldl_OK term r pre post (fun s hs => (hpost s hs).2)

/-- Lines whose last terminal line is an error line set `completed` and clear
`success`. -/
theorem foldl_last_error (term : GoString) (r : Request) (lines : List GoString)
    (h : ∃ pre x post, lines = pre ++ x :: post ∧ isError term x = true
      ∧ ∀ s ∈ post, s ≠ lit "OK" ∧ isError term s = false) :
    (lines.foldl (classify term) r).completed = true
      ∧ (lines.foldl (classify term) r).success = false := by
  obtain ⟨pre, x, post, hl, hx, hpost⟩ := h
  rw [hl]
  refine ⟨foldl_completed_of_terminal term _ r x (by simp) (Or.inr hx), ?_⟩
  rw [List.foldl_append, List.foldl_cons, classify_ERROR term _ x hx]
  exact foldl_success_keep_false term post _ rfl (fun s hs => (hpost s hs).1)

/-- Any lines either have a last terminal line, `OK` or an error line, or
have no terminal line. -/
theorem last_terminal_cases (term : GoString) (lines : List GoString) :
    (∃ pre post, lines = pre ++ lit "OK" :: post
        ∧ ∀ s ∈ post, s ≠ lit "OK" ∧ isError term s = false)
      ∨ (∃ pre x post, lines = pre ++ x :: post ∧ isError term x = true
        ∧ ∀ s ∈ post, s ≠ lit "OK" ∧ isError term s = false)
      ∨ (∀ s ∈ lines, s ≠ lit "OK" ∧ isError term s = false) := by
  induction lines with
  | nil => exact Or.inr (Or.inr (fun s hs => absurd hs (List.not_mem_nil s)))
  | cons a rest ih =>
    rcases ih with ⟨pre, post, hl, hpost⟩ | ⟨pre, x, post, hl, hx, hpost⟩ | hnone
    · exact Or.inl ⟨a :: pre, post, by rw [hl]; rfl, hpost⟩
    · exact Or.inr (Or.inl ⟨a :: pre, x, post, by rw [hl]; rfl, hx, hpost⟩)
    · by_cases hOK : a = lit "OK"
      · exact Or.inl ⟨[], rest, by rw [hOK]; rfl, hnone⟩
      · by_cases hE : isError term a = true
        · exact Or.inr (Or.inl ⟨[], a, rest, rfl, hE, hnone⟩)
        · refine Or.inr (Or.inr (fun s hs => ?_))
          rcases List.mem_cons.mp hs with h | h
          · rw [h]
            exact ⟨hOK, by simpa using hE⟩
          · exact hnone s h

/-- C5: with the clock an input in the `int64` range where `start + 5 s` is
representable, the deadline of a call is its clock reading at line 73 plus
5 000 000 000 ns. If no line equal to `OK` and no line classified as an error
is drained up to and including the first iteration whose clock reading is
past the deadline, the call is still waiting after the iterations before it,
whose readings are at most the deadline, and in that iteration it returns
failure with the payload `Timed out waiting for response`, whatever data
payload was captured, every line received removed from the queue. In general
the iteration that follows iterations in which a call kept waiting is decided
by the lines it drains: when the last terminal line among them is `OK` the
call returns success with a payload; when it is an error line the call
returns failure with a payload; when there is no terminal line the call
returns the time-out if the clock reading is past the deadline and keeps
waiting if it is not. Of any lines exactly one of these three cases holds.
Every call to which the environment presents a terminal line or a clock
reading past the deadline returns, and it returns through `completed` only
after a terminal line was removed from the queue. -/
theorem makeRequest_timeout (command : GoString) (env : Env) (w : World)
    (earlier : List Pass) (p : Pass) (later : List Pass)
    (hlo : -2 ^ 63 ≤ env.start) (hhi : env.start + 5000000000 < 2 ^ 63)
    (hsplit : env.passes = earlier ++ p :: later)
    (hq : ∀ s ∈ w.receiveQueue, s ≠ lit "OK" ∧ isError (searchTermOf command) s = false)
    (he : ∀ q ∈ earlier,
      (∀ s ∈ q.arrived, s ≠ lit "OK" ∧ isError (searchTermOf command) s = false)
        ∧ q.now ≤ env.start + 5000000000)
    (hp : ∀ s ∈ p.arrived, s ≠ lit "OK" ∧ isError (searchTermOf command) s = false)
    (hnow : p.now > env.start + 5000000000) :
    makeRequest command ⟨env.start, earlier⟩ w = none
      ∧ makeRequest command env w
        = some ((false, timedOutMessage), ⟨w.transmitQueue ++ [command], [],
            w.consumed
              ++ (w.receiveQueue ++ ((earlier.map Pass.arrived).flatten ++ p.arrived))⟩)
      ∧ timeoutAt env.start = env.start + 5000000000
      ∧ (∀ (e : Env) (v : World) (before : List Pass) (q : Pass) (after : List Pass),
          e.passes = before ++ q :: after →
          makeRequest command ⟨e.start, before⟩ v = none →
          (∀ pre post, passInput v before q = pre ++ lit "OK" :: post →
              (∀ s ∈ post, s ≠ lit "OK" ∧ isError (searchTermOf command) s = false) →
              ∃ payload v2,
                makeRequestExit command e v = some (.completed true payload, v2)
                  ∧ makeRequest command e v = some ((true, payload), v2))
            ∧ (∀ pre x post, passInput v before q = pre ++ x :: post →
              isError (searchTermOf command) x = true →
              (∀ s ∈ post, s ≠ lit "OK" ∧ isError (searchTermOf command) s = false) →
              ∃ payload v2,
                makeRequestExit command e v = some (.completed false payload, v2)
                  ∧ makeRequest command e v = some ((false, payload), v2))
            ∧ ((∀ s ∈ passInput v before q,
                  s ≠ lit "OK" ∧ isError (searchTermOf command) s = false) →
              -2 ^ 63 ≤ e.start → e.start + 5000000000 < 2 ^ 63 →
              (q.now > e.start + 5000000000 →
                  ∃ v2, makeRequestExit command e v = some (.deadline, v2)
                    ∧ makeRequest command e v = some ((false, timedOutMessage), v2))
                ∧ (q.now ≤ e.start + 5000000000 →
                  makeRequest command ⟨e.start, before ++ [q]⟩ v = none)))
      ∧ (∀ lines : List GoString,
          ((∃ pre post, lines = pre ++ lit "OK" :: post
                ∧ ∀ s ∈ post, s ≠ lit "OK" ∧ isError (searchTermOf command) s = false)
              ∨ (∃ pre x post, lines = pre ++ x :: post
                ∧ isError (searchTermOf command) x = true
                ∧ ∀ s ∈ post, s ≠ lit "OK" ∧ isError (searchTermOf command) s = false)
              ∨ (∀ s ∈ lines, s ≠ lit "OK" ∧ isError (searchTermOf command) s = false))
            ∧ ¬ ((∃ pre post, lines = pre ++ lit "OK" :: post
                  ∧ ∀ s ∈ post, s ≠ lit "OK" ∧ isError (searchTermOf command) s = false)
                ∧ (∃ pre x post, lines = pre ++ x :: post
                  ∧ isError (searchTermOf command) x = true
                  ∧ ∀ s ∈ post, s ≠ lit "OK" ∧ isError (searchTermOf command) s = false))
            ∧ ¬ ((∃ pre post, lines = pre ++ lit "OK" :: post
                  ∧ ∀ s ∈ post, s ≠ lit "OK" ∧ isError (searchTermOf command) s = false)
                ∧ (∀ s ∈ lines, s ≠ lit "OK" ∧ isError (searchTermOf command) s = false))
            ∧ ¬ ((∃ pre x post, lines = pre ++ x :: post
                  ∧ isError (searchTermOf command) x = true
                  ∧ ∀ s ∈ post, s ≠ lit "OK" ∧ isError (searchTermOf command) s = false)
                ∧ (∀ s ∈ lines, s ≠ lit "OK" ∧ isError (searchTermOf command) s = false)))
      ∧ (∀ (e : Env) (v : World),
          (∃ q ∈ e.passes, q.now > timeoutAt e.start
            ∨ ∃ s ∈ q.arrived, s = lit "OK" ∨ isError (searchTermOf command) s = true) →
          ∃ x v2, makeRequestExit command e v = some (x, v2)
            ∧ makeRequest command e v = some (x.result, v2)
            ∧ (∀ ok payload, x = .completed ok payload →
                ∃ done s, v2.consumed = v.consumed ++ done ∧ s ∈ done
                  ∧ (s = lit "OK" ∨ isError (searchTermOf command) s = true))) := by
  have ht := timeoutAt_eq env.start hlo hhi
  obtain ⟨h1, h2⟩ := awaitLoop_deadline_exact (searchTermOf command) (timeoutAt env.start)
    p later hp (by rw [ht]; exact hnow) earlier Request.init
    { w with transmitQueue := w.transmitQueue ++ [command] } rfl hq
    (fun q hq => ⟨(he q hq).1, by rw [ht]; exact (he q hq).2⟩)
  refine ⟨?_, ?_, ht, ?_, ?_, ?_⟩
  · simp only [makeRequest, makeRequestExit, h1, Option.map_none']
  · simp only [makeRequest, makeRequestExit, hsplit, h2, Option.map_some', Exit.result]
  · intro e v before q after hpasses hwait
    obtain ⟨r1, done, hr1, hfin⟩ :=
      makeRequestExit_final_open command e.start before v (makeRequest_eq_none _ _ _ hwait)
    have henv : e = ⟨e.start, before ++ q :: after⟩ := by
      cases e; simp only at hpasses; rw [hpasses]
    refine ⟨?_, ?_, ?_⟩
    · intro pre post hin hpost
      have hf := foldl_last_OK (searchTermOf command) r1 (passInput v before q)
        ⟨pre, post, hin, hpost⟩
      rw [henv]
      simp only [makeRequest, hfin q after, hf.1, hf.2, if_true, Option.map_some', Exit.result]
      exact ⟨_, _, rfl, rfl⟩
    · intro pre x post hin hx hpost
      have hf := foldl_last_error (searchTermOf command) r1 (passInput v before q)
        ⟨pre, x, post, hin, hx, hpost⟩
      rw [henv]
      simp only [makeRequest, hfin q after, hf.1, hf.2, if_true, Option.map_some', Exit.result]
      exact ⟨_, _, rfl, rfl⟩
    · intro hnone hlo2 hhi2
      have hc := (foldl_flags_keep (searchTermOf command) _ r1 hnone).1
      rw [hr1] at hc
      have ht2 := timeoutAt_eq e.start hlo2 hhi2
      constructor
      · intro hlate
        rw [henv]
        simp only [makeRequest, hfin q after, hc, Bool.false_eq_true, if_false, ht2,
          if_pos hlate, Option.map_some', Exit.result]
        exact ⟨_, rfl, rfl⟩
      · intro hearly
        simp only [makeRequest, hfin q [], hc, Bool.false_eq_true, if_false, ht2,
          if_neg (not_lt.mpr hearly), awaitLoop, Option.map_none']
  · intro lines
    refine ⟨last_terminal_cases (searchTermOf command) lines, ?_, ?_, ?_⟩
    · rintro ⟨hA, hB⟩
      have h3 := (foldl_last_OK (searchTermOf command) Request.init lines hA).2
      have h4 := (foldl_last_error (searchTermOf command) Request.init lines hB).2
      rw [h3] at h4
      exact Bool.noConfusion h4
    · rintro ⟨hA, hC⟩
      have h3 := (foldl_last_OK (searchTermOf command) Request.init lines hA).1
      have h4 := (foldl_flags_keep (searchTermOf command) lines Request.init hC).1
      rw [h3] at h4
      exact Bool.noConfusion h4
    · rintro ⟨hB, hC⟩
      have h3 := (foldl_last_error (searchTermOf command) Request.init lines hB).1
      have h4 := (foldl_flags_keep (searchTermOf command) lines Request.init hC).1
      rw [h3] at h4
      exact Bool.noConfusion h4
  · intro e v hprog
    obtain ⟨x, v2, hx⟩ := awaitLoop_returns (searchTermOf command) (timeoutAt e.start)
      e.passes Request.init { v with transmitQueue := v.transmitQueue ++ [command] } hprog
    refine ⟨x, v2, hx, ?_, ?_⟩
    · simp only [makeRequest, makeRequestExit, hx, Option.map_some']
    · intro ok payload hxe
      rw [hxe] at hx
      exact awaitLoop_completed_terminal _ _ _ _
        { v with transmitQueue := v.transmitQueue ++ [command] } ok payload v2 rfl hx

/-- Witness for C5: a data line, then silence: still waiting at a clock
reading of exactly 5 s, timed out at the next reading. -/
theorem makeRequest_timeout_witness :
    makeRequest (lit "AT+CREG?")
        ⟨0, [⟨[lit "+CREG: 0,1"], 10⟩, ⟨[], 5000000000⟩]⟩ ⟨[], [], []⟩ = none
      ∧ makeRequest (lit "AT+CREG?")
          ⟨0, [⟨[lit "+CREG: 0,1"], 10⟩, ⟨[], 5000000000⟩, ⟨[], 5000000001⟩]⟩ ⟨[], [], []⟩
        = some ((false, timedOutMessage), ⟨[lit "AT+CREG?"], [], [lit "+CREG: 0,1"]⟩)
      ∧ timeoutAt 0 = 0 + 5000000000 :=
  have h := makeRequest_timeout (lit "AT+CREG?")
    ⟨0, [⟨[lit "+CREG: 0,1"], 10⟩, ⟨[], 5000000000⟩, ⟨[], 5000000001⟩]⟩ ⟨[], [], []⟩
    [⟨[lit "+CREG: 0,1"], 10⟩, ⟨[], 5000000000⟩] ⟨[], 5000000001⟩ []
    (by decide) (by decide) rfl (by simp) (by decide) (by simp) (by decide)
  ⟨h.1, h.2.1, h.2.2.1⟩

/-! ## C6: a data response after the terminal line -/

theorem foldl_terminal_then_data (term : GoString) (r : Request)
    (pre mid post : List GoString) (t d : GoString)
    (ht : t = lit "OK" ∨ isError term t = true) (hd : isData term d = true)
    (hmid : ∀ s ∈ mid, s ≠ lit "OK" ∧ isError term s = false)
    (hpost : ∀ s ∈ post, s ≠ lit "OK" ∧ isError term s = false ∧ isData term s = false) :
    ((pre ++ t :: (mid ++ d :: post)).foldl (classify term) r).completed = true
      ∧ ((pre ++ t :: (mid ++ d :: post)).foldl (classify term) r).success
          = decide (t = lit "OK")
      ∧ ((pre ++ t :: (mid ++ d :: post)).foldl (classify term) r).response
          = replaceFirst d (term ++ lit ": ") [] := by
  have hdE : isError term d = false := by
    simp [isError, hd]
  have hrest : ∀ s ∈ mid ++ d :: post, s ≠ lit "OK" ∧ isError term s = false := by
    intro s hs
    rcases List.mem_append.mp hs with h | h
    · exact hmid s h
    · rcases List.mem_cons.mp h with h | h
      · rw [h]; exact ⟨isData_not_OK term d hd, hdE⟩
      · exact ⟨(hpost s h).1, (hpost s h).2.1⟩
  refine ⟨foldl_completed_of_terminal term _ r t (by simp) ht, ?_, ?_⟩
  · rw [List.foldl_append, List.foldl_cons, (foldl_flags_keep term _ _ hrest).2]
    rcases ht with h | h
    · rw [h, classify_OK]
      simp
    · rw [classify_ERROR term _ t h]
      simp [isError_not_OK term t h]
  · rw [List.foldl_append, List.foldl_cons, List.foldl_append, List.foldl_cons,
      foldl_response_keep term post _ (fun s hs => ⟨(hpost s hs).2.2, (hpost s hs).2.1⟩),
      classify_data term _ d hd]

/-- C6 (amended): if, among the lines drained in one iteration of the wait
loop, a data response `d` comes after a terminal line `t` (`OK` or an error
line), `d` is still processed; and when `t` is the last terminal line of the
pass and `d` its last data response or error line, `makeRequest` returns the
outcome set by `t` (true for `OK`, false for an error line) together with the
payload of `d`, the line with the first `"<term>: "` removed. It returns only
after the whole pass, the receive queue being empty and every line of the
pass, including those after `d`, removed. -/
theorem makeRequest_data_after_terminal (command : GoString) (env : Env) (w : World)
    (earlier : List Pass) (p : Pass) (later : List Pass) (pre mid post : List GoString)
    (t d : GoString)
    (hsplit : env.passes = earlier ++ p :: later)
    (hwait : makeRequest command ⟨env.start, earlier⟩ w = none)
    (hin : passInput w earlier p = pre ++ t :: (mid ++ d :: post))
    (ht : t = lit "OK" ∨ isError (searchTermOf command) t = true)
    (hd : isData (searchTermOf command) d = true)
    (hmid : ∀ s ∈ mid, s ≠ lit "OK" ∧ isError (searchTermOf command) s = false)
    (hpost : ∀ s ∈ post, s ≠ lit "OK" ∧ isError (searchTermOf command) s = false
      ∧ isData (searchTermOf command) s = false) :
    ∃ w2, makeRequest command env w
        = some ((decide (t = lit "OK"),
            replaceFirst d (searchTermOf command ++ lit ": ") []), w2)
      ∧ w2.receiveQueue = []
      ∧ ∃ before, w2.consumed = before ++ (pre ++ t :: (mid ++ d :: post)) := by
  obtain ⟨r1, done, hfin⟩ :=
    makeRequestExit_final command env.start earlier w (makeRequest_eq_none _ _ _ hwait)
  have henv : env = ⟨env.start, earlier ++ p :: later⟩ := by
    cases env; simp only at hsplit; rw [hsplit]
  have hf := foldl_terminal_then_data (searchTermOf command) r1 pre mid post t d ht hd hmid hpost
  rw [henv]
  simp only [makeRequest, hfin p later, hin, hf.1, hf.2.1, hf.2.2, if_true, Option.map_some',
    Exit.result]
  exact ⟨_, rfl, rfl, done, rfl⟩

/-- Witness for C6: `OK` arrives before the `+CREG: 0,1` line in one pass. -/
theorem makeRequest_data_after_terminal_witness :
    ∃ w2, makeRequest (lit "AT+CREG?")
        ⟨0, [⟨[lit "OK", lit "+CREG: 0,1", lit "RING"], 1⟩]⟩ ⟨[], [], []⟩
        = some ((decide (lit "OK" = lit "OK"),
            replaceFirst (lit "+CREG: 0,1") (searchTermOf (lit "AT+CREG?") ++ lit ": ") []), w2)
      ∧ w2.receiveQueue = []
      ∧ ∃ before, w2.consumed
          = before ++ ([] ++ lit "OK" :: ([] ++ lit "+CREG: 0,1" :: [lit "RING"])) :=
  makeRequest_data_after_terminal (lit "AT+CREG?")
    ⟨0, [⟨[lit "OK", lit "+CREG: 0,1", lit "RING"], 1⟩]⟩ ⟨[], [], []⟩ []
    ⟨[lit "OK", lit "+CREG: 0,1", lit "RING"], 1⟩ [] [] [] [lit "RING"] (lit "OK")
    (lit "+CREG: 0,1") rfl (by decide) rfl (Or.inl rfl) (by decide) (by simp) (by decide)

/-- C6 as stated fails when the pass goes on after the data line. In the
pass `OK`, `+CREG: 0,1`, `+CME ERROR: 3` the data line comes after the
terminal `OK`, yet the call returns failure with the error line as payload;
in the pass `+CME ERROR: 3`, `+CREG: 0,1`, `OK` the data line comes after
the terminal error line, yet the call returns success. -/
theorem makeRequest_data_after_terminal_counterexample :
    makeRequest (lit "AT+CREG?")
        ⟨0, [⟨[lit "OK", lit "+CREG: 0,1", lit "+CME ERROR: 3"], 1⟩]⟩ ⟨[], [], []⟩
      = some ((false, lit "+CME ERROR: 3"),
          ⟨[lit "AT+CREG?"], [], [lit "OK", lit "+CREG: 0,1", lit "+CME ERROR: 3"]⟩)
      ∧ isData (searchTermOf (lit "AT+CREG?")) (lit "+CREG: 0,1") = true
      ∧ replaceFirst (lit "+CREG: 0,1") (searchTermOf (lit "AT+CREG?") ++ lit ": ") []
          = lit "0,1"
      ∧ isError (searchTermOf (lit "AT+CREG?")) (lit "+CME ERROR: 3") = true
      ∧ makeRequest (lit "AT+CREG?")
          ⟨0, [⟨[lit "+CME ERROR: 3", lit "+CREG: 0,1", lit "OK"], 1⟩]⟩ ⟨[], [], []⟩
        = some ((true, lit "0,1"),
            ⟨[lit "AT+CREG?"], [], [lit "+CME ERROR: 3", lit "+CREG: 0,1", lit "OK"]⟩) := by
  decide

/-! ## C7: the receive queue after a call -/

theorem awaitLoop_quiet (term : GoString) (timeout : Int) (passes : List Pass) (r : Request)
    (w : World) (e : Exit) (w2 : World) (hquiet : ∀ p ∈ passes, p.arrived = [])
    (h : awaitLoop term timeout r w passes = some (e, w2)) :
    w2.receiveQueue = [] ∧ w2.consumed = w.consumed ++ w.receiveQueue
      ∧ w2.transmitQueue = w.transmitQueue
      ∧ e = (if (w.receiveQueue.foldl (classify term) r).completed then
              Exit.completed (w.receiveQueue.foldl (classify term) r).success
                (w.receiveQueue.foldl (classify term) r).response
            else Exit.deadline) := by
  induction passes generalizing r w with
  | nil => simp [awaitLoop] at h
  | cons p ps ih =>
    have hp : p.arrived = [] := hquiet p (List.mem_cons_self p ps)
    rw [awaitLoop_cons, hp, List.append_nil] at h
    by_cases hc : (w.receiveQueue.foldl (classify term) r).completed = true
    · rw [if_pos hc] at h
      obtain ⟨h1, h2⟩ := Prod.mk.inj (Option.some.inj h)
      rw [if_pos hc, ← h1, ← h2]
      simp [afterPass, hp]
    · rw [if_neg hc] at h
      by_cases hd : p.now > timeout
      · rw [if_pos hd] at h
        obtain ⟨h1, h2⟩ := Prod.mk.inj (Option.some.inj h)
        rw [if_neg hc, ← h1, ← h2]
        simp [afterPass, hp]
      · rw [if_neg hd] at h
        obtain ⟨h1, h2, h3, h4⟩ := ih _ (afterPass w p)
          (fun x hx => hquiet x (List.mem_cons_of_mem p hx)) h
        refine ⟨h1, ?_, ?_, ?_⟩
        · rw [h2]; simp [afterPass, hp]
        · rw [h3]; rfl
        · rw [h4, if_neg hc]
          simp [afterPass, hc]

/-- C7: for every command and every initial content of the receive queue, with
no line arriving during the call: when `makeRequest` returns, whatever the
outcome, the receive queue is empty, the removal history has grown by exactly
the initial queue content in front-to-back order (each line taken out once,
none put back), the outcome is the one the chain of `classify` computes over
those lines in that order, and the transmit queue has grown by exactly the
given command. -/
theorem makeRequest_drains_queue (command : GoString) (env : Env) (w : World)
    (res : (Bool × GoString) × World)
    (hquiet : ∀ p ∈ env.passes, p.arrived = [])
    (hret : makeRequest command env w = some res) :
    res.2.receiveQueue = []
      ∧ res.2.consumed = w.consumed ++ w.receiveQueue
      ∧ res.2.transmitQueue = w.transmitQueue ++ [command]
      ∧ res.1 = (if (w.receiveQueue.foldl (classify (searchTermOf command))
                    Request.init).completed then
            ((w.receiveQueue.foldl (classify (searchTermOf command)) Request.init).success,
              (w.receiveQueue.foldl (classify (searchTermOf command)) Request.init).response)
          else (false, timedOutMessage)) := by
  unfold makeRequest at hret
  cases hx : makeRequestExit command env w with
  | none => rw [hx] at hret; simp at hret
  | some x =>
    rw [hx] at hret
    have hres : res = (x.1.result, x.2) := by
      simpa using hret.symm
    unfold makeRequestExit at hx
    obtain ⟨h1, h2, h3, h4⟩ := awaitLoop_quiet _ _ _ _ _ x.1 x.2 hquiet hx
    rw [hres]
    refine ⟨h1, h2, h3, ?_⟩
    show x.1.result = _
    rw [h4]
    by_cases hc : (w.receiveQueue.foldl (classify (searchTermOf command))
        Request.init).completed = true
    · simp [hc, Exit.result]
    · simp [hc, Exit.result]

/-- Witness for C7: three queued lines, the second an `OK`. -/
theorem makeRequest_drains_queue_witness :
    makeRequest (lit "AT+CREG?") ⟨0, [⟨[], 1⟩]⟩
        ⟨[], [lit "RING", lit "OK", lit "+CREG: 0,1"], []⟩
      = some ((true, lit "0,1"),
          ⟨[lit "AT+CREG?"], [], [lit "RING", lit "OK", lit "+CREG: 0,1"]⟩)
      ∧ (⟨[lit "AT+CREG?"], [], [lit "RING", lit "OK", lit "+CREG: 0,1"]⟩ : World).consumed
          = [] ++ [lit "RING", lit "OK", lit "+CREG: 0,1"] :=
  ⟨by decide,
    (makeRequest_drains_queue (lit "AT+CREG?") ⟨0, [⟨[], 1⟩]⟩
      ⟨[], [lit "RING", lit "OK", lit "+CREG: 0,1"], []⟩
      ((true, lit "0,1"), ⟨[lit "AT+CREG?"], [], [lit "RING", lit "OK", lit "+CREG: 0,1"]⟩)
      (by simp) (by decide)).2.1⟩

/-! ## C8: the line framer -/

theorem set_length_append (a tail : List UInt8) (x b : UInt8) :
    (a ++ x :: tail).set a.length b = a ++ b :: tail := by
  induction a with
  | nil => rfl
  | cons c a ih => simp [List.set, ih]

theorem getD_length_append (a tail : List UInt8) (b : UInt8) :
    (a ++ b :: tail).getD a.length 0 = b := by
  induction a with
  | nil => rfl
  | cons c a ih => simpa using ih

theorem contains_of_split (x sub y : GoString) : contains (x ++ sub ++ y) sub = true := by
  induction x with
  | nil =>
    cases h : sub ++ y with
    | nil =>
      have h1 : sub = [] := (List.append_eq_nil.mp h).1
      have h2 : y = [] := (List.append_eq_nil.mp h).2
      subst h1; subst h2
      rfl
    | cons c s =>
      have hp : sub.isPrefixOf (c :: s) = true := by
        rw [← h]; exact isPrefixOf_append_self sub y
      simp [contains, h, hp]
  | cons c x ih =>
    have h2 : c :: x ++ sub ++ y = c :: (x ++ sub ++ y) := by simp
    rw [h2]
    simp only [contains, ih, Bool.or_true]

/-- One byte through the framer, the buffer seen as the accumulated bytes `a`
followed by the slot to be written and the rest. -/
theorem frameByte_step (a tail : List UInt8) (x b : UInt8) (q : List GoString) :
    frameByte (⟨a ++ x :: tail, a.length⟩, q) b =
      some (if b = 10 ∧ a.getLast? = some 13 then
          (⟨a ++ b :: tail, 0⟩, if a.dropLast ≠ [] then q ++ [a.dropLast] else q)
        else (⟨a ++ b :: tail, a.length + 1⟩, q)) := by
  rcases List.eq_nil_or_concat a with ha | ⟨a1, y, ha⟩
  · subst ha
    simp [frameByte]
  · rw [List.concat_eq_append] at ha
    subst ha
    have hlt : (a1 ++ [y]).length < (a1 ++ [y] ++ x :: tail).length := by
      simp
    have hset : (a1 ++ [y] ++ x :: tail).set (a1 ++ [y]).length b = a1 ++ [y] ++ b :: tail :=
      set_length_append (a1 ++ [y]) tail x b
    have hg1 : (a1 ++ [y] ++ b :: tail).getD (a1.length + 1) 0 = b := by
      have := getD_length_append (a1 ++ [y]) tail b
      simpa using this
    have hg2 : (a1 ++ [y] ++ b :: tail).getD a1.length 0 = y := by
      have := getD_length_append a1 (b :: tail) y
      simpa using this
    have htake : (a1 ++ [y] ++ b :: tail).take a1.length = a1 := by
      rw [List.append_assoc, List.take_left]
    unfold frameByte
    simp only [if_pos hlt, hset]
    have hlen : (a1 ++ [y]).length = a1.length + 1 := by simp
    simp only [hlen, Nat.add_sub_cancel, show a1.length + 1 + 1 - 2 = a1.length from by omega,
      hg1, hg2, htake, List.getLast?_concat, List.dropLast_concat, Option.some.injEq,
      show a1.length + 1 + 1 ≥ 2 from by omega, if_true]
    by_cases hb : b = 10 <;> by_cases hy : y = 13 <;> by_cases ha : a1 = [] <;>
      simp [hb, hy, ha]

theorem frameChunk_append (xs ys : List UInt8) (st : Framer × List GoString) :
    frameChunk st (xs ++ ys) = (frameChunk st xs).bind (fun st1 => frameChunk st1 ys) := by
  induction xs generalizing st with
  | nil => rfl
  | cons b xs ih =>
    simp only [List.cons_append, frameChunk]
    cases frameByte st b with
    | none => rfl
    | some st1 => exact ih st1

theorem frameChunks_eq (chunks : List (List UInt8)) (st : Framer × List GoString) :
    frameChunks st chunks = frameChunk st chunks.flatten := by
  induction chunks generalizing st with
  | nil => rfl
  | cons c cs ih =>
    rw [List.flatten_cons, frameChunk_append]
    simp only [frameChunks]
    cases frameChunk st c with
    | none => rfl
    | some st1 => exact ih st1

/-- One line and its terminator through the framer, from a state in which the
bytes `a` of the line are accumulated. -/
theorem frameChunk_line (rest a tail : List UInt8) (q : List GoString)
    (hlen : rest.length + 2 ≤ tail.length)
    (hno : contains (a ++ rest) [13, 10] = false) :
    ∃ buf, buf.length = (a ++ tail).length
      ∧ frameChunk (⟨a ++ tail, a.length⟩, q) (rest ++ [13, 10])
          = some (⟨buf, 0⟩, if a ++ rest ≠ [] then q ++ [a ++ rest] else q) := by
  induction rest generalizing a tail with
  | nil =>
    match tail, hlen with
    | x :: y :: tail2, _ =>
      have h1 : frameByte (⟨a ++ x :: y :: tail2, a.length⟩, q) 13
          = some (⟨a ++ 13 :: y :: tail2, a.length + 1⟩, q) := by
        rw [frameByte_step, if_neg (by simp)]
      have h2 : frameByte (⟨(a ++ [13]) ++ y :: tail2, (a ++ [13]).length⟩, q) 10
          = some (⟨(a ++ [13]) ++ 10 :: tail2, 0⟩, if a ≠ [] then q ++ [a] else q) := by
        rw [frameByte_step, if_pos ⟨rfl, List.getLast?_concat a⟩, List.dropLast_concat]
      have h3 : a ++ 13 :: y :: tail2 = (a ++ [13]) ++ y :: tail2 := by simp
      have h4 : a.length + 1 = (a ++ [13]).length := by simp
      refine ⟨(a ++ [13]) ++ 10 :: tail2, by simp, ?_⟩
      simp only [List.nil_append, frameChunk, h1]
      rw [h3, h4, h2, List.append_nil]
  | cons c rest ih =>
    match tail, hlen with
    | x :: tail2, hlen2 =>
      have hcond : ¬ (c = 10 ∧ a.getLast? = some 13) := by
        rintro ⟨hc, hl⟩
        rcases List.eq_nil_or_concat a with ha | ⟨a1, y, ha⟩
        · rw [ha] at hl
          simp at hl
        · rw [List.concat_eq_append] at ha
          rw [ha, List.getLast?_concat] at hl
          have hy : y = 13 := Option.some.inj hl
          have hsplit : a ++ c :: rest = a1 ++ [13, 10] ++ rest := by
            rw [ha, hy, hc]; simp
          rw [hsplit, contains_of_split] at hno
          exact Bool.noConfusion hno
      have h1 : frameByte (⟨a ++ x :: tail2, a.length⟩, q) c
          = some (⟨(a ++ [c]) ++ tail2, (a ++ [c]).length⟩, q) := by
        rw [frameByte_step, if_neg hcond]
        simp
      obtain ⟨buf, hbuf, hrun⟩ := ih (a ++ [c]) tail2 (by simp at hlen2 ⊢; omega)
        (by simpa using hno)
      refine ⟨buf, by rw [hbuf]; simp, ?_⟩
      have hc : (c :: rest) ++ [13, 10] = c :: (rest ++ [13, 10]) := rfl
      rw [hc]
      simp only [frameChunk, h1]
      rw [hrun]
      simp

theorem frameChunk_crlfStream (lines : List GoString) (buf : List UInt8) (q : List GoString)
    (hbuf : buf.length = 255)
    (hlines : ∀ l ∈ lines, contains l [13, 10] = false ∧ l.length ≤ 253) :
    ∃ buf2, buf2.length = 255
      ∧ frameChunk (⟨buf, 0⟩, q) (crlfStream lines)
          = some (⟨buf2, 0⟩, q ++ lines.filter (fun l => l ≠ [])) := by
  induction lines generalizing buf q with
  | nil => exact ⟨buf, hbuf, by simp [crlfStream, frameChunk]⟩
  | cons l ls ih =>
    have hl := hlines l (List.mem_cons_self l ls)
    obtain ⟨buf1, hbuf1, hrun1⟩ := frameChunk_line l [] buf q (by rw [hbuf]; omega)
      (by simpa using hl.1)
    simp only [List.nil_append, List.length_nil] at hbuf1 hrun1
    obtain ⟨buf2, hbuf2, hrun2⟩ := ih buf1 (if l ≠ [] then q ++ [l] else q)
      (by rw [hbuf1, hbuf]) (fun x hx => hlines x (List.mem_cons_of_mem l hx))
    refine ⟨buf2, hbuf2, ?_⟩
    rw [crlfStream, frameChunk_append, hrun1, Option.some_bind, hrun2]
    by_cases hne : l = []
    · simp [hne]
    · simp [hne]

/-- C8: for every byte stream `l1 CR LF ... ln CR LF` in which no `li`
contains the pair CR LF and each `li` has at most 253 bytes, and for every way
of cutting the stream into read chunks, the framer of the pump loop, started
with no byte accumulated (whatever the 255-byte working buffer holds, in
particular the zeroed buffer of `main`), appends to the receive queue exactly
the non-empty `li`, without terminator, in arrival order, never writes out of
range, and ends with no byte accumulated; empty lines are dropped. -/
theorem frameChunks_crlfStream (lines : List GoString) (chunks : List (List UInt8))
    (buf : List UInt8) (queue : List GoString)
    (hbuf : buf.length = 255)
    (hlines : ∀ l ∈ lines, contains l [13, 10] = false ∧ l.length ≤ 253)
    (hchunks : chunks.flatten = crlfStream lines) :
    ∃ buf2, buf2.length = 255
      ∧ frameChunks (⟨buf, 0⟩, queue) chunks
          = some (⟨buf2, 0⟩, queue ++ lines.filter (fun l => l ≠ [])) := by
  rw [frameChunks_eq, hchunks]
  exact frameChunk_crlfStream lines buf queue hbuf hlines

/-- Witness for C8: the stream `OK CR LF CR LF A CR LF`, read in three chunks
that cut through a terminator, into the zeroed buffer of `main`. -/
theorem frameChunks_crlfStream_witness :
    ∃ buf2, buf2.length = 255
      ∧ frameChunks (⟨List.replicate 255 0, 0⟩, [lit "RING"])
            [[79], [75, 13], [10, 13, 10, 65, 13, 10]]
          = some (⟨buf2, 0⟩,
              [lit "RING"] ++ [[79, 75], [], [65]].filter (fun l => l ≠ [])) :=
  frameChunks_crlfStream [[79, 75], [], [65]] [[79], [75, 13], [10, 13, 10, 65, 13, 10]]
    (List.replicate 255 0) [lit "RING"] (List.length_replicate 255 0) (by decide) (by decide)

/-! ## C9: the setting enforcer -/

theorem awaitLoop_world (term : GoString) (timeout : Int) (passes : List Pass) (r : Request)
    (w : World) (x : Exit) (w1 : World) (h : awaitLoop term timeout r w passes = some (x, w1)) :
    w1.receiveQueue = [] ∧ w1.transmitQueue = w.transmitQueue := by
  induction passes generalizing r w with
  | nil => simp [awaitLoop] at h
  | cons p ps ih =>
    rw [awaitLoop_cons] at h
    split_ifs at h with hc hd
    · rw [← (Prod.mk.inj (Option.some.inj h)).2]
      exact ⟨rfl, rfl⟩
    · rw [← (Prod.mk.inj (Option.some.inj h)).2]
      exact ⟨rfl, rfl⟩
    · exact ih _ (afterPass w p) h

/-- A call that returns leaves the receive queue empty and has appended its
command, and nothing else, to the transmit queue. -/
theorem makeRequest_world (command : GoString) (env : Env) (w : World)
    (res : Bool × GoString) (w1 : World) (h : makeRequest command env w = some (res, w1)) :
    w1.receiveQueue = [] ∧ w1.transmitQueue = w.transmitQueue ++ [command] := by
  unfold makeRequest at h
  cases hx : makeRequestExit command env w with
  | none => rw [hx] at h; simp at h
  | some x =>
    rw [hx] at h
    have hw : x.2 = w1 := by
      have := Option.some.inj h
      exact (Prod.mk.inj this).2
    unfold makeRequestExit at hx
    have := awaitLoop_world _ _ _ _ _ x.1 x.2 hx
    rw [hw] at this
    exact this

theorem split_of_not_mem (sep : UInt8) (s : GoString) (h : sep ∉ s) : split sep s = [s] := by
  induction s with
  | nil => rfl
  | cons c s ih =>
    have hc : c ≠ sep := fun hcs => h (by rw [hcs]; exact List.mem_cons_self sep s)
    have hs : sep ∉ s := fun hm => h (List.mem_cons_of_mem c hm)
    simp [split, hc, ih hs]

theorem split_append_sep (sep : UInt8) (q rest : GoString) (h : sep ∉ q) :
    split sep (q ++ sep :: rest) = q :: split sep rest := by
  induction q with
  | nil => simp [split]
  | cons c q ih =>
    have hc : c ≠ sep := fun hcs => h (by rw [hcs]; exact List.mem_cons_self sep q)
    have hs : sep ∉ q := fun hm => h (List.mem_cons_of_mem c hm)
    simp [split, hc, ih hs]

theorem lit_eq_sign : lit "=" = [61] := by decide

theorem split_setting (q v : GoString) (hq : (61 : UInt8) ∉ q) (hv : (61 : UInt8) ∉ v) :
    split 61 (q ++ lit "=" ++ v) = [q, v] := by
  rw [lit_eq_sign, List.append_assoc, List.singleton_append, split_append_sep 61 q v hq,
    split_of_not_mem 61 v hv]

/-- C9: for every setting `q=v` (`q` and `v` free of `=`),
`enforceModemSetting` first sends the query `q?`. If the query succeeds with a
payload that contains `v`, nothing more is sent and the result is
`restartRequired = false`. If it succeeds with a payload that does not contain
`v`, exactly one more command is sent, the whole string `q=v`, and the result
is `true` if that command succeeds. If either request fails, `ATZ` is queued
and the process exits with status -1, nothing being returned. The result
`true` arises only from a successful corrective command. -/
theorem enforceModemSetting_spec (q v : GoString) (e1 e2 : Env) (w : World)
    (hq : (61 : UInt8) ∉ q) (hv : (61 : UInt8) ∉ v) :
    (∀ resp w1, makeRequest (q ++ lit "?") e1 w = some ((true, resp), w1) →
        contains resp v = true →
        enforceModemSetting (q ++ lit "=" ++ v) e1 e2 w = some (.ret false, w1)
          ∧ w1.transmitQueue = w.transmitQueue ++ [q ++ lit "?"])
      ∧ (∀ resp w1, makeRequest (q ++ lit "?") e1 w = some ((true, resp), w1) →
          contains resp v = false →
          (∀ resp2 w2, makeRequest (q ++ lit "=" ++ v) e2 w1 = some ((true, resp2), w2) →
            enforceModemSetting (q ++ lit "=" ++ v) e1 e2 w = some (.ret true, w2)
              ∧ w2.transmitQueue
                  = w.transmitQueue ++ [q ++ lit "?", q ++ lit "=" ++ v])
          ∧ (∀ resp2 w2, makeRequest (q ++ lit "=" ++ v) e2 w1 = some ((false, resp2), w2) →
            enforceModemSetting (q ++ lit "=" ++ v) e1 e2 w
                = some (.exit (-1),
                    { w2 with transmitQueue := w2.transmitQueue ++ [lit "ATZ"] })
              ∧ w2.transmitQueue ++ [lit "ATZ"]
                  = w.transmitQueue ++ [q ++ lit "?", q ++ lit "=" ++ v, lit "ATZ"])
          ∧ (makeRequest (q ++ lit "=" ++ v) e2 w1 = none →
            enforceModemSetting (q ++ lit "=" ++ v) e1 e2 w = none))
      ∧ (∀ resp w1, makeRequest (q ++ lit "?") e1 w = some ((false, resp), w1) →
          enforceModemSetting (q ++ lit "=" ++ v) e1 e2 w
              = some (.exit (-1), { w1 with transmitQueue := w1.transmitQueue ++ [lit "ATZ"] })
            ∧ w1.transmitQueue ++ [lit "ATZ"]
                = w.transmitQueue ++ [q ++ lit "?", lit "ATZ"])
      ∧ (makeRequest (q ++ lit "?") e1 w = none →
          enforceModemSetting (q ++ lit "=" ++ v) e1 e2 w = none)
      ∧ (∀ w3, enforceModemSetting (q ++ lit "=" ++ v) e1 e2 w = some (.ret true, w3) →
          ∃ resp w1 resp2,
            makeRequest (q ++ lit "?") e1 w = some ((true, resp), w1)
              ∧ contains resp v = false
              ∧ makeRequest (q ++ lit "=" ++ v) e2 w1 = some ((true, resp2), w3)) := by
  have hsplit := split_setting q v hq hv
  generalize q ++ lit "=" ++ v = setting at hsplit ⊢
  refine ⟨?_, ?_, ?_, ?_, ?_⟩
  · intro resp w1 h1 hc
    refine ⟨?_, (makeRequest_world _ _ _ _ _ h1).2⟩
    simp [enforceModemSetting, hsplit, h1, hc]
  · intro resp w1 h1 hc
    have hw1 := (makeRequest_world _ _ _ _ _ h1).2
    refine ⟨?_, ?_, ?_⟩
    · intro resp2 w2 h2
      have hw2 := (makeRequest_world _ _ _ _ _ h2).2
      refine ⟨?_, by rw [hw2, hw1]; simp⟩
      simp [enforceModemSetting, hsplit, h1, hc, h2]
    · intro resp2 w2 h2
      have hw2 := (makeRequest_world _ _ _ _ _ h2).2
      refine ⟨?_, by rw [hw2, hw1]; simp⟩
      simp [enforceModemSetting, hsplit, h1, hc, h2, fatal]
    · intro h2
      simp [enforceModemSetting, hsplit, h1, hc, h2]
  · intro resp w1 h1
    have hw1 := (makeRequest_world _ _ _ _ _ h1).2
    refine ⟨?_, by rw [hw1]; simp⟩
    simp [enforceModemSetting, hsplit, h1, fatal]
  · intro h1
    simp [enforceModemSetting, hsplit, h1]
  · intro w3 h
    simp only [enforceModemSetting, hsplit] at h
    cases h1 : makeRequest (q ++ lit "?") e1 w with
    | none => simp [h1] at h
    | some x =>
      obtain ⟨⟨ok, resp⟩, w1⟩ := x
      simp only [h1] at h
      cases ok with
      | false => simp [fatal] at h
      | true =>
        cases hc : contains resp v with
        | true => simp [hc] at h
        | false =>
          simp only [hc] at h
          cases h2 : makeRequest setting e2 w1 with
          | none => simp [h2] at h
          | some y =>
            obtain ⟨⟨ok2, resp2⟩, w2⟩ := y
            simp only [h2] at h
            cases ok2 with
            | false => simp [fatal] at h
            | true =>
              simp at h
              exact ⟨resp, w1, resp2, rfl, hc, by rw [← h]; exact h2⟩

/-- Witness for C9: the setting `AT+UBMCONF=2`, the query answered with `0`
and the corrective command with `OK`. -/
theorem enforceModemSetting_spec_witness :
    enforceModemSetting (lit "AT+UBMCONF" ++ lit "=" ++ lit "2")
        ⟨0, [⟨[lit "+UBMCONF: 0", lit "OK"], 1⟩]⟩ ⟨0, [⟨[lit "OK"], 1⟩]⟩ ⟨[], [], []⟩
      = some (.ret true,
          ⟨[lit "AT+UBMCONF?", lit "AT+UBMCONF=2"], [], [lit "+UBMCONF: 0", lit "OK", lit "OK"]⟩)
      ∧ (⟨[lit "AT+UBMCONF?", lit "AT+UBMCONF=2"], [],
            [lit "+UBMCONF: 0", lit "OK", lit "OK"]⟩ : World).transmitQueue
          = [] ++ [lit "AT+UBMCONF" ++ lit "?", lit "AT+UBMCONF" ++ lit "=" ++ lit "2"] :=
  ((enforceModemSetting_spec (lit "AT+UBMCONF") (lit "2")
      ⟨0, [⟨[lit "+UBMCONF: 0", lit "OK"], 1⟩]⟩ ⟨0, [⟨[lit "OK"], 1⟩]⟩ ⟨[], [], []⟩
      (by decide) (by decide)).2.1 (lit "0")
      ⟨[lit "AT+UBMCONF?"], [], [lit "+UBMCONF: 0", lit "OK"]⟩ (by decide) (by decide)).1
    [] ⟨[lit "AT+UBMCONF?", lit "AT+UBMCONF=2"], [], [lit "+UBMCONF: 0", lit "OK", lit "OK"]⟩
    (by decide)

/-! ## C10: waiting for registration -/

theorem pollRegistration_step (i : Nat) (s : Bool) (r : GoString) (e : Env) (es : List Env)
    (v : World) (resp : GoString) (v1 : World) (f0 status : GoString) (rest : List GoString)
    (h1 : makeRequest (lit "AT+CREG?") e v = some ((true, resp), v1))
    (h2 : split 44 resp = f0 :: status :: rest) :
    ((status = lit "1" ∨ status = lit "5") →
        pollRegistration (i + 1) s r (e :: es) v = some (.ret (true, resp), v1))
      ∧ (status ≠ lit "1" → status ≠ lit "5" →
        pollRegistration (i + 1) s r (e :: es) v = pollRegistration i false resp es v1) := by
  constructor
  · intro h
    simp only [pollRegistration, h1, h2]
    rcases h with h | h <;> simp [h]
  · intro ha hb
    simp only [pollRegistration, h1, h2]
    simp [ha, hb]

theorem pollRegistration_requests (i : Nat) (s : Bool) (r : GoString) (envs : List Env)
    (w : World) (out : Outcome (Bool × GoString)) (w2 : World)
    (h : pollRegistration i s r envs w = some (out, w2)) :
    ∃ k, k ≤ i ∧ w2.transmitQueue = w.transmitQueue ++ List.replicate k (lit "AT+CREG?")
      ++ exitTail out := by
  induction i generalizing s r envs w with
  | zero =>
    simp only [pollRegistration] at h
    obtain ⟨h1, h2⟩ := Prod.mk.inj (Option.some.inj h)
    exact ⟨0, le_refl 0, by rw [← h1, ← h2]; simp [exitTail]⟩
  | succ i ih =>
    cases envs with
    | nil => simp [pollRegistration] at h
    | cons e es =>
      simp only [pollRegistration] at h
      cases h1 : makeRequest (lit "AT+CREG?") e w with
      | none => simp [h1] at h
      | some x =>
        obtain ⟨⟨ok, resp⟩, w1⟩ := x
        have hw1 := (makeRequest_world _ _ _ _ _ h1).2
        simp only [h1] at h
        cases ok with
        | false =>
          simp only [Bool.not_false, if_true, fatal] at h
          obtain ⟨h3, h4⟩ := Prod.mk.inj (Option.some.inj h)
          exact ⟨1, by omega, by rw [← h3, ← h4, hw1]; simp [exitTail]⟩
        | true =>
          simp only [Bool.not_true, Bool.false_eq_true, if_false] at h
          cases h2 : split 44 resp with
          | nil =>
            simp only [h2] at h
            obtain ⟨h3, h4⟩ := Prod.mk.inj (Option.some.inj h)
            exact ⟨1, by omega, by rw [← h3, ← h4, hw1]; simp [exitTail]⟩
          | cons f0 fs =>
            cases fs with
            | nil =>
              simp only [h2] at h
              obtain ⟨h3, h4⟩ := Prod.mk.inj (Option.some.inj h)
              exact ⟨1, by omega, by rw [← h3, ← h4, hw1]; simp [exitTail]⟩
            | cons status rest =>
              simp only [h2] at h
              by_cases hreg : (status = lit "1" || status = lit "5") = true
              · rw [if_pos hreg] at h
                obtain ⟨h3, h4⟩ := Prod.mk.inj (Option.some.inj h)
                exact ⟨1, by omega, by rw [← h3, ← h4, hw1]; simp [exitTail]⟩
              · rw [if_neg hreg] at h
                obtain ⟨k, hk, htq⟩ := ih false resp es w1 h
                refine ⟨k + 1, by omega, ?_⟩
                rw [htq, hw1, List.replicate_succ]
                simp

theorem pollRegistration_registered (i : Nat) (s : Bool) (r : GoString) (envs : List Env)
    (w : World) (resp : GoString) (w2 : World)
    (h : pollRegistration i s r envs w = some (.ret (true, resp), w2))
    (hs : s = false ∨ 1 ≤ i) :
    ∃ e ∈ envs, ∃ u u1 f0 status rest,
      makeRequest (lit "AT+CREG?") e u = some ((true, resp), u1)
        ∧ split 44 resp = f0 :: status :: rest
        ∧ (status = lit "1" ∨ status = lit "5") := by
  induction i generalizing s r envs w with
  | zero =>
    simp only [pollRegistration] at h
    rcases hs with hs | hs
    · rw [hs] at h
      simp at h
    · omega
  | succ i ih =>
    cases envs with
    | nil => simp [pollRegistration] at h
    | cons e es =>
      simp only [pollRegistration] at h
      cases h1 : makeRequest (lit "AT+CREG?") e w with
      | none => simp [h1] at h
      | some x =>
        obtain ⟨⟨ok, resp1⟩, w1⟩ := x
        simp only [h1] at h
        cases ok with
        | false => simp [fatal] at h
        | true =>
          simp only [Bool.not_true, Bool.false_eq_true, if_false] at h
          cases h2 : split 44 resp1 with
          | nil => simp [h2] at h
          | cons f0 fs =>
            cases fs with
            | nil => simp [h2] at h
            | cons status rest =>
              simp only [h2] at h
              by_cases hreg : (status = lit "1" || status = lit "5") = true
              · rw [if_pos hreg] at h
                have hresp : resp1 = resp := by
                  have := (Prod.mk.inj (Option.some.inj h)).1
                  simpa using this
                refine ⟨e, List.mem_cons_self e es, w, w1, f0, status, rest, ?_, ?_, ?_⟩
                · rw [h1, hresp]
                · rw [← hresp, h2]
                · simpa using hreg
              · rw [if_neg hreg] at h
                obtain ⟨e2, he2, hrest⟩ := ih false resp1 es w1 h (Or.inl rfl)
                exact ⟨e2, List.mem_cons_of_mem e he2, hrest⟩

/-- A data line followed by `OK` in the first pass: success with the payload
of the data line, whatever the receive queue held before. -/
theorem makeRequest_data_then_OK (command line : GoString) (start now : Int) (v : World)
    (hd : isData (searchTermOf command) line = true) :
    makeRequest command ⟨start, [⟨[line, lit "OK"], now⟩]⟩ v
      = some ((true, replaceFirst line (searchTermOf command ++ lit ": ") []),
          ⟨v.transmitQueue ++ [command], [],
            v.consumed ++ (v.receiveQueue ++ [line, lit "OK"])⟩) := by
  simp only [makeRequest, makeRequestExit, awaitLoop_cons, List.foldl_append, List.foldl_cons,
    List.foldl_nil, classify_OK, classify_data _ _ line hd, if_true, Option.map_some',
    Exit.result, afterPass]

theorem awaitRegistration_requests (s : Bool) (r : GoString) (envs : List Env) (w : World)
    (out : Outcome Unit) (w2 : World) (h : awaitRegistration s r envs w = some (out, w2)) :
    ∃ k, k ≤ 20 ∧ w2.transmitQueue
      = w.transmitQueue ++ List.replicate k (lit "AT+CREG?") ++ exitTail out := by
  unfold awaitRegistration at h
  cases hp : pollRegistration 20 s r envs w with
  | none => simp [hp] at h
  | some x =>
    obtain ⟨o, w1⟩ := x
    obtain ⟨k, hk, htq⟩ := pollRegistration_requests 20 s r envs w o w1 hp
    simp only [hp] at h
    refine ⟨k, hk, ?_⟩
    cases o with
    | ret a =>
      obtain ⟨ok, resp⟩ := a
      cases ok with
      | false =>
        simp only [Bool.not_false, if_true, fatal] at h
        obtain ⟨h3, h4⟩ := Prod.mk.inj (Option.some.inj h)
        rw [← h3, ← h4]
        simp [htq, exitTail]
      | true =>
        simp only [Bool.not_true, Bool.false_eq_true, if_false] at h
        obtain ⟨h3, h4⟩ := Prod.mk.inj (Option.some.inj h)
        rw [← h3, ← h4]
        simp [htq, exitTail]
    | exit code =>
      simp only at h
      obtain ⟨h3, h4⟩ := Prod.mk.inj (Option.some.inj h)
      rw [← h3, ← h4]
      simp [htq, exitTail]
    | fault =>
      simp only at h
      obtain ⟨h3, h4⟩ := Prod.mk.inj (Option.some.inj h)
      rw [← h3, ← h4]
      simp [htq, exitTail]

theorem awaitRegistration_registered (s : Bool) (r : GoString) (envs : List Env) (w : World)
    (w2 : World) (h : awaitRegistration s r envs w = some (.ret (), w2)) :
    ∃ e ∈ envs, ∃ u resp u1 f0 status rest,
      makeRequest (lit "AT+CREG?") e u = some ((true, resp), u1)
        ∧ split 44 resp = f0 :: status :: rest
        ∧ (status = lit "1" ∨ status = lit "5") := by
  unfold awaitRegistration at h
  cases hp : pollRegistration 20 s r envs w with
  | none => simp [hp] at h
  | some x =>
    obtain ⟨o, w1⟩ := x
    simp only [hp] at h
    cases o with
    | ret a =>
      obtain ⟨ok, resp⟩ := a
      cases ok with
      | false => simp [fatal] at h
      | true =>
        obtain ⟨e, he, u, u1, f0, status, rest, h1, h2, h3⟩ :=
          pollRegistration_registered 20 s r envs w resp w1 hp (Or.inr (by omega))
        exact ⟨e, he, u, resp, u1, f0, status, rest, h1, h2, h3⟩
    | exit code => simp at h
    | fault => simp at h

/-! ## C11: the health counter -/

theorem idlesSinceRecv_recv (probes : List Probe) :
    idlesSinceRecv (probes ++ [Probe.recv]) = 0 := by
  simp [idlesSinceRecv]

theorem idlesSinceRecv_idle (probes : List Probe) :
    idlesSinceRecv (probes ++ [Probe.idle]) = idlesSinceRecv probes + 1 := by
  simp [idlesSinceRecv]

theorem probesOf_append (a b : List MonitorEvent) :
    probesOf (a ++ b) = probesOf a ++ probesOf b := by
  induction a with
  | nil => rfl
  | cons e a ih => cases e <;> simp [probesOf, ih]

theorem monitorRun_append (dns : GoString) (events : List MonitorEvent) (e : MonitorEvent) :
    monitorRun dns (events ++ [e]) = monitorStep dns (monitorRun dns events) e := by
  simp [monitorRun, List.foldl_append]

theorem monitorStep_provisionPDP (dns : GoString) (m : Monitor) (e : MonitorEvent)
    (h : m.phase = .provisionPDP) : monitorStep dns m e = m := by
  cases e <;> simp [monitorStep, h]

/-- While the script is in the monitoring loop the counter is the number of
idles since the last success, as a 64-bit value, and the pinger runs on its
target. -/
theorem monitorRun_monitoring (dns : GoString) (events : List MonitorEvent)
    (h : (monitorRun dns events).phase = .monitoring) :
    (monitorRun dns events).timeouts = idlesSinceRecv (probesOf events) % 2 ^ 64
      ∧ (monitorRun dns events).pinger = { running := true, targets := [dns] } := by
  induction events using List.reverseRecOn with
  | nil => simp [monitorRun, startMonitor, idlesSinceRecv, probesOf]
  | append_singleton events e ih =>
    rw [monitorRun_append] at h ⊢
    cases hph : (monitorRun dns events).phase with
    | provisionPDP =>
      rw [monitorStep_provisionPDP dns _ e hph, hph] at h
      exact absurd h (by simp)
    | monitoring =>
      obtain ⟨h1, h3⟩ := ih hph
      rw [probesOf_append]
      cases e with
      | probe n =>
        simp only [monitorStep, hph]
        cases n with
        | recv =>
          simp only [probesOf, idlesSinceRecv_recv, onProbe]
          exact ⟨rfl, h3⟩
        | idle =>
          simp only [probesOf, idlesSinceRecv_idle, onProbe, h1]
          refine ⟨?_, h3⟩
          omega
      | poll =>
        simp only [monitorStep, hph, checkMonitor] at h ⊢
        by_cases h3i : (monitorRun dns events).timeouts ≥ 3
        · rw [if_pos h3i] at h
          exact absurd h (by simp)
        · rw [if_neg h3i]
          simp only [probesOf, List.append_nil]
          exact ⟨h1, h3⟩

theorem monitorRun_below_three (dns : GoString) (events : List MonitorEvent)
    (h : ∀ pre, pre <+: events → idlesSinceRecv (probesOf pre) < 3) :
    (monitorRun dns events).phase = .monitoring := by
  induction events using List.reverseRecOn with
  | nil => rfl
  | append_singleton events e ih =>
    have hprev : (monitorRun dns events).phase = .monitoring :=
      ih (fun pre hpre => h pre (hpre.trans (List.prefix_append events [e])))
    have hcount := (monitorRun_monitoring dns events hprev).1
    have hlt : idlesSinceRecv (probesOf events) < 3 :=
      h events (List.prefix_append events [e])
    rw [monitorRun_append]
    cases e with
    | probe n => simp only [monitorStep, hprev]
    | poll =>
      simp only [monitorStep, hprev, checkMonitor]
      rw [if_neg (by rw [hcount]; omega)]
      exact hprev

/-- C11 (amended): with the monitor a step relation over the notifications of
the pinger and the evaluations of the script's check (a success stores 0, an
idle adds 1, the counter is 0 when monitoring starts): after every event
sequence that leaves the script monitoring, the counter is the number of
idles since the last success (as a 64-bit value). A notification alone never
triggers re-provisioning; an evaluation of the check triggers it exactly when
it reads a counter of at least 3, and then the pinger is stopped, the probe
target dropped and the script is back at the start of the PDP set-up, where
later events of the episode change nothing. While fewer than 3 idles have
been notified since the last success at every point, no check triggers; two
idles followed by a success leave the counter at 0 with the script still
monitoring, and three idles followed by a check trigger. -/
theorem monitor_reprovision (dns : GoString) (events : List MonitorEvent)
    (h : (monitorRun dns events).phase = .monitoring) :
    (monitorRun dns events).timeouts = idlesSinceRecv (probesOf events) % 2 ^ 64
      ∧ (idlesSinceRecv (probesOf events) < 2 ^ 64 →
          (monitorRun dns events).timeouts = idlesSinceRecv (probesOf events))
      ∧ (∀ n, (monitorRun dns (events ++ [.probe n])).phase = .monitoring)
      ∧ ((monitorRun dns (events ++ [.poll])).phase = .provisionPDP
          ↔ idlesSinceRecv (probesOf events) % 2 ^ 64 ≥ 3)
      ∧ ((monitorRun dns (events ++ [.poll])).phase = .provisionPDP →
          (monitorRun dns (events ++ [.poll])).pinger = { running := false, targets := [] }
            ∧ ∀ later, monitorRun dns (events ++ [.poll] ++ later)
                = monitorRun dns (events ++ [.poll]))
      ∧ (∀ evs : List MonitorEvent,
          (∀ pre, pre <+: evs → idlesSinceRecv (probesOf pre) < 3) →
          (monitorRun dns evs).phase = .monitoring)
      ∧ monitorRun dns [.probe .idle, .poll, .probe .idle, .poll, .probe .recv, .poll]
          = startMonitor dns
      ∧ (monitorRun dns [.probe .idle, .probe .idle, .probe .idle, .poll]).phase
          = .provisionPDP := by
  obtain ⟨h1, h3⟩ := monitorRun_monitoring dns events h
  have hfilter : [dns].filter (· ≠ dns) = [] := by simp
  have hpoll : monitorRun dns (events ++ [.poll]) = checkMonitor dns (monitorRun dns events) := by
    rw [monitorRun_append]
    simp only [monitorStep, h]
  refine ⟨h1, ?_, ?_, ?_, ?_, monitorRun_below_three dns, ?_, ?_⟩
  · intro hlt
    rw [h1]
    exact Nat.mod_eq_of_lt hlt
  · intro n
    rw [monitorRun_append]
    simp only [monitorStep, h]
  · rw [hpoll, ← h1]
    by_cases h3i : (monitorRun dns events).timeouts ≥ 3
    · simp only [checkMonitor, if_pos h3i]
      exact ⟨fun _ => h3i, fun _ => trivial⟩
    · simp only [checkMonitor, if_neg h3i, h]
      exact ⟨fun hc => absurd hc (by simp), fun hc => absurd hc h3i⟩
  · intro hp
    rw [hpoll] at hp ⊢
    by_cases h3i : (monitorRun dns events).timeouts ≥ 3
    · constructor
      · simp only [checkMonitor, if_pos h3i, h3, hfilter]
      · intro later
        induction later using List.reverseRecOn with
        | nil => simp [hpoll]
        | append_singleton later x ih =>
          rw [← List.append_assoc, monitorRun_append, ih]
          exact monitorStep_provisionPDP dns _ x hp
    · simp only [checkMonitor, if_neg h3i, h] at hp
      exact absurd hp (by simp)
  · simp [monitorRun, monitorStep, startMonitor, checkMonitor, onProbe]
  · simp [monitorRun, monitorStep, startMonitor, checkMonitor, onProbe]

/-- Witness for C11: an idle, a check, a success, then three idles; the next
check triggers re-provisioning. -/
theorem monitor_reprovision_witness :
    (monitorRun (lit "8.8.8.8")
        [.probe .idle, .poll, .probe .recv, .probe .idle, .probe .idle, .probe .idle]).timeouts
        = idlesSinceRecv (probesOf
            [.probe .idle, .poll, .probe .recv, .probe .idle, .probe .idle, .probe .idle])
          % 2 ^ 64
      ∧ ((monitorRun (lit "8.8.8.8")
            ([.probe .idle, .poll, .probe .recv, .probe .idle, .probe .idle, .probe .idle]
              ++ [.poll])).phase = .provisionPDP
        ↔ idlesSinceRecv (probesOf
            [.probe .idle, .poll, .probe .recv, .probe .idle, .probe .idle, .probe .idle])
          % 2 ^ 64 ≥ 3) :=
  have h := monitor_reprovision (lit "8.8.8.8")
    [.probe .idle, .poll, .probe .recv, .probe .idle, .probe .idle, .probe .idle] (by decide)
  ⟨h.1, h.2.2.2.1⟩

/-- C11 as stated fails: after three consecutive idles the counter has
reached 3, but a success that is notified before the script next evaluates
its check stores 0, and the check finds the script still monitoring with the
pinger running: re-provisioning was not triggered. -/
theorem monitor_reprovision_counterexample :
    idlesSinceRecv [Probe.idle, Probe.idle, Probe.idle] = 3
      ∧ (monitorRun (lit "8.8.8.8") [.probe .idle, .probe .idle, .probe .idle]).timeouts = 3
      ∧ monitorRun (lit "8.8.8.8")
          [.probe .idle, .probe .idle, .probe .idle, .probe .recv, .poll]
        = startMonitor (lit "8.8.8.8")
      ∧ (startMonitor (lit "8.8.8.8")).phase = .monitoring := by
  decide

/-! ## C12: quoted fields -/

theorem sliceInner_quoted (a : GoString) : sliceInner (quoted a) = some a := by
  have hlen : (quoted a).length = a.length + 2 := by simp [quoted]
  unfold sliceInner
  rw [if_pos (by omega), hlen]
  simp [quoted]

theorem innerOfField_of_get (fields : List GoString) (i : Nat) (x : GoString)
    (h : fields[i]? = some x) : innerOfField fields i = sliceInner x := by
  simp [innerOfField, h]

/-- C12: for every `AT+CGCONTRDP` payload whose comma-separated fields 4, 5
and 6 are values `a`, `b`, `c` each wrapped in one pair of double quotes, the
assignments of lines 276-278 set `NetworkIP = a`, `PrimaryDNSIP = b`,
`SecondaryDNSIP = c`, the values with just the two quote characters removed;
and when field 2 of the `AT+UIPADDR=` payload is a quoted value `gw`, line
279 sets `GatewayIP = gw` and ExtractConfig hands the four values on to
ConfigureInterface. -/
theorem assignConfig_quoted (response response2 : GoString) (g : NetworkConfig)
    (f0 f1 f2 f3 a b c : GoString) (rest : List GoString)
    (hfields : split 44 response
      = f0 :: f1 :: f2 :: f3 :: quoted a :: quoted b :: quoted c :: rest) :
    (assignConfig (split 44 response) (split 44 response2) g).2.NetworkIP = a
      ∧ (assignConfig (split 44 response) (split 44 response2) g).2.PrimaryDNSIP = b
      ∧ (assignConfig (split 44 response) (split 44 response2) g).2.SecondaryDNSIP = c
      ∧ (∀ g0 g1 gw rest2, split 44 response2 = g0 :: g1 :: quoted gw :: rest2 →
          assignConfig (split 44 response) (split 44 response2) g
            = (.ret (), { NetworkIP := a, GatewayIP := gw, PrimaryDNSIP := b,
                          SecondaryDNSIP := c }))
      ∧ (∀ (iface : GoString) (e1 e2 : Env) (k1 k2 k3 : Bool) (s : Script) (w1 w2 : World)
          (g0 g1 gw : GoString) (rest2 : List GoString),
          makeRequest (lit "AT+CGCONTRDP") e1 s.world = some ((true, response), w1) →
          makeRequest (lit "AT+UIPADDR=") e2 w1 = some ((true, response2), w2) →
          split 44 response2 = g0 :: g1 :: quoted gw :: rest2 →
          extractAndConfigure iface e1 e2 k1 k2 k3 s
            = some (configureInterface iface k1 k2 k3
                { world := w2,
                  config := { NetworkIP := a, GatewayIP := gw, PrimaryDNSIP := b,
                              SecondaryDNSIP := c },
                  effects := s.effects })) := by
  have h4 : innerOfField (split 44 response) 4 = some a := by
    rw [innerOfField_of_get _ 4 (quoted a) (by rw [hfields]; simp), sliceInner_quoted]
  have h5 : innerOfField (split 44 response) 5 = some b := by
    rw [innerOfField_of_get _ 5 (quoted b) (by rw [hfields]; simp), sliceInner_quoted]
  have h6 : innerOfField (split 44 response) 6 = some c := by
    rw [innerOfField_of_get _ 6 (quoted c) (by rw [hfields]; simp), sliceInner_quoted]
  have hgw : ∀ (g2 : NetworkConfig) g0 g1 gw rest2,
      split 44 response2 = g0 :: g1 :: quoted gw :: rest2 →
      assignConfig (split 44 response) (split 44 response2) g2
        = (.ret (), { NetworkIP := a, GatewayIP := gw, PrimaryDNSIP := b,
                      SecondaryDNSIP := c }) := by
    intro g2 g0 g1 gw rest2 h2
    have hg : innerOfField (split 44 response2) 2 = some gw := by
      rw [innerOfField_of_get _ 2 (quoted gw) (by rw [h2]; simp), sliceInner_quoted]
    simp only [assignConfig, h4, h5, h6, hg]
  refine ⟨?_, ?_, ?_, hgw g, ?_⟩
  · simp only [assignConfig, h4, h5, h6]
    cases innerOfField (split 44 response2) 2 <;> rfl
  · simp only [assignConfig, h4, h5, h6]
    cases innerOfField (split 44 response2) 2 <;> rfl
  · simp only [assignConfig, h4, h5, h6]
    cases innerOfField (split 44 response2) 2 <;> rfl
  · intro iface e1 e2 k1 k2 k3 s w1 w2 g0 g1 gw rest2 hr1 hr2 h2
    simp only [extractAndConfigure, hr1, hr2, hgw s.config g0 g1 gw rest2 h2, Bool.not_true,
      Bool.false_eq_true, if_false]

/-- Witness for C12: the quoted values `10.0.0.5`, `8.8.8.8`, `8.8.4.4` at
positions 4, 5, 6 and the gateway `10.0.0.1` at position 2. -/
theorem assignConfig_quoted_witness :
    assignConfig
        (split 44 (lit "4,5,\"apn\",\"10.0.0.5.255.255.255.0\",\"10.0.0.5\",\"8.8.8.8\",\"8.8.4.4\""))
        (split 44 (lit "4,\"usb0:0\",\"10.0.0.1\",\"255.255.255.0\""))
        ⟨[], [], [], []⟩
      = (.ret (), { NetworkIP := lit "10.0.0.5", GatewayIP := lit "10.0.0.1",
                    PrimaryDNSIP := lit "8.8.8.8", SecondaryDNSIP := lit "8.8.4.4" }) :=
  (assignConfig_quoted
    (lit "4,5,\"apn\",\"10.0.0.5.255.255.255.0\",\"10.0.0.5\",\"8.8.8.8\",\"8.8.4.4\"")
    (lit "4,\"usb0:0\",\"10.0.0.1\",\"255.255.255.0\"") ⟨[], [], [], []⟩
    (lit "4") (lit "5") (lit "\"apn\"") (lit "\"10.0.0.5.255.255.255.0\"")
    (lit "10.0.0.5") (lit "8.8.8.8") (lit "8.8.4.4") [] (by decide)).2.2.2.1
    (lit "4") (lit "\"usb0:0\"") (lit "10.0.0.1") [lit "\"255.255.255.0\""] (by decide)

/-! ## C13: the transmit loop -/

theorem transmitPending_full (queue : List GoString) (extra : List WriteResult)
    (written : List (List UInt8)) :
    transmitPending queue (queue.map fullWrite ++ extra) written
      = some ([], written ++ queue.map frameOf) := by
  induction queue generalizing written with
  | nil => simp [transmitPending]
  | cons c queue ih =>
    simp only [List.map_cons, List.cons_append, transmitPending]
    rw [if_neg (by simp [fullWrite])]
    show transmitPending queue (queue.map fullWrite ++ extra) _ = _
    rw [ih]
    simp [fullWrite]

/-- C13: for every content `c1, ..., cn` of the transmit queue, a pump cycle
in which every write succeeds in full hands to the transport exactly the
frames `c1 CR LF, ..., cn CR LF`, one write per command, in queue order, each
frame being the bytes of the command followed by the bytes 13 and 10 and
nothing else, and leaves the transmit queue empty. -/
theorem transmitPending_frames (queue : List GoString) (results : List WriteResult)
    (written : List (List UInt8))
    (hfull : ∃ extra, results = queue.map fullWrite ++ extra) :
    transmitPending queue results written = some ([], written ++ queue.map frameOf)
      ∧ (queue.map frameOf).length = queue.length
      ∧ (∀ i (h : i < queue.length),
          (queue.map frameOf)[i]? = some (queue[i] ++ [13, 10])) := by
  obtain ⟨extra, hx⟩ := hfull
  refine ⟨by rw [hx]; exact transmitPending_full queue extra written, by simp, ?_⟩
  intro i h
  simp [frameOf, h]

/-- Witness for C13: two queued commands after an earlier write. -/
theorem transmitPending_frames_witness :
    transmitPending [lit "AT+CREG?", lit "ATZ"] [⟨10, false⟩, ⟨5, false⟩] [lit "AT\r\n"]
      = some ([], [lit "AT\r\n"] ++ [lit "AT+CREG?", lit "ATZ"].map frameOf) :=
  (transmitPending_frames [lit "AT+CREG?", lit "ATZ"] [⟨10, false⟩, ⟨5, false⟩]
    [lit "AT\r\n"] ⟨[], by decide⟩).1

/-! ## C14: the working buffer -/

theorem split_of_contains (s sub : GoString) (h : contains s sub = true) :
    ∃ x y, s = x ++ sub ++ y := by
  induction s with
  | nil =>
    simp only [contains] at h
    obtain ⟨y, hy⟩ := List.isPrefixOf_iff_prefix.mp h
    have hsub : sub = [] := (List.append_eq_nil.mp hy).1
    exact ⟨[], [], by simp [hsub]⟩
  | cons c s ih =>
    simp only [contains, Bool.or_eq_true] at h
    rcases h with h | h
    · obtain ⟨y, hy⟩ := List.isPrefixOf_iff_prefix.mp h
      exact ⟨[], y, by simp [hy]⟩
    · obtain ⟨x, y, hxy⟩ := ih h
      exact ⟨c :: x, y, by simp [hxy]⟩

theorem not_contains_append_left (a rest : GoString) (sub : GoString)
    (h : contains (a ++ rest) sub = false) : contains a sub = false := by
  cases hc : contains a sub with
  | false => rfl
  | true =>
    obtain ⟨x, y, hxy⟩ := split_of_contains a sub hc
    have : contains (a ++ rest) sub = true := by
      rw [hxy, List.append_assoc]
      exact contains_of_split x sub (y ++ rest)
    rw [this] at h
    exact Bool.noConfusion h

/-- A payload free of CR LF stays free of it when a CR is put after it. -/
theorem not_contains_append_cr (payload : GoString)
    (h : contains payload [13, 10] = false) : contains (payload ++ [13]) [13, 10] = false := by
  cases hc : contains (payload ++ [13]) [13, 10] with
  | false => rfl
  | true =>
    obtain ⟨x, y, hxy⟩ := split_of_contains _ _ hc
    rcases List.eq_nil_or_concat y with hy | ⟨y1, z, hy⟩
    · rw [hy, List.append_nil] at hxy
      have h1 := congrArg List.getLast? hxy
      rw [List.getLast?_concat] at h1
      have h2 : x ++ [13, 10] = (x ++ [13]) ++ [10] := by simp
      rw [h2, List.getLast?_concat] at h1
      exact absurd (Option.some.inj h1) (by decide)
    · rw [List.concat_eq_append] at hy
      rw [hy, ← List.append_assoc] at hxy
      have h1 := List.append_inj_left' hxy rfl
      rw [h1, contains_of_split] at h
      exact Bool.noConfusion h

/-- Bytes free of a completed terminator are accumulated, nothing is queued. -/
theorem frameChunk_partial (rest a tail : List UInt8) (q : List GoString)
    (hlen : rest.length ≤ tail.length)
    (hno : contains (a ++ rest) [13, 10] = false) :
    ∃ tail2, tail2.length + rest.length = tail.length
      ∧ frameChunk (⟨a ++ tail, a.length⟩, q) rest
          = some (⟨(a ++ rest) ++ tail2, (a ++ rest).length⟩, q) := by
  induction rest generalizing a tail with
  | nil => exact ⟨tail, by simp, by simp [frameChunk]⟩
  | cons c rest ih =>
    match tail, hlen with
    | x :: tail1, hlen1 =>
      have hcond : ¬ (c = 10 ∧ a.getLast? = some 13) := by
        rintro ⟨hc, hl⟩
        rcases List.eq_nil_or_concat a with ha | ⟨a1, y, ha⟩
        · rw [ha] at hl
          simp at hl
        · rw [List.concat_eq_append] at ha
          rw [ha, List.getLast?_concat] at hl
          have hy : y = 13 := Option.some.inj hl
          have hsplit : a ++ c :: rest = a1 ++ [13, 10] ++ rest := by
            rw [ha, hy, hc]; simp
          rw [hsplit, contains_of_split] at hno
          exact Bool.noConfusion hno
      have h1 : frameByte (⟨a ++ x :: tail1, a.length⟩, q) c
          = some (⟨(a ++ [c]) ++ tail1, (a ++ [c]).length⟩, q) := by
        rw [frameByte_step, if_neg hcond]
        simp
      obtain ⟨tail2, ht2, hrun⟩ := ih (a ++ [c]) tail1 (by simp at hlen1 ⊢; omega)
        (by simpa using hno)
      refine ⟨tail2, by simp at ht2 ⊢; omega, ?_⟩
      simp only [frameChunk, h1]
      rw [hrun]
      simp

/-- With the buffer full the next store is out of range. -/
theorem frameByte_full (buf : List UInt8) (q : List GoString) (b : UInt8) :
    frameByte (⟨buf, buf.length⟩, q) b = none := by
  simp [frameByte]

theorem frameChunk_overflow (buf : List UInt8) (q : List GoString) (xs : List UInt8)
    (b : UInt8) (rest : List UInt8) (hbuf : buf.length = 255) (hxs : xs.length = 255)
    (hno : contains xs [13, 10] = false) :
    frameChunk (⟨buf, 0⟩, q) xs = some (⟨xs, 255⟩, q)
      ∧ frameChunk (⟨buf, 0⟩, q) (xs ++ b :: rest) = none := by
  obtain ⟨tail2, ht2, hrun⟩ := frameChunk_partial xs [] buf q (by omega) (by simpa using hno)
  have ht : tail2 = [] := List.eq_nil_of_length_eq_zero (by omega)
  simp only [List.nil_append, List.length_nil, ht, List.append_nil, hxs] at hrun
  refine ⟨hrun, ?_⟩
  rw [frameChunk_append, hrun, Option.some_bind]
  simp only [frameChunk]
  have := frameByte_full xs q b
  rw [hxs] at this
  rw [this]

/-- C14: the only limit on a line is the 255-byte working buffer. For every
stream of lines that with their CR LF have at most 255 bytes (and hold no CR
LF inside), read in any chunks, every store is in range and every line is
framed. For a stream whose first 255 bytes complete no terminator, those
bytes fill the buffer, the store of byte 256 at index 255 is out of range and
the framer stops in a run-time panic; a payload of 254 bytes followed by CR
LF is such a stream. -/
theorem framer_buffer_limit (buf : List UInt8) (q : List GoString)
    (hbuf : buf.length = 255) :
    (∀ (lines : List GoString) (chunks : List (List UInt8)),
        (∀ l ∈ lines, contains l [13, 10] = false ∧ l.length + 2 ≤ 255) →
        chunks.flatten = crlfStream lines →
        ∃ buf2, buf2.length = 255
          ∧ frameChunks (⟨buf, 0⟩, q) chunks
              = some (⟨buf2, 0⟩, q ++ lines.filter (fun l => l ≠ [])))
      ∧ (∀ (xs : List UInt8) (b : UInt8) (rest : List UInt8) (chunks : List (List UInt8)),
          xs.length = 255 → contains xs [13, 10] = false →
          chunks.flatten = xs ++ b :: rest →
          frameChunk (⟨buf, 0⟩, q) xs = some (⟨xs, 255⟩, q)
            ∧ frameByte (⟨xs, 255⟩, q) b = none
            ∧ frameChunks (⟨buf, 0⟩, q) chunks = none)
      ∧ (∀ (payload rest : List UInt8), payload.length = 254 →
          contains payload [13, 10] = false →
          frameChunk (⟨buf, 0⟩, q) (payload ++ [13, 10] ++ rest) = none) := by
  refine ⟨?_, ?_, ?_⟩
  · intro lines chunks hlines hchunks
    rw [frameChunks_eq, hchunks]
    exact frameChunk_crlfStream lines buf q hbuf
      (fun l hl => ⟨(hlines l hl).1, by have := (hlines l hl).2; omega⟩)
  · intro xs b rest chunks hxs hno hchunks
    obtain ⟨h1, h2⟩ := frameChunk_overflow buf q xs b rest hbuf hxs hno
    refine ⟨h1, ?_, ?_⟩
    · have := frameByte_full xs q b
      rw [hxs] at this
      exact this
    · rw [frameChunks_eq, hchunks]
      exact h2
  · intro payload rest hlen hno
    have h := (frameChunk_overflow buf q (payload ++ [13]) 10 rest hbuf (by simp [hlen])
      (not_contains_append_cr payload hno)).2
    have he : payload ++ [13, 10] ++ rest = (payload ++ [13]) ++ 10 :: rest := by simp
    rw [he]
    exact h

set_option maxRecDepth 100000 in
/-- Witness for C14: 254 letters `A` followed by CR LF, into the zeroed
buffer of `main`. -/
theorem framer_buffer_limit_witness :
    frameChunk (⟨List.replicate 255 0, 0⟩, []) (List.replicate 254 65 ++ [13, 10] ++ []) = none :=
  (framer_buffer_limit (List.replicate 255 0) [] (List.length_replicate 255 0)).2.2
    (List.replicate 254 65) [] (List.length_replicate 254 65) (by decide)

/-! ## C19: from the transmit side to the framer -/

theorem flatten_map_frameOf (cmds : List GoString) :
    (cmds.map frameOf).flatten = crlfStream cmds := by
  induction cmds with
  | nil => rfl
  | cons c cmds ih => simp [frameOf, crlfStream, ih]

/-- C19: for every non-empty command `c` of at most 253 bytes that holds no
CR LF pair, the frame the transmit side writes for `c`, fed to the framer with
no byte accumulated, appends exactly the line `c` to the receive queue and
leaves no byte accumulated; and the frames a pump cycle writes for a list of
such commands, fed to the framer write by write, append exactly that list, in
order. -/
theorem frame_roundtrip (buf : List UInt8) (q : List GoString) (hbuf : buf.length = 255) :
    (∀ c : GoString, c ≠ [] → c.length ≤ 253 → contains c [13, 10] = false →
        ∃ buf2, buf2.length = 255
          ∧ frameChunk (⟨buf, 0⟩, q) (frameOf c) = some (⟨buf2, 0⟩, q ++ [c]))
      ∧ (∀ (cmds : List GoString) (results : List WriteResult) (written : List (List UInt8)),
          (∀ c ∈ cmds, c ≠ [] ∧ c.length ≤ 253 ∧ contains c [13, 10] = false) →
          (∃ extra, results = cmds.map fullWrite ++ extra) →
          ∃ frames buf2,
            transmitPending cmds results written = some ([], written ++ frames)
              ∧ buf2.length = 255
              ∧ frameChunks (⟨buf, 0⟩, q) frames = some (⟨buf2, 0⟩, q ++ cmds)) := by
  constructor
  · intro c hne hlen hno
    obtain ⟨buf2, hb2, hrun⟩ := frameChunk_line c [] buf q (by rw [hbuf]; omega)
      (by simpa using hno)
    simp only [List.nil_append, List.length_nil] at hb2 hrun
    refine ⟨buf2, by rw [hb2, hbuf], ?_⟩
    rw [frameOf, hrun, if_pos hne]
  · intro cmds results written hcmds hfull
    obtain ⟨extra, hx⟩ := hfull
    obtain ⟨buf2, hb2, hrun⟩ := frameChunk_crlfStream cmds buf q hbuf
      (fun c hc => ⟨(hcmds c hc).2.2, (hcmds c hc).2.1⟩)
    have hfilter : cmds.filter (fun l => l ≠ []) = cmds := by
      rw [List.filter_eq_self]
      intro c hc
      simpa using (hcmds c hc).1
    refine ⟨cmds.map frameOf, buf2, ?_, hb2, ?_⟩
    · rw [hx]
      exact transmitPending_full cmds extra written
    · rw [frameChunks_eq, flatten_map_frameOf, hrun, hfilter]

/-- Witness for C19: the command `AT+CREG?` through the zeroed buffer. -/
theorem frame_roundtrip_witness :
    ∃ buf2, buf2.length = 255
      ∧ frameChunk (⟨List.replicate 255 0, 0⟩, [lit "OK"]) (frameOf (lit "AT+CREG?"))
          = some (⟨buf2, 0⟩, [lit "OK"] ++ [lit "AT+CREG?"]) :=
  (frame_roundtrip (List.replicate 255 0) [lit "OK"] (List.length_replicate 255 0)).1
    (lit "AT+CREG?") (by decide) (by decide) (by decide)

/-! ## C17: short or malformed payloads -/

theorem innerOfField_eq_some (fields : List GoString) (i : Nat) :
    (i < fields.length ∧ 2 ≤ (fields.getD i []).length →
        innerOfField fields i
          = some (((fields.getD i []).drop 1).take ((fields.getD i []).length - 2)))
      ∧ (¬ (i < fields.length ∧ 2 ≤ (fields.getD i []).length) →
        innerOfField fields i = none) := by
  unfold innerOfField
  cases h : fields[i]? with
  | none =>
    have hlen : fields.length ≤ i := List.getElem?_eq_none_iff.mp h
    constructor
    · intro hc; omega
    · intro _; rfl
  | some x =>
    have hlt : i < fields.length := by
      by_contra hcon
      rw [List.getElem?_eq_none_iff.mpr (by omega)] at h
      exact Option.noConfusion h
    have hget : fields.getD i [] = x := by
      simp [List.getD, h]
    rw [hget]
    constructor
    · intro hc
      simp [sliceInner, hc.2]
    · intro hc
      have : ¬ 2 ≤ x.length := fun h2 => hc ⟨hlt, h2⟩
      simp [sliceInner, this]

/-- C17: ExtractConfig has no guard. The assignments of lines 276-279 yield
the four values exactly when the `AT+CGCONTRDP` payload has at least 7
comma-separated fields with fields 4, 5, 6 of at least 2 bytes and the
`AT+UIPADDR=` payload at least 3 fields with field 2 of at least 2 bytes; the
values are then those fields without their first and last byte. For every
other pair of payloads they stop in a run-time panic, and for such a pair of
successful responses the step ends in that panic with no call made to the
pinger, `ifconfig`, `route` or the resolver file, and without `ATZ`. -/
theorem assignConfig_guard (response response2 : GoString) (g : NetworkConfig) :
    (wellFormedFields (split 44 response) (split 44 response2) →
        assignConfig (split 44 response) (split 44 response2) g
          = (.ret (),
              { NetworkIP := (((split 44 response).getD 4 []).drop 1).take
                  (((split 44 response).getD 4 []).length - 2),
                GatewayIP := (((split 44 response2).getD 2 []).drop 1).take
                  (((split 44 response2).getD 2 []).length - 2),
                PrimaryDNSIP := (((split 44 response).getD 5 []).drop 1).take
                  (((split 44 response).getD 5 []).length - 2),
                SecondaryDNSIP := (((split 44 response).getD 6 []).drop 1).take
                  (((split 44 response).getD 6 []).length - 2) }))
      ∧ (¬ wellFormedFields (split 44 response) (split 44 response2) →
          (assignConfig (split 44 response) (split 44 response2) g).1 = .fault)
      ∧ ((∃ cfg, assignConfig (split 44 response) (split 44 response2) g = (.ret (), cfg))
          ↔ wellFormedFields (split 44 response) (split 44 response2))
      ∧ (∀ (iface : GoString) (e1 e2 : Env) (k1 k2 k3 : Bool) (s : Script) (w1 w2 : World),
          makeRequest (lit "AT+CGCONTRDP") e1 s.world = some ((true, response), w1) →
          makeRequest (lit "AT+UIPADDR=") e2 w1 = some ((true, response2), w2) →
          ¬ wellFormedFields (split 44 response) (split 44 response2) →
          ∃ cfg, extractAndConfigure iface e1 e2 k1 k2 k3 s
              = some (.fault, { world := w2, config := cfg, effects := s.effects })
            ∧ w2.transmitQueue
                = s.world.transmitQueue ++ [lit "AT+CGCONTRDP", lit "AT+UIPADDR="]) := by
  have key : ∀ g2 : NetworkConfig,
      (wellFormedFields (split 44 response) (split 44 response2) →
        assignConfig (split 44 response) (split 44 response2) g2
          = (.ret (),
              { NetworkIP := (((split 44 response).getD 4 []).drop 1).take
                  (((split 44 response).getD 4 []).length - 2),
                GatewayIP := (((split 44 response2).getD 2 []).drop 1).take
                  (((split 44 response2).getD 2 []).length - 2),
                PrimaryDNSIP := (((split 44 response).getD 5 []).drop 1).take
                  (((split 44 response).getD 5 []).length - 2),
                SecondaryDNSIP := (((split 44 response).getD 6 []).drop 1).take
                  (((split 44 response).getD 6 []).length - 2) }))
      ∧ (¬ wellFormedFields (split 44 response) (split 44 response2) →
          (assignConfig (split 44 response) (split 44 response2) g2).1 = .fault) := by
    intro g2
    generalize split 44 response = f1
    generalize split 44 response2 = f2
    have h4 := innerOfField_eq_some f1 4
    have h5 := innerOfField_eq_some f1 5
    have h6 := innerOfField_eq_some f1 6
    have h2 := innerOfField_eq_some f2 2
    constructor
    · rintro ⟨a1, a2, a3, a4, a5, a6⟩
      simp only [assignConfig, h4.1 ⟨by omega, a2⟩, h5.1 ⟨by omega, a3⟩, h6.1 ⟨by omega, a4⟩,
        h2.1 ⟨by omega, a6⟩]
    · intro hnot
      by_cases c4 : 4 < f1.length ∧ 2 ≤ (f1.getD 4 []).length
      · by_cases c5 : 5 < f1.length ∧ 2 ≤ (f1.getD 5 []).length
        · by_cases c6 : 6 < f1.length ∧ 2 ≤ (f1.getD 6 []).length
          · by_cases c2 : 2 < f2.length ∧ 2 ≤ (f2.getD 2 []).length
            · exact absurd ⟨by omega, c4.2, c5.2, c6.2, by omega, c2.2⟩ hnot
            · simp only [assignConfig, h4.1 c4, h5.1 c5, h6.1 c6, h2.2 c2]
          · simp only [assignConfig, h4.1 c4, h5.1 c5, h6.2 c6]
        · simp only [assignConfig, h4.1 c4, h5.2 c5]
      · simp only [assignConfig, h4.2 c4]
  refine ⟨(key g).1, (key g).2, ?_, ?_⟩
  · constructor
    · rintro ⟨cfg, hcfg⟩
      by_contra hnot
      have := (key g).2 hnot
      rw [hcfg] at this
      exact absurd this (by simp)
    · intro hw
      exact ⟨_, (key g).1 hw⟩
  · intro iface e1 e2 k1 k2 k3 s w1 w2 hr1 hr2 hnot
    have hf := (key s.config).2 hnot
    have hq1 := (makeRequest_world _ _ _ _ _ hr1).2
    have hq2 := (makeRequest_world _ _ _ _ _ hr2).2
    refine ⟨(assignConfig (split 44 response) (split 44 response2) s.config).2, ?_,
      by rw [hq2, hq1]; simp⟩
    simp only [extractAndConfigure, hr1, hr2, Bool.not_true, Bool.false_eq_true, if_false]
    cases hac : assignConfig (split 44 response) (split 44 response2) s.config with
    | mk out cfg =>
      rw [hac] at hf
      simp only at hf
      rw [hf]

/-! ## C18: payloads without a status field -/

theorem split_ne_nil (sep : UInt8) (s : GoString) : ∃ f fs, split sep s = f :: fs := by
  induction s with
  | nil => exact ⟨[], [], rfl⟩
  | cons c s ih =>
    obtain ⟨f, fs, h⟩ := ih
    by_cases hc : c = sep
    · exact ⟨[], split sep s, by simp [split, hc]⟩
    · exact ⟨c :: f, fs, by simp [split, hc, h]⟩

theorem split_two_of_mem (sep : UInt8) (s : GoString) (h : sep ∈ s) :
    ∃ f0 f1 rest, split sep s = f0 :: f1 :: rest := by
  induction s with
  | nil => exact absurd h (List.not_mem_nil sep)
  | cons c s ih =>
    by_cases hc : c = sep
    · obtain ⟨f, fs, hf⟩ := split_ne_nil sep s
      exact ⟨[], f, fs, by simp [split, hc, hf]⟩
    · have hs : sep ∈ s := by
        rcases List.mem_cons.mp h with h1 | h1
        · exact absurd h1.symm hc
        · exact h1
      obtain ⟨f0, f1, rest, hf⟩ := ih hs
      exact ⟨c :: f0, f1, rest, by simp [split, hc, hf]⟩

theorem makeRequest_OK_only (command : GoString) (start now : Int) (v : World)
    (hv : v.receiveQueue = []) :
    makeRequest command ⟨start, [⟨[lit "OK"], now⟩]⟩ v
      = some ((true, []), ⟨v.transmitQueue ++ [command], [], v.consumed ++ [lit "OK"]⟩) := by
  simp only [makeRequest, makeRequestExit, awaitLoop_cons, hv, List.nil_append, List.foldl_cons,
    List.foldl_nil, classify_OK, if_true, Option.map_some', Exit.result, afterPass,
    Request.init]

/-- C18: the check of line 224 is defined exactly for the successful
`AT+CREG?` payloads that contain a comma. With a comma the payload has a
second field, and the poll ends as registered or goes on to the next poll;
without one, reading field 1 is out of range: the poll, and with it
AwaitRegistration and the script, stops in a run-time panic, neither counting
the payload as not registered nor queueing `ATZ`. The empty payload returned
when `OK` comes without a `+CREG: ` line and the payload `1` of `+CREG: 1`
are such payloads. -/
theorem registration_check_domain (i : Nat) (s : Bool) (r : GoString) (e : Env)
    (es : List Env) (v : World) (resp : GoString) (v1 : World)
    (h : makeRequest (lit "AT+CREG?") e v = some ((true, resp), v1)) :
    ((44 : UInt8) ∉ resp →
        split 44 resp = [resp]
          ∧ pollRegistration (i + 1) s r (e :: es) v = some (.fault, v1)
          ∧ awaitRegistration s r (e :: es) v = some (.fault, v1)
          ∧ (∀ acts, registerAndActivate s r (e :: es) acts v = some (.fault, v1))
          ∧ v1.transmitQueue = v.transmitQueue ++ [lit "AT+CREG?"])
      ∧ ((44 : UInt8) ∈ resp →
          ∃ f0 status rest, split 44 resp = f0 :: status :: rest
            ∧ ((status = lit "1" ∨ status = lit "5") →
                pollRegistration (i + 1) s r (e :: es) v = some (.ret (true, resp), v1))
            ∧ (status ≠ lit "1" → status ≠ lit "5" →
                pollRegistration (i + 1) s r (e :: es) v
                  = pollRegistration i false resp es v1))
      ∧ (pollRegistration (i + 1) s r (e :: es) v = some (.fault, v1) → (44 : UInt8) ∉ resp
          ∨ ∃ f0 status rest, split 44 resp = f0 :: status :: rest
              ∧ status ≠ lit "1" ∧ status ≠ lit "5")
      ∧ (∀ (start now : Int) (u : World), u.receiveQueue = [] →
          pollRegistration (i + 1) s r (⟨start, [⟨[lit "OK"], now⟩]⟩ :: es) u
            = some (.fault,
                ⟨u.transmitQueue ++ [lit "AT+CREG?"], [], u.consumed ++ [lit "OK"]⟩))
      ∧ (∀ (start now : Int) (u : World),
          pollRegistration (i + 1) s r
              (⟨start, [⟨[lit "+CREG: 1", lit "OK"], now⟩]⟩ :: es) u
            = some (.fault,
                ⟨u.transmitQueue ++ [lit "AT+CREG?"], [],
                  u.consumed ++ (u.receiveQueue ++ [lit "+CREG: 1", lit "OK"])⟩)) := by
  refine ⟨?_, ?_, ?_, ?_, ?_⟩
  · intro hno
    have hsp := split_of_not_mem 44 resp hno
    have hp : ∀ j, pollRegistration (j + 1) s r (e :: es) v = some (.fault, v1) := by
      intro j
      simp only [pollRegistration, h, hsp, Bool.not_true, Bool.false_eq_true, if_false]
    have ha : awaitRegistration s r (e :: es) v = some (.fault, v1) := by
      simp only [awaitRegistration, hp 19]
    refine ⟨hsp, hp i, ha, ?_, (makeRequest_world _ _ _ _ _ h).2⟩
    intro acts
    simp only [registerAndActivate, ha]
  · intro hmem
    obtain ⟨f0, status, rest, hsp⟩ := split_two_of_mem 44 resp hmem
    exact ⟨f0, status, rest, hsp, pollRegistration_step i s r e es v resp v1 f0 status rest h hsp⟩
  · intro hp
    by_cases hmem : (44 : UInt8) ∈ resp
    · right
      obtain ⟨f0, status, rest, hsp⟩ := split_two_of_mem 44 resp hmem
      refine ⟨f0, status, rest, hsp, ?_, ?_⟩
      · intro hs1
        rw [(pollRegistration_step i s r e es v resp v1 f0 status rest h hsp).1 (Or.inl hs1)]
          at hp
        simp at hp
      · intro hs5
        rw [(pollRegistration_step i s r e es v resp v1 f0 status rest h hsp).1 (Or.inr hs5)]
          at hp
        simp at hp
    · exact Or.inl hmem
  · intro start now u hu
    have hr := makeRequest_OK_only (lit "AT+CREG?") start now u hu
    simp only [pollRegistration, hr, Bool.not_true, Bool.false_eq_true, if_false]
    rfl
  · intro start now u
    have hr := makeRequest_data_then_OK (lit "AT+CREG?") (lit "+CREG: 1") start now u
      (by decide)
    have e1 : replaceFirst (lit "+CREG: 1") (searchTermOf (lit "AT+CREG?") ++ lit ": ") []
        = lit "1" := by decide
    rw [e1] at hr
    have hsp : split 44 (lit "1") = [lit "1"] := by decide
    simp only [pollRegistration, hr, hsp, Bool.not_true, Bool.false_eq_true, if_false]

/-- Witness for C18: `AT+CREG?` answered by `OK` alone. -/
theorem registration_check_domain_witness :
    split 44 ([] : GoString) = [[]]
      ∧ pollRegistration (19 + 1) true [] [⟨0, [⟨[lit "OK"], 1⟩]⟩] ⟨[], [], []⟩
          = some (.fault, ⟨[lit "AT+CREG?"], [], [lit "OK"]⟩) :=
  have h := (registration_check_domain 19 true [] ⟨0, [⟨[lit "OK"], 1⟩]⟩ [] ⟨[], [], []⟩ []
    ⟨[lit "AT+CREG?"], [], [lit "OK"]⟩ (by decide)).1 (by simp)
  ⟨h.1, h.2.1⟩

/-! ## C10: how AwaitRegistration ends -/

theorem pollRegistration_fate (i : Nat) (s : Bool) (r : GoString) (envs : List Env)
    (w : World) (out : Outcome (Bool × GoString)) (w2 : World)
    (h : pollRegistration i s r envs w = some (out, w2)) :
    (∀ code, out = .exit code → code = -1
        ∧ ∃ e ∈ envs, ∃ u resp u1,
            makeRequest (lit "AT+CREG?") e u = some ((false, resp), u1))
      ∧ (out = .fault → ∃ e ∈ envs, ∃ u resp u1,
          makeRequest (lit "AT+CREG?") e u = some ((true, resp), u1) ∧ (44 : UInt8) ∉ resp)
      ∧ (∀ resp, out = .ret (false, resp) →
          w2.transmitQueue = w.transmitQueue ++ List.replicate i (lit "AT+CREG?")
            ∧ i ≤ envs.length
            ∧ ∀ e ∈ envs.take i, ∃ u resp1 u1 f0 status rest,
                makeRequest (lit "AT+CREG?") e u = some ((true, resp1), u1)
                  ∧ split 44 resp1 = f0 :: status :: rest
                  ∧ status ≠ lit "1" ∧ status ≠ lit "5") := by
  induction i generalizing s r envs w with
  | zero =>
    simp only [pollRegistration] at h
    obtain ⟨h1, h2⟩ := Prod.mk.inj (Option.some.inj h)
    subst h1
    subst h2
    exact ⟨fun code hc => by simp at hc, fun hc => by simp at hc,
      fun resp _ => ⟨by simp, by simp, by simp⟩⟩
  | succ i ih =>
    cases envs with
    | nil => simp [pollRegistration] at h
    | cons e es =>
      simp only [pollRegistration] at h
      cases h1 : makeRequest (lit "AT+CREG?") e w with
      | none => simp [h1] at h
      | some x =>
        obtain ⟨⟨ok, resp⟩, w1⟩ := x
        have hw1 := (makeRequest_world _ _ _ _ _ h1).2
        simp only [h1] at h
        cases ok with
        | false =>
          simp only [Bool.not_false, if_true, fatal] at h
          obtain ⟨h3, h4⟩ := Prod.mk.inj (Option.some.inj h)
          subst h3
          refine ⟨fun code hc => ?_, fun hc => by simp at hc, fun resp1 hc => by simp at hc⟩
          have hcode : code = -1 := by
            have := Outcome.exit.inj hc
            omega
          exact ⟨hcode, e, List.mem_cons_self e es, w, resp, w1, h1⟩
        | true =>
          simp only [Bool.not_true, Bool.false_eq_true, if_false] at h
          have hcomma : ∀ f0 : GoString, split 44 resp ≠ [] ∧ split 44 resp = [f0] →
              (44 : UInt8) ∉ resp := by
            intro f0 hs hmem
            obtain ⟨g0, g1, rest, hsp⟩ := split_two_of_mem 44 resp hmem
            rw [hsp] at hs
            simp at hs
          cases h2 : split 44 resp with
          | nil =>
            obtain ⟨f, fs, hf⟩ := split_ne_nil 44 resp
            rw [hf] at h2
            simp at h2
          | cons f0 fs =>
            cases fs with
            | nil =>
              simp only [h2] at h
              obtain ⟨h3, h4⟩ := Prod.mk.inj (Option.some.inj h)
              subst h3
              subst h4
              refine ⟨fun code hc => by simp at hc, fun _ => ?_, fun resp1 hc => by simp at hc⟩
              exact ⟨e, List.mem_cons_self e es, w, resp, w1, h1,
                hcomma f0 ⟨by rw [h2]; simp, h2⟩⟩
            | cons status rest =>
              simp only [h2] at h
              by_cases hreg : (status = lit "1" || status = lit "5") = true
              · rw [if_pos hreg] at h
                obtain ⟨h3, h4⟩ := Prod.mk.inj (Option.some.inj h)
                subst h3
                exact ⟨fun code hc => by simp at hc, fun hc => by simp at hc,
                  fun resp1 hc => by simp at hc⟩
              · rw [if_neg hreg] at h
                obtain ⟨ha, hb, hc⟩ := ih false resp es w1 h
                refine ⟨fun code hcode => ?_, fun hf => ?_, fun resp1 hr => ?_⟩
                · obtain ⟨h5, e2, he2, h6⟩ := ha code hcode
                  exact ⟨h5, e2, List.mem_cons_of_mem e he2, h6⟩
                · obtain ⟨e2, he2, h6⟩ := hb hf
                  exact ⟨e2, List.mem_cons_of_mem e he2, h6⟩
                · obtain ⟨htq, hlen, hall⟩ := hc resp1 hr
                  refine ⟨?_, ?_, ?_⟩
                  · rw [htq, hw1, List.replicate_succ]
                    simp
                  · simp only [List.length_cons]
                    omega
                  · intro x hx
                    rw [List.take_succ_cons] at hx
                    rcases List.mem_cons.mp hx with hx | hx
                    · subst hx
                      refine ⟨w, resp, w1, f0, status, rest, h1, h2, ?_, ?_⟩
                      · intro hs
                        exact hreg (by simp [hs])
                      · intro hs
                        exact hreg (by simp [hs])
                    · exact hall x hx

theorem awaitRegistration_fate (s : Bool) (r : GoString) (envs : List Env) (w : World)
    (out : Outcome Unit) (w2 : World) (h : awaitRegistration s r envs w = some (out, w2)) :
    (∀ code, out = .exit code → code = -1
        ∧ ((∃ e ∈ envs, ∃ u resp u1,
              makeRequest (lit "AT+CREG?") e u = some ((false, resp), u1))
          ∨ (w2.transmitQueue
                = w.transmitQueue ++ List.replicate 20 (lit "AT+CREG?") ++ [lit "ATZ"]
              ∧ 20 ≤ envs.length
              ∧ ∀ e ∈ envs.take 20, ∃ u resp u1 f0 status rest,
                  makeRequest (lit "AT+CREG?") e u = some ((true, resp), u1)
                    ∧ split 44 resp = f0 :: status :: rest
                    ∧ status ≠ lit "1" ∧ status ≠ lit "5")))
      ∧ (out = .fault → ∃ e ∈ envs, ∃ u resp u1,
          makeRequest (lit "AT+CREG?") e u = some ((true, resp), u1)
            ∧ (44 : UInt8) ∉ resp) := by
  unfold awaitRegistration at h
  cases hp : pollRegistration 20 s r envs w with
  | none => simp [hp] at h
  | some x =>
    obtain ⟨o, w1⟩ := x
    obtain ⟨ha, hb, hc⟩ := pollRegistration_fate 20 s r envs w o w1 hp
    simp only [hp] at h
    cases o with
    | ret a =>
      obtain ⟨ok, resp⟩ := a
      cases ok with
      | false =>
        simp only [Bool.not_false, if_true, fatal] at h
        obtain ⟨h3, h4⟩ := Prod.mk.inj (Option.some.inj h)
        subst h3
        subst h4
        obtain ⟨htq, hlen, hall⟩ := hc resp rfl
        refine ⟨fun code hcode => ⟨?_, Or.inr ⟨by simp [htq], hlen, hall⟩⟩,
          fun hf => by simp at hf⟩
        have := Outcome.exit.inj hcode
        omega
      | true =>
        simp only [Bool.not_true, Bool.false_eq_true, if_false] at h
        obtain ⟨h3, h4⟩ := Prod.mk.inj (Option.some.inj h)
        subst h3
        exact ⟨fun code hcode => by simp at hcode, fun hf => by simp at hf⟩
    | exit code0 =>
      simp only at h
      obtain ⟨h3, h4⟩ := Prod.mk.inj (Option.some.inj h)
      subst h3
      refine ⟨fun code hcode => ?_, fun hf => by simp at hf⟩
      obtain ⟨h5, h6⟩ := ha code0 rfl
      have := Outcome.exit.inj hcode
      exact ⟨by omega, Or.inl h6⟩
    | fault =>
      simp only at h
      obtain ⟨h3, h4⟩ := Prod.mk.inj (Option.some.inj h)
      subst h3
      exact ⟨fun code hcode => by simp at hcode, fun _ => hb rfl⟩

theorem pollRegistration_failed (i : Nat) (s : Bool) (r : GoString) (e : Env) (es : List Env)
    (v : World) (resp : GoString) (v1 : World)
    (h : makeRequest (lit "AT+CREG?") e v = some ((false, resp), v1)) :
    pollRegistration (i + 1) s r (e :: es) v
      = some (.exit (-1), { v1 with transmitQueue := v1.transmitQueue ++ [lit "ATZ"] }) := by
  simp only [pollRegistration, h, Bool.not_false, if_true, fatal]

theorem pollRegistration_unregistered (w0 : World) (i : Nat) (s : Bool) (r : GoString)
    (envs : List Env) (w : World) (hlen : envs.length = i)
    (hw : w.receiveQueue = [] ∨ w.receiveQueue = w0.receiveQueue)
    (hun : ∀ e ∈ envs, ∀ v : World, (v.receiveQueue = [] ∨ v.receiveQueue = w0.receiveQueue) →
      ∃ ok resp v1, makeRequest (lit "AT+CREG?") e v = some ((ok, resp), v1)
        ∧ (ok = true → ∃ f0 status rest, split 44 resp = f0 :: status :: rest
            ∧ status ≠ lit "1" ∧ status ≠ lit "5")) :
    (∃ s2 resp w2, pollRegistration i s r envs w = some (.ret (s2, resp), w2)
        ∧ (s = false ∨ 1 ≤ i → s2 = false)
        ∧ w2.transmitQueue = w.transmitQueue ++ List.replicate i (lit "AT+CREG?"))
      ∨ (∃ k w2, 1 ≤ k ∧ k ≤ i ∧ pollRegistration i s r envs w = some (.exit (-1), w2)
          ∧ w2.transmitQueue
              = w.transmitQueue ++ List.replicate k (lit "AT+CREG?") ++ [lit "ATZ"]
          ∧ ∃ e ∈ envs, ∃ v : World,
              (v.receiveQueue = [] ∨ v.receiveQueue = w0.receiveQueue)
                ∧ ∃ resp v1, makeRequest (lit "AT+CREG?") e v = some ((false, resp), v1)) := by
  induction i generalizing s r envs w with
  | zero =>
    left
    refine ⟨s, r, w, rfl, ?_, by simp⟩
    intro h
    rcases h with h | h
    · exact h
    · omega
  | succ i ih =>
    cases envs with
    | nil => simp at hlen
    | cons e es =>
      obtain ⟨ok, resp, v1, h1, hok⟩ := hun e (List.mem_cons_self e es) w hw
      have hv1 := makeRequest_world _ _ _ _ _ h1
      cases ok with
      | false =>
        right
        refine ⟨1, _, le_refl 1, by omega, pollRegistration_failed i s r e es w resp v1 h1, ?_,
          e, List.mem_cons_self e es, w, hw, resp, v1, h1⟩
        simp [hv1.2]
      | true =>
        obtain ⟨f0, status, rest, h2, ha, hb⟩ := hok rfl
        have hstep := (pollRegistration_step i s r e es w resp v1 f0 status rest h1 h2).2 ha hb
        rcases ih false resp es v1 (by simpa using hlen) (Or.inl hv1.1)
          (fun x hx => hun x (List.mem_cons_of_mem e hx)) with hl | hr
        · obtain ⟨s2, resp2, w2, hp, hs2, htq⟩ := hl
          left
          refine ⟨s2, resp2, w2, ?_, fun _ => hs2 (Or.inl rfl), ?_⟩
          · rw [hstep, hp]
          · rw [htq, hv1.2, List.replicate_succ]
            simp
        · obtain ⟨k, w2, hk1, hk2, hp, htq, e2, he2, hfail⟩ := hr
          right
          refine ⟨k + 1, w2, by omega, by omega, ?_, ?_, e2, List.mem_cons_of_mem e he2, hfail⟩
          · rw [hstep, hp]
          · rw [htq, hv1.2, List.replicate_succ]
            simp

/-- C10 (amended): in AwaitRegistration a successful `AT+CREG?` payload that
has a second comma-separated field counts as registered exactly when that
field is `1` or `5`: then polling ends, otherwise the next poll follows; the
payload `2,5` of `+CREG: 2,5` ends polling as registered and `2,2` does not.
At most 20 `AT+CREG?` requests are queued. When every request returns, and
each successful one has a status field that is neither `1` nor `5`, the step
is fatal: after `k` requests, `1 ≤ k ≤ 20`, it queues `ATZ` and exits with
status -1, no activation command being issued; `k` is 20 when all requests
succeed. A failed request is fatal at once. In general the step goes on to
session activation only when some request reported `1` or `5`; it exits only
with status -1 and `ATZ` queued last, after a failed request or after 20
successful requests none of which reported `1` or `5`; otherwise it stops in
a run-time panic, which happens only when a successful payload has no comma.
A step that ends without registration issues no activation command. -/
theorem awaitRegistration_spec (success0 : Bool) (response0 : GoString)
    (envs actEnvs : List Env) (w : World)
    (hlen : envs.length = 20)
    (hun : ∀ e ∈ envs, ∀ v : World, (v.receiveQueue = [] ∨ v.receiveQueue = w.receiveQueue) →
      ∃ ok resp v1, makeRequest (lit "AT+CREG?") e v = some ((ok, resp), v1)
        ∧ (ok = true → ∃ f0 status rest, split 44 resp = f0 :: status :: rest
            ∧ status ≠ lit "1" ∧ status ≠ lit "5")) :
    (∃ k w2, 1 ≤ k ∧ k ≤ 20
        ∧ awaitRegistration success0 response0 envs w = some (.exit (-1), w2)
        ∧ registerAndActivate success0 response0 envs actEnvs w = some (.exit (-1), w2)
        ∧ w2.transmitQueue
            = w.transmitQueue ++ List.replicate k (lit "AT+CREG?") ++ [lit "ATZ"]
        ∧ ((∀ e ∈ envs, ∀ v : World,
              (v.receiveQueue = [] ∨ v.receiveQueue = w.receiveQueue) →
              ∃ resp v1, makeRequest (lit "AT+CREG?") e v = some ((true, resp), v1)) →
            k = 20))
      ∧ (∀ (i : Nat) (s : Bool) (r : GoString) (e : Env) (es : List Env) (v : World)
          (resp : GoString) (v1 : World) (f0 status : GoString) (rest : List GoString),
          makeRequest (lit "AT+CREG?") e v = some ((true, resp), v1) →
          split 44 resp = f0 :: status :: rest →
          ((status = lit "1" ∨ status = lit "5") →
              pollRegistration (i + 1) s r (e :: es) v = some (.ret (true, resp), v1))
            ∧ (status ≠ lit "1" → status ≠ lit "5" →
              pollRegistration (i + 1) s r (e :: es) v
                = pollRegistration i false resp es v1))
      ∧ (∀ (i : Nat) (s : Bool) (r : GoString) (es : List Env) (start now : Int) (v : World),
          pollRegistration (i + 1) s r
              (⟨start, [⟨[lit "+CREG: 2,5", lit "OK"], now⟩]⟩ :: es) v
            = some (.ret (true, lit "2,5"),
                ⟨v.transmitQueue ++ [lit "AT+CREG?"], [],
                  v.consumed ++ (v.receiveQueue ++ [lit "+CREG: 2,5", lit "OK"])⟩)
          ∧ pollRegistration (i + 1) s r
              (⟨start, [⟨[lit "+CREG: 2,2", lit "OK"], now⟩]⟩ :: es) v
            = pollRegistration i false (lit "2,2") es
                ⟨v.transmitQueue ++ [lit "AT+CREG?"], [],
                  v.consumed ++ (v.receiveQueue ++ [lit "+CREG: 2,2", lit "OK"])⟩)
      ∧ (∀ (s : Bool) (r : GoString) (es : List Env) (v : World) (out : Outcome Unit)
          (v2 : World), awaitRegistration s r es v = some (out, v2) →
          ∃ k, k ≤ 20 ∧ v2.transmitQueue
            = v.transmitQueue ++ List.replicate k (lit "AT+CREG?") ++ exitTail out)
      ∧ (∀ (s : Bool) (r : GoString) (es : List Env) (v v2 : World),
          awaitRegistration s r es v = some (.ret (), v2) →
          ∃ e ∈ es, ∃ u resp u1 f0 status rest,
            makeRequest (lit "AT+CREG?") e u = some ((true, resp), u1)
              ∧ split 44 resp = f0 :: status :: rest
              ∧ (status = lit "1" ∨ status = lit "5"))
      ∧ (∀ (s : Bool) (r : GoString) (es acts : List Env) (v : World) (out : Outcome Unit)
          (v2 : World), awaitRegistration s r es v = some (out, v2) → out ≠ .ret () →
          registerAndActivate s r es acts v = some (out, v2))
      ∧ (∀ (s : Bool) (r : GoString) (e : Env) (es acts : List Env) (v : World)
          (resp : GoString) (v1 : World),
          makeRequest (lit "AT+CREG?") e v = some ((false, resp), v1) →
          awaitRegistration s r (e :: es) v
              = some (.exit (-1), ⟨v.transmitQueue ++ [lit "AT+CREG?", lit "ATZ"],
                  v1.receiveQueue, v1.consumed⟩)
            ∧ registerAndActivate s r (e :: es) acts v
              = some (.exit (-1), ⟨v.transmitQueue ++ [lit "AT+CREG?", lit "ATZ"],
                  v1.receiveQueue, v1.consumed⟩))
      ∧ (∀ (s : Bool) (r : GoString) (es : List Env) (v : World) (out : Outcome Unit)
          (v2 : World), awaitRegistration s r es v = some (out, v2) →
          (∀ code, out = .exit code → code = -1
              ∧ ((∃ e ∈ es, ∃ u resp u1,
                    makeRequest (lit "AT+CREG?") e u = some ((false, resp), u1))
                ∨ (v2.transmitQueue
                      = v.transmitQueue ++ List.replicate 20 (lit "AT+CREG?") ++ [lit "ATZ"]
                    ∧ 20 ≤ es.length
                    ∧ ∀ e ∈ es.take 20, ∃ u resp u1 f0 status rest,
                        makeRequest (lit "AT+CREG?") e u = some ((true, resp), u1)
                          ∧ split 44 resp = f0 :: status :: rest
                          ∧ status ≠ lit "1" ∧ status ≠ lit "5")))
            ∧ (out = .fault → ∃ e ∈ es, ∃ u resp u1,
                makeRequest (lit "AT+CREG?") e u = some ((true, resp), u1)
                  ∧ (44 : UInt8) ∉ resp)) := by
  refine ⟨?_, ?_, ?_, ?_, ?_, ?_, ?_, ?_⟩
  · rcases pollRegistration_unregistered w 20 success0 response0 envs w hlen (Or.inr rfl) hun
      with hl | hr
    · obtain ⟨s2, resp, w2, hp, hs2, htq⟩ := hl
      have hs : s2 = false := hs2 (Or.inr (by omega))
      rw [hs] at hp
      have ha : awaitRegistration success0 response0 envs w
          = some (.exit (-1), { w2 with transmitQueue := w2.transmitQueue ++ [lit "ATZ"] }) := by
        simp [awaitRegistration, hp, fatal]
      refine ⟨20, _, by omega, le_refl 20, ha, ?_, by simp [htq], fun _ => rfl⟩
      simp [registerAndActivate, ha]
    · obtain ⟨k, w2, hk1, hk2, hp, htq, e, he, v, hv, resp, v1, hfail⟩ := hr
      have ha : awaitRegistration success0 response0 envs w = some (.exit (-1), w2) := by
        simp [awaitRegistration, hp]
      refine ⟨k, w2, hk1, hk2, ha, ?_, htq, ?_⟩
      · simp [registerAndActivate, ha]
      · intro hall
        obtain ⟨resp2, v2, hok⟩ := hall e he v hv
        rw [hok] at hfail
        simp at hfail
  · intro i s r e es v resp v1 f0 status rest h1 h2
    exact pollRegistration_step i s r e es v resp v1 f0 status rest h1 h2
  · intro i s r es start now v
    have h5 := makeRequest_data_then_OK (lit "AT+CREG?") (lit "+CREG: 2,5") start now v
      (by decide)
    have h2 := makeRequest_data_then_OK (lit "AT+CREG?") (lit "+CREG: 2,2") start now v
      (by decide)
    have e5 : replaceFirst (lit "+CREG: 2,5") (searchTermOf (lit "AT+CREG?") ++ lit ": ") []
        = lit "2,5" := by decide
    have e2 : replaceFirst (lit "+CREG: 2,2") (searchTermOf (lit "AT+CREG?") ++ lit ": ") []
        = lit "2,2" := by decide
    rw [e5] at h5
    rw [e2] at h2
    constructor
    · exact (pollRegistration_step i s r _ es v (lit "2,5") _ (lit "2") (lit "5") [] h5
        (by decide)).1 (Or.inr rfl)
    · exact (pollRegistration_step i s r _ es v (lit "2,2") _ (lit "2") (lit "2") [] h2
        (by decide)).2 (by decide) (by decide)
  · intro s r es v out v2 h
    exact awaitRegistration_requests s r es v out v2 h
  · intro s r es v v2 h
    exact awaitRegistration_registered s r es v v2 h
  · intro s r es acts v out v2 h hne
    cases out with
    | ret a => exact absurd rfl hne
    | exit code => simp [registerAndActivate, h]
    | fault => simp [registerAndActivate, h]
  · intro s r e es acts v resp v1 h
    have hv1 := (makeRequest_world _ _ _ _ _ h).2
    have ha : awaitRegistration s r (e :: es) v
        = some (.exit (-1), ⟨v.transmitQueue ++ [lit "AT+CREG?", lit "ATZ"],
            v1.receiveQueue, v1.consumed⟩) := by
      simp [awaitRegistration, pollRegistration_failed 19 s r e es v resp v1 h, hv1]
    refine ⟨ha, ?_⟩
    simp [registerAndActivate, ha]
  · intro s r es v out v2 h
    exact awaitRegistration_fate s r es v out v2 h

/-- Witness for C10: twenty polls, each answered `+CREG: 0,2` and `OK`. -/
theorem awaitRegistration_spec_witness :
    ∃ k w2, 1 ≤ k ∧ k ≤ 20
      ∧ awaitRegistration true []
          (List.replicate 20 ⟨0, [⟨[lit "+CREG: 0,2", lit "OK"], 1⟩]⟩) ⟨[], [], []⟩
        = some (.exit (-1), w2)
      ∧ registerAndActivate true []
          (List.replicate 20 ⟨0, [⟨[lit "+CREG: 0,2", lit "OK"], 1⟩]⟩) [] ⟨[], [], []⟩
        = some (.exit (-1), w2)
      ∧ w2.transmitQueue
          = (⟨[], [], []⟩ : World).transmitQueue ++ List.replicate k (lit "AT+CREG?")
              ++ [lit "ATZ"]
      ∧ ((∀ e ∈ List.replicate 20 (⟨0, [⟨[lit "+CREG: 0,2", lit "OK"], 1⟩]⟩ : Env),
            ∀ v : World,
            (v.receiveQueue = [] ∨ v.receiveQueue = (⟨[], [], []⟩ : World).receiveQueue) →
            ∃ resp v1, makeRequest (lit "AT+CREG?") e v = some ((true, resp), v1)) →
          k = 20) :=
  (awaitRegistration_spec true [] (List.replicate 20 ⟨0, [⟨[lit "+CREG: 0,2", lit "OK"], 1⟩]⟩)
    [] ⟨[], [], []⟩ (List.length_replicate 20 _)
    (fun e he v _ => by
      rw [List.eq_of_mem_replicate he]
      exact ⟨true, lit "0,2", _,
        (makeRequest_data_then_OK (lit "AT+CREG?") (lit "+CREG: 0,2") 0 1 v (by decide)).trans
          (by
            have e2 : replaceFirst (lit "+CREG: 0,2")
                (searchTermOf (lit "AT+CREG?") ++ lit ": ") [] = lit "0,2" := by decide
            rw [e2]),
        fun _ => ⟨lit "0", lit "2", [], by decide, by decide, by decide⟩⟩)).1

set_option maxRecDepth 100000 in
/-- C10 as stated fails when a poll succeeds with a payload that has no
comma. `AT+CREG?` answered by `OK` alone returns success with the empty
payload; reading field 1 of it at line 224 stops the script in a run-time
panic: no request reported `1` or `5`, yet `ATZ` is not queued and the
fatal path is not taken. So it is after nineteen polls answered
`+CREG: 0,2`, `OK` and a twentieth answered `OK` alone. -/
theorem awaitRegistration_spec_counterexample :
    awaitRegistration true [] [⟨0, [⟨[lit "OK"], 1⟩]⟩] ⟨[], [], []⟩
        = some (.fault, ⟨[lit "AT+CREG?"], [], [lit "OK"]⟩)
      ∧ makeRequest (lit "AT+CREG?") ⟨0, [⟨[lit "OK"], 1⟩]⟩ ⟨[], [], []⟩
        = some ((true, []), ⟨[lit "AT+CREG?"], [], [lit "OK"]⟩)
      ∧ awaitRegistration true []
          (List.replicate 19 ⟨0, [⟨[lit "+CREG: 0,2", lit "OK"], 1⟩]⟩
            ++ [⟨0, [⟨[lit "OK"], 1⟩]⟩]) ⟨[], [], []⟩
        = some (.fault, ⟨List.replicate 20 (lit "AT+CREG?"), [],
            (List.replicate 19 [lit "+CREG: 0,2", lit "OK"]).flatten ++ [lit "OK"]⟩)
      ∧ registerAndActivate true []
          (List.replicate 19 ⟨0, [⟨[lit "+CREG: 0,2", lit "OK"], 1⟩]⟩
            ++ [⟨0, [⟨[lit "OK"], 1⟩]⟩]) [] ⟨[], [], []⟩
        = some (.fault, ⟨List.replicate 20 (lit "AT+CREG?"), [],
            (List.replicate 19 [lit "+CREG: 0,2", lit "OK"]).flatten ++ [lit "OK"]⟩) := by
  decide

/-! ## C20: the payload slot -/

theorem foldl_response (term : GoString) (lines : List GoString) (r : Request) :
    (lines.foldl (classify term) r).response
      = match (lines.filter (fun s => isData term s || isError term s)).getLast? with
        | none => r.response
        | some s => if isData term s then replaceFirst s (term ++ lit ": ") [] else s := by
  induction lines using List.reverseRecOn with
  | nil => rfl
  | append_singleton lines x ih =>
    rw [List.foldl_append, List.foldl_cons, List.foldl_nil, List.filter_append]
    by_cases hd : isData term x = true
    · have hf : [x].filter (fun s => isData term s || isError term s) = [x] := by
        simp [hd]
      rw [hf, List.getLast?_concat, classify_data term _ x hd]
      simp [hd]
    · by_cases he : isError term x = true
      · have hf : [x].filter (fun s => isData term s || isError term s) = [x] := by
          simp [he]
        rw [hf, List.getLast?_concat, classify_ERROR term _ x he]
        simp [hd]
      · have hf : [x].filter (fun s => isData term s || isError term s) = [] := by
          simp [hd, he]
        rw [hf, List.append_nil,
          classify_response_keep term _ x (by simpa using hd) (by simpa using he)]
        exact ih

theorem awaitLoop_completed_fold (term : GoString) (timeout : Int) (passes : List Pass)
    (r : Request) (w : World) (ok : Bool) (payload : GoString) (w2 : World)
    (h : awaitLoop term timeout r w passes = some (.completed ok payload, w2)) :
    ∃ done, w2.consumed = w.consumed ++ done
      ∧ payload = (done.foldl (classify term) r).response
      ∧ ok = (done.foldl (classify term) r).success := by
  induction passes generalizing r w with
  | nil => simp [awaitLoop] at h
  | cons p ps ih =>
    rw [awaitLoop_cons] at h
    by_cases hc : ((w.receiveQueue ++ p.arrived).foldl (classify term) r).completed = true
    · rw [if_pos hc] at h
      obtain ⟨h1, h2⟩ := Prod.mk.inj (Option.some.inj h)
      obtain ⟨h3, h4⟩ := Exit.completed.inj h1
      exact ⟨w.receiveQueue ++ p.arrived, by rw [← h2]; rfl, h4.symm, h3.symm⟩
    · rw [if_neg hc] at h
      by_cases hd : p.now > timeout
      · rw [if_pos hd] at h
        have := (Prod.mk.inj (Option.some.inj h)).1
        exact absurd this (by simp)
      · rw [if_neg hd] at h
        obtain ⟨done, h1, h2, h3⟩ := ih _ (afterPass w p) h
        refine ⟨(w.receiveQueue ++ p.arrived) ++ done, ?_, ?_, ?_⟩
        · rw [h1]; simp [afterPass]
        · rw [List.foldl_append]; exact h2
        · rw [List.foldl_append]; exact h3

/-- C20: `makeRequest` has one payload slot, overwritten by every data
response and every error line. When a call returns other than by the
time-out, the lines it has removed from the queue determine the payload: it
is that of the last of them that is a data response (the line with its first
`"<term>: "` removed) or an error line (the line itself), and empty if there
is none; so of a reply of several data lines only the last is returned. With
an empty search term, as for the command `AT`, no line is a data response. -/
theorem makeRequest_payload_slot (command : GoString) (env : Env) (w : World) (ok : Bool)
    (payload : GoString) (w2 : World)
    (h : makeRequestExit command env w = some (.completed ok payload, w2)) :
    (∃ done, w2.consumed = w.consumed ++ done
        ∧ payload = lastPayload (searchTermOf command) done)
      ∧ makeRequest command env w = some ((ok, payload), w2)
      ∧ (∀ (term : GoString) (r : Request) (pre post : List GoString) (d : GoString),
          isData term d = true →
          (∀ x ∈ post, isData term x = false ∧ isError term x = false) →
          ((pre ++ d :: post).foldl (classify term) r).response
            = replaceFirst d (term ++ lit ": ") [])
      ∧ (∀ (term : GoString) (r : Request) (pre post : List GoString) (x : GoString),
          isError term x = true →
          (∀ y ∈ post, isData term y = false ∧ isError term y = false) →
          ((pre ++ x :: post).foldl (classify term) r).response = x)
      ∧ (∀ s : GoString, isData [] s = false)
      ∧ searchTermOf (lit "AT") = []
      ∧ (∀ (r : Request) (s : GoString),
          (classify [] r s).response = r.response ∨ isError [] s = true) := by
  refine ⟨?_, ?_, ?_, ?_, ?_, by decide, ?_⟩
  · unfold makeRequestExit at h
    obtain ⟨done, h1, h2, _⟩ := awaitLoop_completed_fold _ _ _ _ _ ok payload w2 h
    refine ⟨done, h1, ?_⟩
    rw [h2, foldl_response]
    rfl
  · simp only [makeRequest, h, Option.map_some', Exit.result]
  · intro term r pre post d hd hpost
    rw [List.foldl_append, List.foldl_cons, foldl_response_keep term post _ hpost,
      classify_data term _ d hd]
  · intro term r pre post x hx hpost
    rw [List.foldl_append, List.foldl_cons, foldl_response_keep term post _ hpost,
      classify_ERROR term _ x hx]
  · intro s
    simp [isData]
  · intro r s
    by_cases he : isError [] s = true
    · exact Or.inr he
    · exact Or.inl (classify_response_keep [] r s (by simp [isData]) (by simpa using he))

/-- Witness for C20: a reply of two data lines and `OK`; the payload is that
of the second line. -/
theorem makeRequest_payload_slot_witness :
    (∃ done, (⟨[lit "AT+CGDCONT?"], [],
          [lit "+CGDCONT: 1", lit "+CGDCONT: 2", lit "OK"]⟩ : World).consumed = [] ++ done
        ∧ lit "2" = lastPayload (searchTermOf (lit "AT+CGDCONT?")) done)
      ∧ makeRequest (lit "AT+CGDCONT?")
          ⟨0, [⟨[lit "+CGDCONT: 1", lit "+CGDCONT: 2", lit "OK"], 1⟩]⟩ ⟨[], [], []⟩
        = some ((true, lit "2"),
            ⟨[lit "AT+CGDCONT?"], [], [lit "+CGDCONT: 1", lit "+CGDCONT: 2", lit "OK"]⟩) :=
  have h := makeRequest_payload_slot (lit "AT+CGDCONT?")
    ⟨0, [⟨[lit "+CGDCONT: 1", lit "+CGDCONT: 2", lit "OK"], 1⟩]⟩ ⟨[], [], []⟩ true (lit "2")
    ⟨[lit "AT+CGDCONT?"], [], [lit "+CGDCONT: 1", lit "+CGDCONT: 2", lit "OK"]⟩ (by decide)
  ⟨h.1, h.2.1⟩

/-! ## C16: the three settings and the restart -/

/-- What an enforcement that returns has appended to the transmit queue: the
query, and the setting itself when it returns true. -/
theorem enforceModemSetting_ret (setting q v : GoString) (rest : List GoString) (e1 e2 : Env)
    (w : World) (r : Bool) (w1 : World) (hsp : split 61 setting = q :: v :: rest)
    (h : enforceModemSetting setting e1 e2 w = some (.ret r, w1)) :
    w1.transmitQueue
      = w.transmitQueue ++ [q ++ lit "?"] ++ (if r then [setting] else []) := by
  simp only [enforceModemSetting, hsp] at h
  cases h1 : makeRequest (q ++ lit "?") e1 w with
  | none => simp [h1] at h
  | some x =>
    obtain ⟨⟨ok, resp⟩, wq⟩ := x
    have hq := (makeRequest_world _ _ _ _ _ h1).2
    simp only [h1] at h
    cases ok with
    | false => simp [fatal] at h
    | true =>
      cases hc : contains resp v with
      | true =>
        simp [hc] at h
        rw [← h.2, h.1, hq]
        simp
      | false =>
        simp only [hc] at h
        cases h2 : makeRequest setting e2 wq with
        | none => simp [h2] at h
        | some y =>
          obtain ⟨⟨ok2, resp2⟩, w2⟩ := y
          have hq2 := (makeRequest_world _ _ _ _ _ h2).2
          simp only [h2] at h
          cases ok2 with
          | false => simp [fatal] at h
          | true =>
            simp at h
            rw [← h.2, h.1, hq2, hq]
            simp

theorem enforceAndRequestRestart_of_rets (e1 e2 e3 e4 e5 e6 : Env) (w : World)
    (r1 r2 r3 : Bool) (w1 w2 w3 : World)
    (h1 : enforceModemSetting (lit "AT+UBMCONF=2") e1 e2 w = some (.ret r1, w1))
    (h2 : enforceModemSetting (lit "AT+UUSBCONF=2,\"ECM\"") e3 e4 w1 = some (.ret r2, w2))
    (h3 : enforceModemSetting (lit "AT+UWWEBUI=1") e5 e6 w2 = some (.ret r3, w3)) :
    enforceAndRequestRestart e1 e2 e3 e4 e5 e6 w
      = some (.ret (r1 || r2 || r3),
          if (r1 || r2 || r3) = true then
            { w3 with transmitQueue := w3.transmitQueue ++ [lit "AT+CFUN=1,1"] }
          else w3) := by
  simp only [enforceAndRequestRestart, enforceSettings, h1, h2, h3]
  cases r1 <;> cases r2 <;> cases r3 <;> simp

/-- C16: in EnforceSettings the three settings `AT+UBMCONF=2`,
`AT+UUSBCONF=2,"ECM"`, `AT+UWWEBUI=1` are enforced in that order whatever the
earlier ones returned: whenever the step gets past line 162 all three
enforcements have returned, and for every three results the step gets there.
The restart branch is taken exactly when at least one of them returned true,
and `AT+CFUN=1,1` is queued then and only then, once, after the queries and
corrective commands of all three settings. -/
theorem enforceSettings_all (e1 e2 e3 e4 e5 e6 : Env) (w : World) (b : Bool) (w4 : World)
    (h : enforceAndRequestRestart e1 e2 e3 e4 e5 e6 w = some (.ret b, w4)) :
    (∃ r1 r2 r3 w1 w2 w3,
        enforceModemSetting (lit "AT+UBMCONF=2") e1 e2 w = some (.ret r1, w1)
          ∧ enforceModemSetting (lit "AT+UUSBCONF=2,\"ECM\"") e3 e4 w1 = some (.ret r2, w2)
          ∧ enforceModemSetting (lit "AT+UWWEBUI=1") e5 e6 w2 = some (.ret r3, w3)
          ∧ (b = true ↔ r1 = true ∨ r2 = true ∨ r3 = true)
          ∧ w4.transmitQueue = w.transmitQueue ++
              ([lit "AT+UBMCONF?"] ++ (if r1 then [lit "AT+UBMCONF=2"] else [])
                ++ [lit "AT+UUSBCONF?"] ++ (if r2 then [lit "AT+UUSBCONF=2,\"ECM\""] else [])
                ++ [lit "AT+UWWEBUI?"] ++ (if r3 then [lit "AT+UWWEBUI=1"] else [])
                ++ (if b then [lit "AT+CFUN=1,1"] else []))
          ∧ (w4.transmitQueue.drop w.transmitQueue.length).count (lit "AT+CFUN=1,1")
              = (if b then 1 else 0))
      ∧ (∀ (r1 r2 r3 : Bool) (w1 w2 w3 : World),
          enforceModemSetting (lit "AT+UBMCONF=2") e1 e2 w = some (.ret r1, w1) →
          enforceModemSetting (lit "AT+UUSBCONF=2,\"ECM\"") e3 e4 w1 = some (.ret r2, w2) →
          enforceModemSetting (lit "AT+UWWEBUI=1") e5 e6 w2 = some (.ret r3, w3) →
          enforceAndRequestRestart e1 e2 e3 e4 e5 e6 w
            = some (.ret (r1 || r2 || r3),
                if (r1 || r2 || r3) = true then
                  { w3 with transmitQueue := w3.transmitQueue ++ [lit "AT+CFUN=1,1"] }
                else w3)) := by
  refine ⟨?_, fun r1 r2 r3 w1 w2 w3 h1 h2 h3 =>
    enforceAndRequestRestart_of_rets e1 e2 e3 e4 e5 e6 w r1 r2 r3 w1 w2 w3 h1 h2 h3⟩
  cases h1 : enforceModemSetting (lit "AT+UBMCONF=2") e1 e2 w with
  | none => simp [enforceAndRequestRestart, enforceSettings, h1] at h
  | some x1 =>
    obtain ⟨o1, w1⟩ := x1
    cases o1 with
    | exit code => simp [enforceAndRequestRestart, enforceSettings, h1] at h
    | fault => simp [enforceAndRequestRestart, enforceSettings, h1] at h
    | ret r1 =>
      cases h2 : enforceModemSetting (lit "AT+UUSBCONF=2,\"ECM\"") e3 e4 w1 with
      | none => simp [enforceAndRequestRestart, enforceSettings, h1, h2] at h
      | some x2 =>
        obtain ⟨o2, w2⟩ := x2
        cases o2 with
        | exit code => simp [enforceAndRequestRestart, enforceSettings, h1, h2] at h
        | fault => simp [enforceAndRequestRestart, enforceSettings, h1, h2] at h
        | ret r2 =>
          cases h3 : enforceModemSetting (lit "AT+UWWEBUI=1") e5 e6 w2 with
          | none => simp [enforceAndRequestRestart, enforceSettings, h1, h2, h3] at h
          | some x3 =>
            obtain ⟨o3, w3⟩ := x3
            cases o3 with
            | exit code => simp [enforceAndRequestRestart, enforceSettings, h1, h2, h3] at h
            | fault => simp [enforceAndRequestRestart, enforceSettings, h1, h2, h3] at h
            | ret r3 =>
              rw [enforceAndRequestRestart_of_rets e1 e2 e3 e4 e5 e6 w r1 r2 r3 w1 w2 w3
                h1 h2 h3] at h
              obtain ⟨hb0, hw4⟩ := Prod.mk.inj (Option.some.inj h)
              have hb : (r1 || r2 || r3) = b := Outcome.ret.inj hb0
              have t1 := enforceModemSetting_ret (lit "AT+UBMCONF=2") (lit "AT+UBMCONF")
                (lit "2") [] e1 e2 w r1 w1 (by decide) h1
              have t2 := enforceModemSetting_ret (lit "AT+UUSBCONF=2,\"ECM\"")
                (lit "AT+UUSBCONF") (lit "2,\"ECM\"") [] e3 e4 w1 r2 w2 (by decide) h2
              have t3 := enforceModemSetting_ret (lit "AT+UWWEBUI=1") (lit "AT+UWWEBUI")
                (lit "1") [] e5 e6 w2 r3 w3 (by decide) h3
              have q1 : lit "AT+UBMCONF" ++ lit "?" = lit "AT+UBMCONF?" := by decide
              have q2 : lit "AT+UUSBCONF" ++ lit "?" = lit "AT+UUSBCONF?" := by decide
              have q3 : lit "AT+UWWEBUI" ++ lit "?" = lit "AT+UWWEBUI?" := by decide
              rw [q1] at t1
              rw [q2] at t2
              rw [q3] at t3
              have htq : w4.transmitQueue = w.transmitQueue ++
                  ([lit "AT+UBMCONF?"] ++ (if r1 then [lit "AT+UBMCONF=2"] else [])
                    ++ [lit "AT+UUSBCONF?"]
                    ++ (if r2 then [lit "AT+UUSBCONF=2,\"ECM\""] else [])
                    ++ [lit "AT+UWWEBUI?"] ++ (if r3 then [lit "AT+UWWEBUI=1"] else [])
                    ++ (if b then [lit "AT+CFUN=1,1"] else [])) := by
                rw [← hw4, ← hb]
                cases r1 <;> cases r2 <;> cases r3 <;> simp [t1, t2, t3]
              refine ⟨r1, r2, r3, w1, w2, w3, rfl, h2, h3, ?_, htq, ?_⟩
              · rw [← hb]
                cases r1 <;> cases r2 <;> cases r3 <;> simp
              · rw [htq, List.drop_left, ← hb]
                cases r1 <;> cases r2 <;> cases r3 <;> decide

/-- Witness for C16: the first setting needs correction, the other two are
as desired. -/
theorem enforceSettings_all_witness :
    enforceAndRequestRestart
        ⟨0, [⟨[lit "+UBMCONF: 0", lit "OK"], 1⟩]⟩ ⟨0, [⟨[lit "OK"], 1⟩]⟩
        ⟨0, [⟨[lit "+UUSBCONF: 2,\"ECM\"", lit "OK"], 1⟩]⟩ ⟨0, []⟩
        ⟨0, [⟨[lit "+UWWEBUI: 1", lit "OK"], 1⟩]⟩ ⟨0, []⟩ ⟨[], [], []⟩
      = some (.ret true,
          ⟨[lit "AT+UBMCONF?", lit "AT+UBMCONF=2", lit "AT+UUSBCONF?", lit "AT+UWWEBUI?",
              lit "AT+CFUN=1,1"], [],
            [lit "+UBMCONF: 0", lit "OK", lit "OK", lit "+UUSBCONF: 2,\"ECM\"", lit "OK",
              lit "+UWWEBUI: 1", lit "OK"]⟩)
      ∧ ∃ r1 r2 r3 : Bool, (true = true ↔ r1 = true ∨ r2 = true ∨ r3 = true) :=
  ⟨by decide,
    let ⟨r1, r2, r3, _, _, _, _, _, _, hb, _⟩ :=
      (enforceSettings_all
        ⟨0, [⟨[lit "+UBMCONF: 0", lit "OK"], 1⟩]⟩ ⟨0, [⟨[lit "OK"], 1⟩]⟩
        ⟨0, [⟨[lit "+UUSBCONF: 2,\"ECM\"", lit "OK"], 1⟩]⟩ ⟨0, []⟩
        ⟨0, [⟨[lit "+UWWEBUI: 1", lit "OK"], 1⟩]⟩ ⟨0, []⟩ ⟨[], [], []⟩ true
        ⟨[lit "AT+UBMCONF?", lit "AT+UBMCONF=2", lit "AT+UUSBCONF?", lit "AT+UWWEBUI?",
            lit "AT+CFUN=1,1"], [],
          [lit "+UBMCONF: 0", lit "OK", lit "OK", lit "+UUSBCONF: 2,\"ECM\"", lit "OK",
            lit "+UWWEBUI: 1", lit "OK"]⟩ (by decide)).1
    ⟨r1, r2, r3, hb⟩⟩

/-! ## C15: calls in progress -/

/-- An iteration of a goroutine is the iteration of the wait loop of
`makeRequest`. -/
theorem iterate_awaitLoop (term : GoString) (timeout : Int) (r : Request) (w : World)
    (p : Pass) (ps : List Pass) :
    ((iterate term timeout r w p).1 = .outside →
        ∃ e, awaitLoop term timeout r w (p :: ps) = some (e, (iterate term timeout r w p).2))
      ∧ (∀ r1, (iterate term timeout r w p).1 = .waiting term timeout r1 →
          awaitLoop term timeout r w (p :: ps)
            = awaitLoop term timeout r1 (iterate term timeout r w p).2 ps) := by
  simp only [iterate, awaitLoop]
  by_cases hc : (drain term r (w.receiveQueue ++ p.arrived) w.consumed).1.completed = true
  · simp [hc]
  · by_cases hd : p.now > timeout
    · simp [hc, hd]
    · simp only [hc, hd, if_false, Bool.false_eq_true]
      constructor
      · intro h
        exact absurd h (by simp)
      · intro r1 h
        have hr : (drain term r (w.receiveQueue ++ p.arrived) w.consumed).1 = r1 := by
          simpa using h
        rw [hr]

theorem iterate_world (term : GoString) (timeout : Int) (r : Request) (w : World) (p : Pass) :
    (iterate term timeout r w p).2
      = { w with receiveQueue := [], consumed := w.consumed ++ (w.receiveQueue ++ p.arrived) } := by
  simp only [iterate, drain_eq]
  split_ifs <;> rfl

theorem step_invariants (s s1 : Tasks) (ev : Event) (h : s.step ev = some s1) :
    s1.console.isSome = s.console.isSome
      ∧ s1.world.consumed ++ s1.world.receiveQueue
          = s.world.consumed ++ s.world.receiveQueue ++ arrivedIn [ev] := by
  cases ev with
  | call t command start =>
    simp only [Tasks.step] at h
    cases t with
    | script =>
      simp only [Tasks.caller] at h
      cases hs : s.script with
      | outside =>
        simp only [hs, Tasks.setCaller, Option.some.injEq] at h
        rw [← h]
        simp [arrivedIn]
      | waiting a b c => simp [hs] at h
    | console =>
      simp only [Tasks.caller] at h
      cases hs : s.console with
      | none => simp [hs] at h
      | some c =>
        cases c with
        | outside =>
          simp only [hs, Tasks.setCaller, Option.some.injEq] at h
          rw [← h]
          simp [arrivedIn]
        | waiting a b c => simp [hs] at h
  | pass t p =>
    simp only [Tasks.step] at h
    cases t with
    | script =>
      simp only [Tasks.caller] at h
      cases hs : s.script with
      | outside => simp [hs] at h
      | waiting a b c =>
        simp only [hs, Tasks.setCaller, Option.some.injEq] at h
        rw [← h]
        simp [arrivedIn, iterate_world]
    | console =>
      simp only [Tasks.caller] at h
      cases hs : s.console with
      | none => simp [hs] at h
      | some c =>
        cases c with
        | outside => simp [hs] at h
        | waiting a b c =>
          simp only [hs, Tasks.setCaller, Option.some.injEq] at h
          rw [← h]
          simp [arrivedIn, iterate_world]

theorem arrivedIn_cons (ev : Event) (evs : List Event) :
    arrivedIn (ev :: evs) = arrivedIn [ev] ++ arrivedIn evs := by
  cases ev <;> simp [arrivedIn]

theorem run_invariants (events : List Event) (s s2 : Tasks) (h : s.run events = some s2) :
    s2.console.isSome = s.console.isSome
      ∧ s2.world.consumed ++ s2.world.receiveQueue
          = s.world.consumed ++ s.world.receiveQueue ++ arrivedIn events := by
  induction events generalizing s with
  | nil =>
    simp only [Tasks.run, Option.some.injEq] at h
    rw [← h]
    simp [arrivedIn]
  | cons ev evs ih =>
    simp only [Tasks.run] at h
    cases hst : s.step ev with
    | none => simp [hst] at h
    | some s1 =>
      simp only [hst] at h
      obtain ⟨h1, h2⟩ := step_invariants s s1 ev hst
      obtain ⟨h3, h4⟩ := ih s1 h
      refine ⟨h3.trans h1, ?_⟩
      rw [h4, h2, arrivedIn_cons ev evs]
      simp

/-- C15 (amended): when the console task is not started (debug mode off),
at every moment of every execution at most one call of `makeRequest` is in
progress, and every line that was queued or has arrived is either still in
the receive queue or was removed from it once, in order. In debug mode the
calls of `readStdin` and of `runScript` are not ordered against each other:
each goroutine has at most one call in progress, so at most two are in
progress at once. An iteration of a goroutine is an iteration of the wait
loop of `makeRequest`. -/
theorem tasks_inProgress (debug : Bool) (w : World) (events : List Event) (s : Tasks)
    (h : (Tasks.start debug w).run events = some s) :
    s.inProgress ≤ (if debug then 2 else 1)
      ∧ (debug = false → s.console = none ∧ s.inProgress ≤ 1
          ∧ s.world.consumed ++ s.world.receiveQueue
              = w.consumed ++ w.receiveQueue ++ arrivedIn events)
      ∧ (∀ (term : GoString) (timeout : Int) (r : Request) (v : World) (p : Pass)
          (ps : List Pass),
          ((iterate term timeout r v p).1 = .outside →
              ∃ e, awaitLoop term timeout r v (p :: ps)
                = some (e, (iterate term timeout r v p).2))
            ∧ (∀ r1, (iterate term timeout r v p).1 = .waiting term timeout r1 →
                awaitLoop term timeout r v (p :: ps)
                  = awaitLoop term timeout r1 (iterate term timeout r v p).2 ps)) := by
  obtain ⟨h1, h2⟩ := run_invariants events _ s h
  have hcons : s.console.isSome = debug := by
    rw [h1]
    cases debug <;> rfl
  refine ⟨?_, ?_, iterate_awaitLoop⟩
  · cases debug with
    | false =>
      have hn : s.console = none := by
        cases hc : s.console with
        | none => rfl
        | some c => rw [hc] at hcons; exact absurd hcons (by simp)
      simp only [Tasks.inProgress, hn]
      cases s.script.busy <;> simp
    | true =>
      simp only [Tasks.inProgress]
      cases s.console with
      | none => cases s.script.busy <;> simp
      | some c =>
        simp only []
        split_ifs <;> omega
  · intro hd
    subst hd
    have hn : s.console = none := by
      cases hc : s.console with
      | none => rfl
      | some c => rw [hc] at hcons; exact absurd hcons (by simp)
    refine ⟨hn, ?_, h2⟩
    simp only [Tasks.inProgress, hn]
    cases s.script.busy <;> simp

/-- Witness for C15: debug mode off, one call of the script that returns on
`OK`. -/
theorem tasks_inProgress_witness :
    (Tasks.start false ⟨[], [], []⟩).run
        [.call .script (lit "AT+CREG?") 0, .pass .script ⟨[lit "+CREG: 0,1"], 1⟩,
          .pass .script ⟨[lit "OK"], 2⟩]
      = some ⟨⟨[lit "AT+CREG?"], [], [lit "+CREG: 0,1", lit "OK"]⟩, .outside, none⟩
      ∧ (⟨⟨[lit "AT+CREG?"], [], [lit "+CREG: 0,1", lit "OK"]⟩, .outside, none⟩ : Tasks).inProgress
          ≤ (if false = true then 2 else 1) :=
  ⟨by decide,
    (tasks_inProgress false ⟨[], [], []⟩
      [.call .script (lit "AT+CREG?") 0, .pass .script ⟨[lit "+CREG: 0,1"], 1⟩,
        .pass .script ⟨[lit "OK"], 2⟩]
      ⟨⟨[lit "AT+CREG?"], [], [lit "+CREG: 0,1", lit "OK"]⟩, .outside, none⟩ (by decide)).1⟩

/-- C15 as stated fails in debug mode: while the script sleeps in the wait
loop of its call for `AT+CREG?`, the console task calls `makeRequest` for the
typed command `AT`, and two calls are in progress. The `OK` that then arrives
is taken by the console's call, which returns; the script's call is still
waiting. -/
theorem tasks_inProgress_counterexample :
    ((Tasks.start true ⟨[], [], []⟩).run
        [.call .script (lit "AT+CREG?") 0, .pass .script ⟨[], 1⟩,
          .call .console (lit "AT") 2]).map Tasks.inProgress = some 2
      ∧ (Tasks.start true ⟨[], [], []⟩).run
          [.call .script (lit "AT+CREG?") 0, .pass .script ⟨[], 1⟩,
            .call .console (lit "AT") 2, .pass .console ⟨[lit "OK"], 3⟩]
        = some ⟨⟨[lit "AT+CREG?", lit "AT"], [], [lit "OK"]⟩,
            .waiting (lit "+CREG") 5000000000 Request.init, some .outside⟩ := by
  decide

end TobyLTE
